import Mathlib

/-!
Asynchronous segmented line trace: engine and registry

A shallow embedding of `AsyncLineTrace.cpp` and `AsyncTraceSubsystem.cpp`.

Modelling conventions

* Objects live in a heap indexed by address (`Nat`); a pointer is an `Option Nat`,
  `none` being `nullptr`.  `State.Objects` maps the address of every trace object to
  its fields.
* There is one world.  `State.WorldLive c` tells whether `c->GetWorld()` is non-null for
  the context object `c`; `State.HasSubsystem` tells whether
  `World->GetSubsystem<UAsyncTraceSubsystem>()` is non-null.  The array of the subsystem
  is `State.ActiveAsyncLineTraces`.
* The scene query backend is external.  Issuing a query appends it to `State.InFlight`;
  `DeliverCallback` takes the oldest outstanding query of an object and runs the bound
  completion delegate (`OnTraceCompleted`) on it.
* The three internal delegates are bound by the factories, each to the member functions
  of its own class; a broadcast therefore runs the handler of the class of the object.
  Handlers that user code binds to `Completed` are outside the model.
* Every externally visible effect (delegate broadcast, backend query, debug draw,
  diagnostic of a non-shipping build) is appended to `State.Events`, in program order.
* Floating point coordinates are abstracted to integers; names (`FName`), colours,
  channels and object types to natural numbers.
* A hit may have no actor: `FHitResult.Actor` is what `GetActor()` returns, `none` being
  `nullptr`.  A function that dereferences a pointer without a check returns
  `Except.error` with the state it had reached when the pointer is null; the process
  ends there: `State.Crashed` is set and no later operation has an effect.
* `NewObject` zero-fills the object, so the members without initialiser
  (`bTraceInProgress`, `bCalledCancel`, `CurrentTraceIndex`) start as `false`, `false`, `0`.
-/

namespace AsyncTrace

/-! ## Data model (`AsyncLineTrace.h`) -/

/-- World-space vector. -/
structure FVector where
  X : Int
  Y : Int
  Z : Int
deriving DecidableEq

instance : Add FVector := ⟨fun a b => ⟨a.X + b.X, a.Y + b.Y, a.Z + b.Z⟩⟩

/-- The zero vector, `FVector::ZeroVector`. -/
def FVector.ZeroVector : FVector := ⟨0, 0, 0⟩

/-- One hit reported by the backend (the members the plugin reads).  `Actor` is the
result of `GetActor()`; a hit whose actor is gone, or that never had one, has `none`. -/
structure FHitResult where
  Actor : Option Nat
  Location : FVector
  ImpactPoint : FVector
deriving DecidableEq

/-- Result set handed to the completion delegate (the member the plugin reads). -/
structure FTraceDatum where
  OutHits : List FHitResult
deriving DecidableEq

/-- Blueprint-exposed trace kind; `Other` stands for any byte of the `TEnumAsByte`
that is neither enumerator. -/
inductive ETraceTypeCustom
  | Single
  | Multi
  | Other
deriving DecidableEq

/-- Backend trace kind (`WorldCollision.h`). -/
inductive EAsyncTraceType
  | Test
  | Single
  | Multi
deriving DecidableEq

/-- One segment of a request. -/
structure FTraceStartStopVectors where
  StartLocation : FVector
  EndLocation : FVector
deriving DecidableEq

/-- The trace request. -/
structure FAsyncTraceInputData where
  TraceID : Nat
  WorldContextObject : Option Nat
  TraceOrginActor : Option Nat
  StartAndEndLocations : List FTraceStartStopVectors
  bTraceComplex : Bool
  ActorsToIgnore : List Nat
  bPrintCurrentHitInfo : Bool
  bDebugDraw : Bool
  DrawTime : Int
  TraceColor : Nat
  HitColor : Nat
deriving DecidableEq

/-- Which of the three concrete classes an object is; it decides which member
functions its factory bound to the three internal delegates. -/
inductive ETraceClass
  | Channel
  | Profile
  | Objects
deriving DecidableEq

/-- Fields of a trace object: those of `UAsyncLineTrace` followed by the selector
members of the three subclasses. -/
structure UAsyncLineTrace where
  Class : ETraceClass
  CurrentTraceID : Nat
  OutHits : List FHitResult
  bTraceInProgress : Bool
  bCalledCancel : Bool
  InputData : FAsyncTraceInputData
  CurrentTraceStart : FVector
  CurrentTraceEnd : FVector
  WorldContextObject : Option Nat
  CurrentTraceIndex : Int
  TraceType : EAsyncTraceType
  CurrentTraceHandle : Nat
  CollisionChannel : Nat
  CollisionProfile : Nat
  ObjectTypes : List Nat
deriving DecidableEq

/-- Backend entry point called, with the selector passed to it. -/
inductive FTraceSelector
  | ByChannel (Channel : Nat)
  | ByProfile (ProfileName : Nat)
  | ByObjectType (Channels : List Nat)
deriving DecidableEq

/-- One query handed to the backend.  `Owner` is the object whose completion delegate
was passed; `Segment` records the value of `CurrentTraceIndex` when the query was
issued (bookkeeping of the model, the backend does not see it). -/
structure FTraceQuery where
  Owner : Nat
  Handle : Nat
  Segment : Int
  TraceType : EAsyncTraceType
  Start : FVector
  End : FVector
  Selector : FTraceSelector
  bTraceComplex : Bool
  IgnoredActors : List Nat
deriving DecidableEq

/-- Verbosity of a diagnostic. -/
inductive ELogVerbosity
  | Error
  | Warning
  | Log
deriving DecidableEq

/-- The diagnostics of the plugin. -/
inductive EDiagnostic
  | CantStart
  | Cancelled
  | InvalidWorldContextObject
  | InvalidWorld
  | NoLocations
  | StillInProgress
deriving DecidableEq

/-- Externally visible effects. -/
inductive Event
  | Log (Verbosity : ELogVerbosity) (Message : EDiagnostic)
  | HitInfo (Hit : FHitResult)
  | DrawLine (Start : FVector) (End : FVector) (Color : Nat) (Time : Int)
  | DrawSphere (Center : FVector) (Color : Nat) (Time : Int)
  | Activated (Engine : Nat)
  | Requested (Engine : Nat)
  | Exited (Engine : Nat)
  | Completed (Engine : Nat) (OutHits : List FHitResult)
  | Query (Q : FTraceQuery)
deriving DecidableEq

/-- The whole system: object heap, registry, world, backend queue, effect log, and
whether the process has ended in a null dereference. -/
structure State where
  Objects : Nat → UAsyncLineTrace
  ActiveAsyncLineTraces : List (Option Nat)
  WorldLive : Nat → Bool
  HasSubsystem : Bool
  ActorLocation : Nat → FVector
  ConvertToCollisionChannel : Nat → Nat
  NextHandle : Nat
  InFlight : List FTraceQuery
  Events : List Event
  Crashed : Bool

/-- Append one effect to the log. -/
def State.emit (s : State) (ev : Event) : State :=
  { s with Events := s.Events ++ [ev] }

/-- Overwrite the fields of the object at address `self`. -/
def State.setObject (s : State) (self : Nat) (o : UAsyncLineTrace) : State :=
  { s with Objects := Function.update s.Objects self o }

/-- Whether `Ctx->GetWorld()` is non-null, given which context objects resolve to a live world;
a null context has no world. -/
def GetWorld (WorldLive : Nat → Bool) (Ctx : Option Nat) : Bool :=
  match Ctx with
  | some c => WorldLive c
  | none => false

/-! ## The registry (`AsyncTraceSubsystem.cpp`) -/

/-- Source `UAsyncTraceSubsystem::Get`: whether a subsystem pointer is returned. -/
def Get (s : State) (InWorldContextObject : Option Nat) : Bool :=
  if InWorldContextObject.isSome then
    if GetWorld s.WorldLive InWorldContextObject then s.HasSubsystem else false
  else false

/-- Source `UAsyncTraceSubsystem::RegisterAsyncLineTrace` (`AddUnique`). -/
def RegisterAsyncLineTrace (InTrace : Option Nat) (s : State) : State :=
  if InTrace.isSome then
    if InTrace ∈ s.ActiveAsyncLineTraces then s
    else { s with ActiveAsyncLineTraces := s.ActiveAsyncLineTraces ++ [InTrace] }
  else s

/-- Source `UAsyncTraceSubsystem::UnregisterAsyncLineTrace` (`Remove` drops every equal item). -/
def UnregisterAsyncLineTrace (InTrace : Option Nat) (s : State) : State :=
  if InTrace.isSome ∧ InTrace ∈ s.ActiveAsyncLineTraces then
    { s with ActiveAsyncLineTraces := s.ActiveAsyncLineTraces.filter (fun p => p ≠ InTrace) }
  else s

/-- Source `UAsyncLineTrace::CancelAsyncLineTrace`. -/
def CancelAsyncLineTrace (self : Nat) (s : State) : State :=
  let s1 := s.emit (Event.Log ELogVerbosity.Warning EDiagnostic.Cancelled)
  s1.setObject self { s1.Objects self with bCalledCancel := true }

/-- Source `UAsyncTraceSubsystem::GetCurrentHitsByID`: the returned array and the state after
the call. -/
def GetCurrentHitsByID (InID : Nat) (s : State) : List FHitResult × State :=
  let currentHits := s.ActiveAsyncLineTraces.foldl
    (fun (currentHits : List FHitResult) (asyncTrace : Option Nat) =>
      match asyncTrace with
      | some t =>
        if (s.Objects t).CurrentTraceID = InID then currentHits ++ (s.Objects t).OutHits
        else currentHits
      | none => currentHits) []
  (currentHits, s)

/-- Source `UAsyncTraceSubsystem::CancelAsyncLineTracesByID`. -/
def CancelAsyncLineTracesByID (InIDToCancel : Nat) (s : State) : State :=
  s.ActiveAsyncLineTraces.foldl
    (fun (st : State) (asyncTrace : Option Nat) =>
      match asyncTrace with
      | some t =>
        if (st.Objects t).CurrentTraceID = InIDToCancel then CancelAsyncLineTrace t st
        else st
      | none => st) s

/-- Source `UAsyncTraceSubsystem::CancelAllAsyncLineTraces`. -/
def CancelAllAsyncLineTraces (s : State) : State :=
  s.ActiveAsyncLineTraces.foldl
    (fun (st : State) (asyncTrace : Option Nat) =>
      match asyncTrace with
      | some t => CancelAsyncLineTrace t st
      | none => st) s

/-! ## The engine base class (`UAsyncLineTrace`) -/

/-- Source `UAsyncLineTrace::bValidityCheck`: the result and the state after its diagnostics. -/
def bValidityCheck (self : Nat) (s : State) : Bool × State :=
  let o := s.Objects self
  if o.InputData.WorldContextObject.isNone then
    (false, s.emit (Event.Log ELogVerbosity.Error EDiagnostic.InvalidWorldContextObject))
  else if GetWorld s.WorldLive o.WorldContextObject = false then
    (false, s.emit (Event.Log ELogVerbosity.Error EDiagnostic.InvalidWorld))
  else if o.InputData.StartAndEndLocations.length ≤ 0 then
    (false, s.emit (Event.Log ELogVerbosity.Error EDiagnostic.NoLocations))
  else if o.bTraceInProgress then
    (false, s.emit (Event.Log ELogVerbosity.Warning EDiagnostic.StillInProgress))
  else (true, s)

/-- Source `UAsyncLineTrace::ConvertTraceType`. -/
def ConvertTraceType (InCustomType : ETraceTypeCustom) : EAsyncTraceType :=
  match InCustomType with
  | ETraceTypeCustom.Single => EAsyncTraceType.Single
  | ETraceTypeCustom.Multi => EAsyncTraceType.Multi
  | _ => EAsyncTraceType.Single

/-- Indexing (`TArray::operator[]`) of the segment list.  An index outside the array is a checked
failure in the engine; the model yields the default segment there. -/
def segmentAt (xs : List FTraceStartStopVectors) (i : Int) : FTraceStartStopVectors :=
  if 0 ≤ i then xs.getD i.toNat ⟨FVector.ZeroVector, FVector.ZeroVector⟩
  else ⟨FVector.ZeroVector, FVector.ZeroVector⟩

/-- Source `UAsyncLineTrace::SetCurrentTraceStartEnd`. -/
def SetCurrentTraceStartEnd (self : Nat) (s : State) : State :=
  let o := s.Objects self
  match o.InputData.TraceOrginActor with
  | some a =>
    let start := s.ActorLocation a
    s.setObject self { o with
      CurrentTraceStart := start
      CurrentTraceEnd :=
        start + (segmentAt o.InputData.StartAndEndLocations o.CurrentTraceIndex).EndLocation }
  | none =>
    s.setObject self { o with
      CurrentTraceStart :=
        (segmentAt o.InputData.StartAndEndLocations o.CurrentTraceIndex).StartLocation
      CurrentTraceEnd :=
        (segmentAt o.InputData.StartAndEndLocations o.CurrentTraceIndex).EndLocation }

/-- Source `UAsyncLineTrace::DebugPrintHitInfo`.  Its first statement is
`InHit.GetActor()->GetActorNameOrLabel()`, with no check of the pointer and outside the
logging macro: for a hit without actor the call does not return. -/
def DebugPrintHitInfo (InHit : FHitResult) (s : State) : Except State State :=
  match InHit.Actor with
  | some _ => Except.ok (s.emit (Event.HitInfo InHit))
  | none => Except.error s

/-- The per-hit body shared by the two handlers: `OutHits.Add(hit)`, then the optional
print and the optional debug sphere. -/
def addHit (self : Nat) (hit : FHitResult) (s : State) : Except State State :=
  let o := s.Objects self
  let s1 := s.setObject self { o with OutHits := o.OutHits ++ [hit] }
  match (if o.InputData.bPrintCurrentHitInfo then DebugPrintHitInfo hit s1
      else Except.ok s1) with
  | Except.error sc => Except.error sc
  | Except.ok s2 =>
    Except.ok (if o.InputData.bDebugDraw then
        s2.emit (Event.DrawSphere hit.Location o.InputData.HitColor o.InputData.DrawTime)
      else s2)

/-- Source `UAsyncLineTrace::HandleSingleLineTrace`.  It reads `InData.OutHits[0]`; its only
caller has checked that the array is not empty. -/
def HandleSingleLineTrace (self : Nat) (InData : FTraceDatum) (s : State) :
    Except State State :=
  match InData.OutHits with
  | hit :: _ => addHit self hit s
  | [] => Except.ok s

/-- The loop of `HandleMultiLineTrace` over the reported hits; it ends at the first hit
whose handling does not return. -/
def handleEach (self : Nat) : List FHitResult → State → Except State State
  | [], s => Except.ok s
  | hit :: rest, s =>
    match addHit self hit s with
    | Except.error sc => Except.error sc
    | Except.ok s1 => handleEach self rest s1

/-- Source `UAsyncLineTrace::HandleMultiLineTrace`. -/
def HandleMultiLineTrace (self : Nat) (InData : FTraceDatum) (s : State) :
    Except State State :=
  handleEach self InData.OutHits s

/-! ## Backend entry points (`UWorld`) -/

/-- Hand one query to the backend: it gets a fresh handle, is queued and logged. -/
def issueQuery (q : FTraceQuery) (s : State) : Nat × State :=
  let q1 := { q with Handle := s.NextHandle }
  (s.NextHandle,
    { s with
      NextHandle := s.NextHandle + 1
      InFlight := s.InFlight ++ [q1]
      Events := s.Events ++ [Event.Query q1] })

/-- Source `UWorld::AsyncLineTraceByChannel`, with the delegate of `self`. -/
def AsyncLineTraceByChannel (self : Nat) (InTraceType : EAsyncTraceType) (Start End : FVector)
    (TraceChannel : Nat) (bTraceComplex : Bool) (Ignored : List Nat) (s : State) : Nat × State :=
  issueQuery ⟨self, 0, (s.Objects self).CurrentTraceIndex, InTraceType, Start, End,
    FTraceSelector.ByChannel TraceChannel, bTraceComplex, Ignored⟩ s

/-- Source `UWorld::AsyncLineTraceByProfile`, with the delegate of `self`. -/
def AsyncLineTraceByProfile (self : Nat) (InTraceType : EAsyncTraceType) (Start End : FVector)
    (ProfileName : Nat) (bTraceComplex : Bool) (Ignored : List Nat) (s : State) : Nat × State :=
  issueQuery ⟨self, 0, (s.Objects self).CurrentTraceIndex, InTraceType, Start, End,
    FTraceSelector.ByProfile ProfileName, bTraceComplex, Ignored⟩ s

/-- Source `UWorld::AsyncLineTraceByObjectType`, with the delegate of `self`. -/
def AsyncLineTraceByObjectType (self : Nat) (InTraceType : EAsyncTraceType) (Start End : FVector)
    (Channels : List Nat) (bTraceComplex : Bool) (Ignored : List Nat) (s : State) : Nat × State :=
  issueQuery ⟨self, 0, (s.Objects self).CurrentTraceIndex, InTraceType, Start, End,
    FTraceSelector.ByObjectType Channels, bTraceComplex, Ignored⟩ s

/-! ## `UAsyncLineTraceChannel` -/

/-- Source `UAsyncLineTraceChannel::ExitLineTraceChannel`. -/
def ExitLineTraceChannel (self : Nat) (s : State) : State :=
  let s1 := if Get s (s.Objects self).WorldContextObject then
      UnregisterAsyncLineTrace (some self) s else s
  let s2 := s1.emit (Event.Completed self (s1.Objects self).OutHits)
  s2.setObject self { s2.Objects self with bTraceInProgress := false }

/-- Source `UAsyncLineTraceChannel::ProcessLineTraceChannel` (the returned handle is the stored
`CurrentTraceHandle`). -/
def ProcessLineTraceChannel (self : Nat) (s : State) : State :=
  if (s.Objects self).WorldContextObject.isNone then
    ExitLineTraceChannel self
      (s.emit (Event.Log ELogVerbosity.Error EDiagnostic.InvalidWorldContextObject))
  else if GetWorld s.WorldLive (s.Objects self).WorldContextObject = false then
    ExitLineTraceChannel self (s.emit (Event.Log ELogVerbosity.Error EDiagnostic.InvalidWorld))
  else
    let s1 := SetCurrentTraceStartEnd self s
    let o := s1.Objects self
    let r := AsyncLineTraceByChannel self o.TraceType o.CurrentTraceStart o.CurrentTraceEnd
      o.CollisionChannel o.InputData.bTraceComplex o.InputData.ActorsToIgnore s1
    r.2.setObject self { r.2.Objects self with CurrentTraceHandle := r.1 }

/-- Source `UAsyncLineTraceChannel::RequestLineTraceChannel`. -/
def RequestLineTraceChannel (self : Nat) (s : State) : State :=
  let o := s.Objects self
  let s1 := s.setObject self { o with CurrentTraceIndex := o.CurrentTraceIndex + 1 }
  let o1 := s1.Objects self
  if o1.CurrentTraceIndex < o1.InputData.StartAndEndLocations.length ∧ o1.bCalledCancel = false then
    ProcessLineTraceChannel self s1
  else
    ExitLineTraceChannel self s1

/-- Source `UAsyncLineTraceChannel::StartLineTraceChannel`. -/
def StartLineTraceChannel (self : Nat) (s : State) : State :=
  if Get s (s.Objects self).WorldContextObject = false then
    ExitLineTraceChannel self s
  else
    ProcessLineTraceChannel self (RegisterAsyncLineTrace (some self) s)

/-! ## `UAsyncLineTraceProfile` -/

/-- Source `UAsyncLineTraceProfile::ExitLineTraceProfile`. -/
def ExitLineTraceProfile (self : Nat) (s : State) : State :=
  let s1 := if Get s (s.Objects self).WorldContextObject then
      UnregisterAsyncLineTrace (some self) s else s
  let s2 := s1.emit (Event.Completed self (s1.Objects self).OutHits)
  s2.setObject self { s2.Objects self with bTraceInProgress := false }

/-- Source `UAsyncLineTraceProfile::ProcessLineTraceProfile`. -/
def ProcessLineTraceProfile (self : Nat) (s : State) : State :=
  if (s.Objects self).WorldContextObject.isNone then
    ExitLineTraceProfile self s
  else if GetWorld s.WorldLive (s.Objects self).WorldContextObject = false then
    ExitLineTraceProfile self s
  else
    let s1 := SetCurrentTraceStartEnd self s
    let o := s1.Objects self
    let r := AsyncLineTraceByProfile self o.TraceType o.CurrentTraceStart o.CurrentTraceEnd
      o.CollisionProfile o.InputData.bTraceComplex o.InputData.ActorsToIgnore s1
    r.2.setObject self { r.2.Objects self with CurrentTraceHandle := r.1 }

/-- Source `UAsyncLineTraceProfile::RequestLineTraceProfile`. -/
def RequestLineTraceProfile (self : Nat) (s : State) : State :=
  let o := s.Objects self
  let s1 := s.setObject self { o with CurrentTraceIndex := o.CurrentTraceIndex + 1 }
  let o1 := s1.Objects self
  if o1.CurrentTraceIndex < o1.InputData.StartAndEndLocations.length ∧ o1.bCalledCancel = false then
    ProcessLineTraceProfile self s1
  else
    ExitLineTraceProfile self s1

/-- Source `UAsyncLineTraceProfile::StartLineTraceProfile`. -/
def StartLineTraceProfile (self : Nat) (s : State) : State :=
  if Get s (s.Objects self).WorldContextObject = false then
    ExitLineTraceProfile self s
  else
    ProcessLineTraceProfile self (RegisterAsyncLineTrace (some self) s)

/-! ## `UAsyncLineTraceObjects` -/

/-- Source `UAsyncLineTraceObjects::ExitLineTraceObjects`. -/
def ExitLineTraceObjects (self : Nat) (s : State) : State :=
  let s1 := if Get s (s.Objects self).WorldContextObject then
      UnregisterAsyncLineTrace (some self) s else s
  let s2 := s1.emit (Event.Completed self (s1.Objects self).OutHits)
  s2.setObject self { s2.Objects self with bTraceInProgress := false }

/-- Source `UAsyncLineTraceObjects::ProcessLineTraceObjects`. -/
def ProcessLineTraceObjects (self : Nat) (s : State) : State :=
  if (s.Objects self).WorldContextObject.isNone then
    ExitLineTraceObjects self s
  else if GetWorld s.WorldLive (s.Objects self).WorldContextObject = false then
    ExitLineTraceObjects self s
  else
    let objectTypes := (s.Objects self).ObjectTypes.map s.ConvertToCollisionChannel
    let s1 := SetCurrentTraceStartEnd self s
    let o := s1.Objects self
    let r := AsyncLineTraceByObjectType self o.TraceType o.CurrentTraceStart o.CurrentTraceEnd
      objectTypes o.InputData.bTraceComplex o.InputData.ActorsToIgnore s1
    r.2.setObject self { r.2.Objects self with CurrentTraceHandle := r.1 }

/-- Source `UAsyncLineTraceObjects::RequestLineTraceObjects`. -/
def RequestLineTraceObjects (self : Nat) (s : State) : State :=
  let o := s.Objects self
  let s1 := s.setObject self { o with CurrentTraceIndex := o.CurrentTraceIndex + 1 }
  let o1 := s1.Objects self
  if o1.CurrentTraceIndex < o1.InputData.StartAndEndLocations.length ∧ o1.bCalledCancel = false then
    ProcessLineTraceObjects self s1
  else
    ExitLineTraceObjects self s1

/-- Source `UAsyncLineTraceObjects::StartLineTraceObjects`. -/
def StartLineTraceObjects (self : Nat) (s : State) : State :=
  if Get s (s.Objects self).WorldContextObject = false then
    ExitLineTraceObjects self s
  else
    ProcessLineTraceObjects self (RegisterAsyncLineTrace (some self) s)

/-! ## Delegates

Each factory binds the three member functions of its own class to the three internal
delegates, so a broadcast runs the handler of the object's class. -/

/-- Broadcast of `OnActivatedAsyncTrace`: the notification is logged and the bound
`Start...` handler runs. -/
def OnActivatedAsyncTrace (self : Nat) (s : State) : State :=
  let s1 := s.emit (Event.Activated self)
  match (s.Objects self).Class with
  | ETraceClass.Channel => StartLineTraceChannel self s1
  | ETraceClass.Profile => StartLineTraceProfile self s1
  | ETraceClass.Objects => StartLineTraceObjects self s1

/-- Broadcast of `OnRequestedAsyncTrace`: the notification is logged and the bound
`Request...` handler runs. -/
def OnRequestedAsyncTrace (self : Nat) (s : State) : State :=
  let s1 := s.emit (Event.Requested self)
  match (s.Objects self).Class with
  | ETraceClass.Channel => RequestLineTraceChannel self s1
  | ETraceClass.Profile => RequestLineTraceProfile self s1
  | ETraceClass.Objects => RequestLineTraceObjects self s1

/-- Broadcast of `OnExitedAsyncTrace`: the notification is logged and the bound
`Exit...` handler runs. -/
def OnExitedAsyncTrace (self : Nat) (s : State) : State :=
  let s1 := s.emit (Event.Exited self)
  match (s.Objects self).Class with
  | ETraceClass.Channel => ExitLineTraceChannel self s1
  | ETraceClass.Profile => ExitLineTraceProfile self s1
  | ETraceClass.Objects => ExitLineTraceObjects self s1

/-- Source `UAsyncLineTrace::OnTraceCompleted`.  The source dereferences
`WorldContextObject` without a null check; a null context is treated here as having no
world (an object with a null context never issues a query, so no callback reaches it).
When a handler does not return, the process ends in the state reached: nothing is
broadcast. -/
def OnTraceCompleted (self : Nat) (InHandle : Nat) (InData : FTraceDatum) (s : State) : State :=
  let _ := InHandle
  let o := s.Objects self
  if GetWorld s.WorldLive o.WorldContextObject then
    let s1 := if o.InputData.bDebugDraw then
        s.emit (Event.DrawLine o.CurrentTraceStart o.CurrentTraceEnd o.InputData.TraceColor
          o.InputData.DrawTime)
      else s
    if InData.OutHits.isEmpty = false then
      match (match o.TraceType with
          | EAsyncTraceType.Single => HandleSingleLineTrace self InData s1
          | EAsyncTraceType.Multi => HandleMultiLineTrace self InData s1
          | _ => HandleSingleLineTrace self InData s1) with
      | Except.ok s2 => OnRequestedAsyncTrace self s2
      | Except.error sc => { sc with Crashed := true }
    else OnRequestedAsyncTrace self s1
  else OnRequestedAsyncTrace self s

/-- Source `UAsyncLineTrace::Activate`.  Binding `TraceCompletedDelegate` is implicit: the
backend always calls `OnTraceCompleted` of the object that issued the query. -/
def Activate (self : Nat) (s : State) : State :=
  let o := s.Objects self
  let s1 := s.setObject self { o with WorldContextObject := o.InputData.WorldContextObject }
  let v := bValidityCheck self s1
  if v.1 = false then
    OnExitedAsyncTrace self (v.2.emit (Event.Log ELogVerbosity.Error EDiagnostic.CantStart))
  else
    let s2 := v.2.setObject self { v.2.Objects self with
      bTraceInProgress := true
      CurrentTraceIndex := 0
      OutHits := [] }
    OnActivatedAsyncTrace self s2

/-! ## Factories -/

/-- What `NewObject` yields before the factory fills in the members. -/
def NewObject (c : ETraceClass) : UAsyncLineTrace :=
  { Class := c
    CurrentTraceID := 0
    OutHits := []
    bTraceInProgress := false
    bCalledCancel := false
    InputData := ⟨0, none, none, [], false, [], false, false, 2, 0, 0⟩
    CurrentTraceStart := FVector.ZeroVector
    CurrentTraceEnd := FVector.ZeroVector
    WorldContextObject := none
    CurrentTraceIndex := 0
    TraceType := EAsyncTraceType.Test
    CurrentTraceHandle := 0
    CollisionChannel := 0
    CollisionProfile := 0
    ObjectTypes := [] }

/-- Source `UAsyncLineTraceChannel::AsyncLineTraceChannel`. -/
def AsyncLineTraceChannel (InTraceType : ETraceTypeCustom) (InChannel : Nat)
    (InData : FAsyncTraceInputData) : UAsyncLineTrace :=
  { NewObject ETraceClass.Channel with
    TraceType := ConvertTraceType InTraceType
    CollisionChannel := InChannel
    InputData := InData
    CurrentTraceID := InData.TraceID }

/-- Source `UAsyncLineTraceProfile::AsyncLineTraceProfile`. -/
def AsyncLineTraceProfile (InTraceType : ETraceTypeCustom) (InCollisionProfile : Nat)
    (InData : FAsyncTraceInputData) : UAsyncLineTrace :=
  { NewObject ETraceClass.Profile with
    TraceType := ConvertTraceType InTraceType
    CollisionProfile := InCollisionProfile
    InputData := InData
    CurrentTraceID := InData.TraceID }

/-- Source `UAsyncLineTraceObjects::AsyncLineTraceObjects`. -/
def AsyncLineTraceObjects (InTraceType : ETraceTypeCustom) (InObjectTypes : List Nat)
    (InData : FAsyncTraceInputData) : UAsyncLineTrace :=
  { NewObject ETraceClass.Objects with
    TraceType := ConvertTraceType InTraceType
    ObjectTypes := InObjectTypes
    InputData := InData
    CurrentTraceID := InData.TraceID }

/-! ## The backend and the environment -/

/-- The queue without the oldest query owned by `e`. -/
def removeFirstOwned (e : Nat) : List FTraceQuery → List FTraceQuery
  | [] => []
  | q :: qs => if q.Owner = e then qs else q :: removeFirstOwned e qs

/-- The backend resolves the oldest outstanding query of `e` and invokes its completion
delegate with `InData`; without an outstanding query, or once the process has ended,
nothing is called. -/
def DeliverCallback (e : Nat) (InData : FTraceDatum) (s : State) : State :=
  if s.Crashed then s
  else
    match s.InFlight.find? (fun q => decide (q.Owner = e)) with
    | some q =>
      OnTraceCompleted e q.Handle InData { s with InFlight := removeFirstOwned e s.InFlight }
    | none => s

/-- The context object `c` stops resolving to a live world. -/
def SceneLost (c : Nat) (s : State) : State :=
  { s with WorldLive := Function.update s.WorldLive c false }

/-- Public operations and backend events. -/
inductive Op
  | Activate (e : Nat)
  | Cancel (e : Nat)
  | Callback (e : Nat) (InData : FTraceDatum)
  | GetCurrentHitsByID (InID : Nat)
  | CancelByID (InID : Nat)
  | CancelAll
  | SceneLost (c : Nat)

/-- Effect of one operation on a running process. -/
def perform (s : State) : Op → State
  | Op.Activate e => Activate e s
  | Op.Cancel e => CancelAsyncLineTrace e s
  | Op.Callback e d => DeliverCallback e d s
  | Op.GetCurrentHitsByID i => (GetCurrentHitsByID i s).2
  | Op.CancelByID i => CancelAsyncLineTracesByID i s
  | Op.CancelAll => CancelAllAsyncLineTraces s
  | Op.SceneLost c => SceneLost c s

/-- Effect of one operation; once the process has ended no operation has any. -/
def step (s : State) (op : Op) : State :=
  if s.Crashed then s else perform s op

/-- Effect of a sequence of operations, left to right. -/
def run (ops : List Op) (s : State) : State :=
  ops.foldl step s

/-! ## Observations and summaries used by the proofs -/

/-- Backend queries among a list of effects, oldest first. -/
def queriesOf (evs : List Event) : List FTraceQuery :=
  evs.filterMap (fun ev => match ev with
    | Event.Query q => some q
    | _ => none)

/-- Firings of the completion event among a list of effects: engine and hit list carried. -/
def completedOf (evs : List Event) : List (Nat × List FHitResult) :=
  evs.filterMap (fun ev => match ev with
    | Event.Completed e hits => some (e, hits)
    | _ => none)

/-- Firings of the activated notification among a list of effects. -/
def activatedOf (evs : List Event) : List Nat :=
  evs.filterMap (fun ev => match ev with
    | Event.Activated e => some e
    | _ => none)

/-- Firings of the exited notification among a list of effects. -/
def exitedOf (evs : List Event) : List Nat :=
  evs.filterMap (fun ev => match ev with
    | Event.Exited e => some e
    | _ => none)

/-- Effects logged after the state `s0` was taken. -/
def eventsSince (s0 s : State) : List Event :=
  s.Events.drop s0.Events.length

/-- Number of outstanding queries whose completion delegate belongs to `e`. -/
def outstanding (e : Nat) (s : State) : Nat :=
  (s.InFlight.filter (fun q => decide (q.Owner = e))).length

/-- Deliver the callbacks of `e` one after the other with the given results. -/
def deliverAll (e : Nat) (rs : List FTraceDatum) (s : State) : State :=
  rs.foldl (fun st d => DeliverCallback e d st) s

/-- Debug effects of accumulating one hit. -/
def hitEffects (d : FAsyncTraceInputData) (hit : FHitResult) : List Event :=
  (if d.bPrintCurrentHitInfo then [Event.HitInfo hit] else []) ++
  (if d.bDebugDraw then [Event.DrawSphere hit.Location d.HitColor d.DrawTime] else [])

/-- Hits of a result set that `OnTraceCompleted` hands to `OutHits.Add`, as its switch
on `TraceType` decides. -/
def keptHits (t : EAsyncTraceType) (r : List FHitResult) : List FHitResult :=
  match t with
  | EAsyncTraceType.Multi => r
  | _ => r.take 1

/-- Debug effects of one completion callback on a live world. -/
def callbackEffects (o : UAsyncLineTrace) (r : List FHitResult) : List Event :=
  (if o.InputData.bDebugDraw then
    [Event.DrawLine o.CurrentTraceStart o.CurrentTraceEnd o.InputData.TraceColor
      o.InputData.DrawTime]
   else []) ++ (keptHits o.TraceType r).flatMap (hitEffects o.InputData)

/-- State in which `OnTraceCompleted` broadcasts the segment-completed notification. -/
def accumulated (self : Nat) (InData : FTraceDatum) (s : State) : State :=
  if GetWorld s.WorldLive (s.Objects self).WorldContextObject then
    { s with
      Objects := Function.update s.Objects self
        { s.Objects self with
          OutHits := (s.Objects self).OutHits ++ keptHits (s.Objects self).TraceType InData.OutHits }
      Events := s.Events ++ callbackEffects (s.Objects self) InData.OutHits }
  else s

/-- Hits that `OnTraceCompleted` hands to `OutHits.Add`: those of `keptHits` when the
context of the object resolves to a live world, none otherwise. -/
def landedHits (self : Nat) (InData : FTraceDatum) (s : State) : List FHitResult :=
  if GetWorld s.WorldLive (s.Objects self).WorldContextObject then
    keptHits (s.Objects self).TraceType InData.OutHits
  else []

/-- Whether the completion callback of the object `o` with the reported hits `r`, on a
live world, reaches `DebugPrintHitInfo` with a hit that has no actor: the print flag is
set and one of the hits that are handled has no actor. -/
def derefsNull (o : UAsyncLineTrace) (r : List FHitResult) : Bool :=
  o.InputData.bPrintCurrentHitInfo &&
    (keptHits o.TraceType r).any (fun hit => hit.Actor.isNone)

/-- The hits up to and including the first one without actor (all hits when every one
has an actor). -/
def uptoNull : List FHitResult → List FHitResult
  | [] => []
  | hit :: rest => if hit.Actor.isNone then [hit] else hit :: uptoNull rest

/-- The hits before the first one without actor. -/
def beforeNull : List FHitResult → List FHitResult
  | [] => []
  | hit :: rest => if hit.Actor.isNone then [] else hit :: beforeNull rest

/-- State in which the process ends when `OnTraceCompleted` reaches a hit without actor
in `DebugPrintHitInfo`: the hits up to that one are in `OutHits`, the hits before it
have been printed and drawn, nothing has been broadcast. -/
def halted (self : Nat) (InData : FTraceDatum) (s : State) : State :=
  { s with
    Objects := Function.update s.Objects self
      { s.Objects self with
        OutHits := (s.Objects self).OutHits ++
          uptoNull (keptHits (s.Objects self).TraceType InData.OutHits) }
    Events := s.Events ++
      ((if (s.Objects self).InputData.bDebugDraw then
        [Event.DrawLine (s.Objects self).CurrentTraceStart (s.Objects self).CurrentTraceEnd
          (s.Objects self).InputData.TraceColor (s.Objects self).InputData.DrawTime]
       else []) ++
      (beforeNull (keptHits (s.Objects self).TraceType InData.OutHits)).flatMap
        (hitEffects (s.Objects self).InputData))
    Crashed := true }

/-- Selector handed to the backend by the `Process...` function of the object's class. -/
def selectorOf (s : State) (o : UAsyncLineTrace) : FTraceSelector :=
  match o.Class with
  | ETraceClass.Channel => FTraceSelector.ByChannel o.CollisionChannel
  | ETraceClass.Profile => FTraceSelector.ByProfile o.CollisionProfile
  | ETraceClass.Objects => FTraceSelector.ByObjectType (o.ObjectTypes.map s.ConvertToCollisionChannel)

/-- Start of the current segment as `SetCurrentTraceStartEnd` resolves it. -/
def resolvedStart (s : State) (o : UAsyncLineTrace) : FVector :=
  match o.InputData.TraceOrginActor with
  | some a => s.ActorLocation a
  | none => (segmentAt o.InputData.StartAndEndLocations o.CurrentTraceIndex).StartLocation

/-- End of the current segment as `SetCurrentTraceStartEnd` resolves it. -/
def resolvedEnd (s : State) (o : UAsyncLineTrace) : FVector :=
  match o.InputData.TraceOrginActor with
  | some a =>
    s.ActorLocation a + (segmentAt o.InputData.StartAndEndLocations o.CurrentTraceIndex).EndLocation
  | none => (segmentAt o.InputData.StartAndEndLocations o.CurrentTraceIndex).EndLocation

/-- The query a `Process...` function issues for the object `o` at address `self`. -/
def queryOf (self : Nat) (s : State) (o : UAsyncLineTrace) : FTraceQuery :=
  ⟨self, s.NextHandle, o.CurrentTraceIndex, o.TraceType, resolvedStart s o, resolvedEnd s o,
    selectorOf s o, o.InputData.bTraceComplex, o.InputData.ActorsToIgnore⟩

/-- State after a `Process...` function issued the query of the current segment. -/
def issued (self : Nat) (s : State) : State :=
  { s with
    Objects := Function.update s.Objects self
      { s.Objects self with
        CurrentTraceStart := resolvedStart s (s.Objects self)
        CurrentTraceEnd := resolvedEnd s (s.Objects self)
        CurrentTraceHandle := s.NextHandle }
    NextHandle := s.NextHandle + 1
    InFlight := s.InFlight ++ [queryOf self s (s.Objects self)]
    Events := s.Events ++ [Event.Query (queryOf self s (s.Objects self))] }

/-- State after an `Exit...` function. -/
def exited (self : Nat) (s : State) : State :=
  { s with
    Objects := Function.update s.Objects self { s.Objects self with bTraceInProgress := false }
    ActiveAsyncLineTraces :=
      if Get s (s.Objects self).WorldContextObject then
        s.ActiveAsyncLineTraces.filter (fun p => p ≠ some self)
      else s.ActiveAsyncLineTraces
    Events := s.Events ++ [Event.Completed self (s.Objects self).OutHits] }

/-- Diagnostic that only the channel class logs when `Process...` finds no world. -/
def diagnosis (o : UAsyncLineTrace) : List Event :=
  match o.Class with
  | ETraceClass.Channel =>
    if o.WorldContextObject.isNone then
      [Event.Log ELogVerbosity.Error EDiagnostic.InvalidWorldContextObject]
    else [Event.Log ELogVerbosity.Error EDiagnostic.InvalidWorld]
  | _ => []

/-- State in which a `Process...` function that finds no world calls `Exit...`. -/
def diagnosed (self : Nat) (s : State) : State :=
  { s with Events := s.Events ++ diagnosis (s.Objects self) }

/-- State after the increment of `CurrentTraceIndex` in a `Request...` function. -/
def bumped (self : Nat) (s : State) : State :=
  { s with
    Objects := Function.update s.Objects self
      { s.Objects self with CurrentTraceIndex := (s.Objects self).CurrentTraceIndex + 1 } }

/-- State after a `Process...` function. -/
def processed (self : Nat) (s : State) : State :=
  if GetWorld s.WorldLive (s.Objects self).WorldContextObject then issued self s
  else exited self (diagnosed self s)

/-- State after a `Request...` function. -/
def requested (self : Nat) (s : State) : State :=
  if (s.Objects self).CurrentTraceIndex + 1 < (s.Objects self).InputData.StartAndEndLocations.length ∧
      (s.Objects self).bCalledCancel = false then
    processed self (bumped self s)
  else exited self (bumped self s)

/-- State after a `Start...` function. -/
def started (self : Nat) (s : State) : State :=
  if Get s (s.Objects self).WorldContextObject = false then exited self s
  else processed self (RegisterAsyncLineTrace (some self) s)

/-- Whether `bValidityCheck` would accept the object once `Activate` has copied the
context object of the request. -/
def activatable (self : Nat) (s : State) : Bool :=
  let o := s.Objects self
  o.InputData.WorldContextObject.isSome && GetWorld s.WorldLive o.InputData.WorldContextObject &&
    decide (0 < o.InputData.StartAndEndLocations.length) && !o.bTraceInProgress

/-- Diagnostic of the first check of `bValidityCheck` that fails. -/
def rejection (self : Nat) (s : State) : Event :=
  let o := s.Objects self
  if o.InputData.WorldContextObject.isNone then
    Event.Log ELogVerbosity.Error EDiagnostic.InvalidWorldContextObject
  else if GetWorld s.WorldLive o.InputData.WorldContextObject = false then
    Event.Log ELogVerbosity.Error EDiagnostic.InvalidWorld
  else if o.InputData.StartAndEndLocations.length ≤ 0 then
    Event.Log ELogVerbosity.Error EDiagnostic.NoLocations
  else Event.Log ELogVerbosity.Warning EDiagnostic.StillInProgress

/-- State in which a rejecting `Activate` broadcasts the exited notification. -/
def rejected (self : Nat) (s : State) : State :=
  { s with
    Objects := Function.update s.Objects self
      { s.Objects self with WorldContextObject := (s.Objects self).InputData.WorldContextObject }
    Events := s.Events ++ [rejection self s, Event.Log ELogVerbosity.Error EDiagnostic.CantStart,
      Event.Exited self] }

/-- State in which an accepting `Activate` broadcasts the activated notification. -/
def accepted (self : Nat) (s : State) : State :=
  { s with
    Objects := Function.update s.Objects self
      { s.Objects self with
        WorldContextObject := (s.Objects self).InputData.WorldContextObject
        bTraceInProgress := true
        CurrentTraceIndex := 0
        OutHits := [] }
    Events := s.Events ++ [Event.Activated self] }

/-- The backend queue once the oldest query of `e` has been taken out for delivery. -/
def dequeued (e : Nat) (s : State) : State :=
  { s with InFlight := removeFirstOwned e s.InFlight }

/-- Deliver one callback after the other, each to the engine named with its result. -/
def deliverEach (ds : List (Nat × FTraceDatum)) (s : State) : State :=
  ds.foldl (fun st d => DeliverCallback d.1 d.2 st) s

/-- A running trace of `e` with `N` segments and backend kind `t`: the process runs,
context `c` resolves to a live scene with its registry, no cancellation was requested,
the current segment is `i` and its query is the one outstanding query of `e`. -/
structure Running (e c N : Nat) (t : EAsyncTraceType) (i : Nat) (s : State) : Prop where
  ctx : (s.Objects e).WorldContextObject = some c
  live : s.WorldLive c = true
  sub : s.HasSubsystem = true
  cancel : (s.Objects e).bCalledCancel = false
  len : (s.Objects e).InputData.StartAndEndLocations.length = N
  kind : (s.Objects e).TraceType = t
  idx : (s.Objects e).CurrentTraceIndex = i
  out : outstanding e s = 1
  alive : s.Crashed = false

/-- Owner and segment index of a query. -/
def FTraceQuery.target (q : FTraceQuery) : Nat × Int := (q.Owner, q.Segment)

/-- An object as one of the three factories returns it. -/
def Fresh (o : UAsyncLineTrace) : Prop :=
  ∃ (t : ETraceTypeCustom) (d : FAsyncTraceInputData),
    (∃ ch, o = AsyncLineTraceChannel t ch d) ∨ (∃ pr, o = AsyncLineTraceProfile t pr d) ∨
      (∃ ot, o = AsyncLineTraceObjects t ot d)

/-- Freshly constructed engines, an empty registry, an idle backend. -/
def Initial (s : State) : Prop :=
  (∀ e, Fresh (s.Objects e)) ∧ s.ActiveAsyncLineTraces = [] ∧ s.InFlight = []

/-- Registry membership coincides with the in-progress flag, and an engine in progress
has copied the context object of its request, which resolves to a live scene that has
the registry. -/
def RegistryInvariant (s : State) : Prop :=
  ∀ e, (some e ∈ s.ActiveAsyncLineTraces ↔ (s.Objects e).bTraceInProgress = true) ∧
    ((s.Objects e).bTraceInProgress = true →
      (s.Objects e).WorldContextObject = (s.Objects e).InputData.WorldContextObject ∧
      GetWorld s.WorldLive (s.Objects e).WorldContextObject = true ∧ s.HasSubsystem = true)

/-- What holds of registry membership whether or not scene contexts are lost: an engine
in progress is a member; a member was registered through a registry that resolved and
has copied the context object of its request; and a member that is not in progress has
a context that no longer resolves to a live scene. -/
def MembershipInvariant (s : State) : Prop :=
  ∀ e, ((s.Objects e).bTraceInProgress = true → some e ∈ s.ActiveAsyncLineTraces) ∧
    (some e ∈ s.ActiveAsyncLineTraces →
      s.HasSubsystem = true ∧
      (s.Objects e).WorldContextObject = (s.Objects e).InputData.WorldContextObject ∧
      ((s.Objects e).bTraceInProgress = true ∨
        GetWorld s.WorldLive (s.Objects e).WorldContextObject = false))

/-- Whether an operation is the loss of the scene context `ctx`. -/
def Op.losesContext (ctx : Option Nat) : Op → Bool
  | Op.SceneLost c => decide (some c = ctx)
  | _ => false

/-- The segment index of every engine is not negative and, while the engine is in
progress, below the number of segments of its request. -/
def IndexInvariant (s : State) : Prop :=
  ∀ e, 0 ≤ (s.Objects e).CurrentTraceIndex ∧
    ((s.Objects e).bTraceInProgress = true →
      (s.Objects e).CurrentTraceIndex < (s.Objects e).InputData.StartAndEndLocations.length)

/-- Whether an operation is the loss of a scene context. -/
def Op.isSceneLost : Op → Bool
  | Op.SceneLost _ => true
  | _ => false

/-- Whether an operation is an `Activate` of the engine `e`. -/
def Op.isActivateOf (e : Nat) : Op → Bool
  | Op.Activate x => decide (x = e)
  | _ => false

/-- A call of one of the two membership functions of the registry. -/
inductive RegistryCall
  | Register (p : Option Nat)
  | Unregister (p : Option Nat)

/-- Effect of one membership call. -/
def applyCall (s : State) : RegistryCall → State
  | RegistryCall.Register p => RegisterAsyncLineTrace p s
  | RegistryCall.Unregister p => UnregisterAsyncLineTrace p s

/-- Effect of a sequence of membership calls, left to right. -/
def applyCalls (cs : List RegistryCall) (s : State) : State :=
  cs.foldl applyCall s

/-- An object with its class and its three selector members erased. -/
def UAsyncLineTrace.core (o : UAsyncLineTrace) : UAsyncLineTrace :=
  { o with
    Class := ETraceClass.Channel
    CollisionChannel := 0
    CollisionProfile := 0
    ObjectTypes := [] }

/-- A query with the backend entry point and the selector erased. -/
def FTraceQuery.core (q : FTraceQuery) : FTraceQuery :=
  { q with Selector := FTraceSelector.ByChannel 0 }

/-- An effect as seen apart from diagnostics and selectors: a diagnostic is dropped, a
query loses entry point and selector, every other effect is kept. -/
def Event.visible : Event → Option Event
  | Event.Log _ _ => none
  | Event.Query q => some (Event.Query q.core)
  | ev => some ev

/-- A state with class, selectors and diagnostics erased. -/
def State.core (s : State) : State :=
  { s with
    Objects := fun e => (s.Objects e).core
    InFlight := s.InFlight.map FTraceQuery.core
    Events := s.Events.filterMap Event.visible }

/-! ## Statements of the specification -/

/-- Hits of one segment that the completion event must carry, in the words of the
specification: the whole result for the all-hits kind, its first element (or nothing
when it is empty) for the single-hit kind. -/
def specSegmentHits (allHits : Bool) (r : List FHitResult) : List FHitResult :=
  if allHits then r
  else match r with
    | [] => []
    | first :: _ => [first]

/-- Agreement of two systems on everything but diagnostics and selectors: as
`SameBehaviour`, except that the diagnostics logged (`Event.Log`) are left out of the
comparison of the effects. -/
def AlikeUpToDiagnostics (a b : State) : Prop :=
  (∀ e, (a.Objects e).bTraceInProgress = (b.Objects e).bTraceInProgress ∧
    (a.Objects e).CurrentTraceIndex = (b.Objects e).CurrentTraceIndex ∧
    (a.Objects e).OutHits = (b.Objects e).OutHits ∧
    (a.Objects e).bCalledCancel = (b.Objects e).bCalledCancel) ∧
  a.ActiveAsyncLineTraces = b.ActiveAsyncLineTraces ∧
  a.Events.filterMap Event.visible = b.Events.filterMap Event.visible ∧
  a.InFlight.map FTraceQuery.core = b.InFlight.map FTraceQuery.core

/-- Operation `HitsByIdentifier(id)` in the words of the specification: the concatenation, in
registry order, of the accumulated hits of the active engines whose identifier is `id`. -/
def specHitsByIdentifier (InID : Nat) (s : State) : List FHitResult :=
  ((s.ActiveAsyncLineTraces.filterMap (fun p => p)).filter
    (fun e => decide ((s.Objects e).CurrentTraceID = InID))).flatMap
    (fun e => (s.Objects e).OutHits)

/-! ## Concrete inputs -/

/-- A segment along the x axis. -/
def exampleSegment : FTraceStartStopVectors := ⟨⟨0, 0, 0⟩, ⟨10, 0, 0⟩⟩

/-- A hit on actor `n`. -/
def exampleHit (n : Nat) : FHitResult := ⟨some n, ⟨1, 0, 0⟩, ⟨1, 0, 0⟩⟩

/-- A hit without actor. -/
def strayHit : FHitResult := ⟨none, ⟨1, 0, 0⟩, ⟨1, 0, 0⟩⟩

/-- A request like `exampleRequest n` with `bPrintCurrentHitInfo` set. -/
def printingRequest (n : Nat) : FAsyncTraceInputData :=
  ⟨7, some 0, none, List.replicate n exampleSegment, false, [], true, false, 2, 0, 0⟩

/-- A request with identifier 7, context object 0, no anchor and `n` segments. -/
def exampleRequest (n : Nat) : FAsyncTraceInputData :=
  ⟨7, some 0, none, List.replicate n exampleSegment, false, [], false, false, 2, 0, 0⟩

/-- A world in which every address holds an object built like `o`, every context
resolves, the registry is empty and the backend idle. -/
def exampleState (o : UAsyncLineTrace) : State :=
  { Objects := fun _ => o
    ActiveAsyncLineTraces := []
    WorldLive := fun _ => true
    HasSubsystem := true
    ActorLocation := fun _ => FVector.ZeroVector
    ConvertToCollisionChannel := fun n => n
    NextHandle := 0
    InFlight := []
    Events := []
    Crashed := false }

/-- A segment whose stored start is away from the origin. -/
def offsetSegment : FTraceStartStopVectors := ⟨⟨5, 5, 5⟩, ⟨10, 0, 0⟩⟩

/-- All-hits engines of the channel class whose request has the anchor actor 5 and two
segments; every actor stands at the origin. -/
def anchoredState : State :=
  exampleState (AsyncLineTraceChannel ETraceTypeCustom.Multi 0
    ⟨7, some 0, some 5, [offsetSegment, offsetSegment], false, [], false, false, 2, 0, 0⟩)

/-- All-hits engines of the channel class with `n` segments. -/
def multiState (n : Nat) : State :=
  exampleState (AsyncLineTraceChannel ETraceTypeCustom.Multi 0 (exampleRequest n))

/-- Single-hit engines of the channel class with `n` segments. -/
def singleState (n : Nat) : State :=
  exampleState (AsyncLineTraceChannel ETraceTypeCustom.Single 0 (exampleRequest n))

/-- All-hits engines of the channel class with `n` segments that print every hit. -/
def printingState (n : Nat) : State :=
  exampleState (AsyncLineTraceChannel ETraceTypeCustom.Multi 0 (printingRequest n))

/-- Single-hit engines of the channel class with `n` segments that print every hit. -/
def printingSingleState (n : Nat) : State :=
  exampleState (AsyncLineTraceChannel ETraceTypeCustom.Single 0 (printingRequest n))

/-! ## Summaries of the member functions -/

theorem GetWorld_none (w : Nat → Bool) : GetWorld w none = false := rfl

theorem GetWorld_some (w : Nat → Bool) (c : Nat) : GetWorld w (some c) = w c := rfl

theorem Get_eq (s : State) (ctx : Option Nat) :
    Get s ctx = (GetWorld s.WorldLive ctx && s.HasSubsystem) := by
  unfold Get
  cases ctx with
  | none => simp [GetWorld]
  | some c => by_cases h : s.WorldLive c = true <;> simp [GetWorld, h]

theorem addHit_eq (self : Nat) (hit : FHitResult) (s : State) :
    addHit self hit s =
      if (s.Objects self).InputData.bPrintCurrentHitInfo = true ∧ hit.Actor.isNone = true then
        Except.error { s with
          Objects := Function.update s.Objects self
            { s.Objects self with OutHits := (s.Objects self).OutHits ++ [hit] } }
      else
        Except.ok { s with
          Objects := Function.update s.Objects self
            { s.Objects self with OutHits := (s.Objects self).OutHits ++ [hit] }
          Events := s.Events ++ hitEffects (s.Objects self).InputData hit } := by
  simp only [addHit, DebugPrintHitInfo, State.emit, State.setObject, hitEffects]
  rcases ha : hit.Actor with _ | a
  · by_cases hp : (s.Objects self).InputData.bPrintCurrentHitInfo = true
    · simp [hp]
    · by_cases hd : (s.Objects self).InputData.bDebugDraw = true <;> simp [hp, hd]
  · by_cases hp : (s.Objects self).InputData.bPrintCurrentHitInfo = true <;>
      by_cases hd : (s.Objects self).InputData.bDebugDraw = true <;> simp [hp, hd]

theorem uptoNull_of_all (hits : List FHitResult)
    (h : hits.any (fun hit => hit.Actor.isNone) = false) : uptoNull hits = hits := by
  induction hits with
  | nil => rfl
  | cons hit hits ih =>
    simp only [List.any_cons, Bool.or_eq_false_iff] at h
    simp [uptoNull, h.1, ih h.2]

theorem handleEach_eq (self : Nat) (hits : List FHitResult) (s : State) :
    handleEach self hits s =
      if (s.Objects self).InputData.bPrintCurrentHitInfo = true ∧
          hits.any (fun hit => hit.Actor.isNone) = true then
        Except.error { s with
          Objects := Function.update s.Objects self
            { s.Objects self with OutHits := (s.Objects self).OutHits ++ uptoNull hits }
          Events := s.Events ++
            (beforeNull hits).flatMap (hitEffects (s.Objects self).InputData) }
      else
        Except.ok { s with
          Objects := Function.update s.Objects self
            { s.Objects self with OutHits := (s.Objects self).OutHits ++ hits }
          Events := s.Events ++ hits.flatMap (hitEffects (s.Objects self).InputData) } := by
  induction hits generalizing s with
  | nil => simp [handleEach]
  | cons hit hits ih =>
    rw [handleEach, addHit_eq]
    by_cases hc : (s.Objects self).InputData.bPrintCurrentHitInfo = true ∧
        hit.Actor.isNone = true
    · rw [if_pos hc]
      simp [hc.1, hc.2, uptoNull, beforeNull]
    · rw [if_neg hc]
      dsimp only
      rw [ih]
      by_cases hp : (s.Objects self).InputData.bPrintCurrentHitInfo = true
      · have ha : hit.Actor.isNone = false := by
          by_cases ha : hit.Actor.isNone = true
          · exact absurd ⟨hp, ha⟩ hc
          · cases hA : hit.Actor.isNone
            · rfl
            · exact absurd hA ha
        by_cases hr : hits.any (fun hit => hit.Actor.isNone) = true
        · simp [hp, ha, hr, uptoNull, beforeNull, List.append_assoc]
        · simp [hp, ha, hr, List.append_assoc]
      · simp [hp, List.append_assoc]

theorem filter_ne_of_not_mem (p : Option Nat) (l : List (Option Nat)) (h : p ∉ l) :
    l.filter (fun x => !decide (x = p)) = l := by
  rw [List.filter_eq_self]
  intro a ha
  simp only [Bool.not_eq_true', decide_eq_false_iff_not]
  rintro rfl
  exact h ha

theorem ExitLineTraceChannel_eq (self : Nat) (s : State) :
    ExitLineTraceChannel self s = exited self s := by
  unfold ExitLineTraceChannel exited UnregisterAsyncLineTrace State.emit State.setObject
  by_cases hg : Get s (s.Objects self).WorldContextObject = true
  · by_cases hm : some self ∈ s.ActiveAsyncLineTraces
    · simp [hg, hm]
    · simp [hg, hm, filter_ne_of_not_mem _ _ hm]
  · simp [hg]

theorem ExitLineTraceProfile_eq (self : Nat) (s : State) :
    ExitLineTraceProfile self s = exited self s :=
  ExitLineTraceChannel_eq self s

theorem ExitLineTraceObjects_eq (self : Nat) (s : State) :
    ExitLineTraceObjects self s = exited self s :=
  ExitLineTraceChannel_eq self s

theorem ProcessLineTraceChannel_eq (self : Nat) (s : State)
    (hc : (s.Objects self).Class = ETraceClass.Channel) :
    ProcessLineTraceChannel self s = processed self s := by
  unfold ProcessLineTraceChannel processed
  rcases hw : (s.Objects self).WorldContextObject with _ | c
  · simp [GetWorld, diagnosed, diagnosis, hc, hw, ExitLineTraceChannel_eq, State.emit]
  · by_cases hl : s.WorldLive c = true
    · simp [GetWorld, hl, issued, SetCurrentTraceStartEnd, AsyncLineTraceByChannel, issueQuery,
        State.setObject, queryOf, selectorOf, hc, resolvedStart, resolvedEnd]
      cases ha : (s.Objects self).InputData.TraceOrginActor <;> simp
    · simp [GetWorld, hl, diagnosed, diagnosis, hc, hw, ExitLineTraceChannel_eq, State.emit]

theorem ProcessLineTraceProfile_eq (self : Nat) (s : State)
    (hc : (s.Objects self).Class = ETraceClass.Profile) :
    ProcessLineTraceProfile self s = processed self s := by
  unfold ProcessLineTraceProfile processed
  rcases hw : (s.Objects self).WorldContextObject with _ | c
  · simp [GetWorld, diagnosed, diagnosis, hc, ExitLineTraceProfile_eq]
  · by_cases hl : s.WorldLive c = true
    · simp [GetWorld, hl, issued, SetCurrentTraceStartEnd, AsyncLineTraceByProfile, issueQuery,
        State.setObject, queryOf, selectorOf, hc, resolvedStart, resolvedEnd]
      cases ha : (s.Objects self).InputData.TraceOrginActor <;> simp
    · simp [GetWorld, hl, diagnosed, diagnosis, hc, ExitLineTraceProfile_eq]

theorem ProcessLineTraceObjects_eq (self : Nat) (s : State)
    (hc : (s.Objects self).Class = ETraceClass.Objects) :
    ProcessLineTraceObjects self s = processed self s := by
  unfold ProcessLineTraceObjects processed
  rcases hw : (s.Objects self).WorldContextObject with _ | c
  · simp [GetWorld, diagnosed, diagnosis, hc, ExitLineTraceObjects_eq]
  · by_cases hl : s.WorldLive c = true
    · simp [GetWorld, hl, issued, SetCurrentTraceStartEnd, AsyncLineTraceByObjectType, issueQuery,
        State.setObject, queryOf, selectorOf, hc, resolvedStart, resolvedEnd]
      cases ha : (s.Objects self).InputData.TraceOrginActor <;> simp
    · simp [GetWorld, hl, diagnosed, diagnosis, hc, ExitLineTraceObjects_eq]

theorem RequestLineTraceChannel_eq (self : Nat) (s : State)
    (hc : (s.Objects self).Class = ETraceClass.Channel) :
    RequestLineTraceChannel self s = requested self s := by
  unfold RequestLineTraceChannel requested bumped
  simp only [State.setObject, Function.update_same]
  split_ifs
  · exact ProcessLineTraceChannel_eq _ _ (by simpa using hc)
  · exact ExitLineTraceChannel_eq _ _

theorem RequestLineTraceProfile_eq (self : Nat) (s : State)
    (hc : (s.Objects self).Class = ETraceClass.Profile) :
    RequestLineTraceProfile self s = requested self s := by
  unfold RequestLineTraceProfile requested bumped
  simp only [State.setObject, Function.update_same]
  split_ifs
  · exact ProcessLineTraceProfile_eq _ _ (by simpa using hc)
  · exact ExitLineTraceProfile_eq _ _

theorem RequestLineTraceObjects_eq (self : Nat) (s : State)
    (hc : (s.Objects self).Class = ETraceClass.Objects) :
    RequestLineTraceObjects self s = requested self s := by
  unfold RequestLineTraceObjects requested bumped
  simp only [State.setObject, Function.update_same]
  split_ifs
  · exact ProcessLineTraceObjects_eq _ _ (by simpa using hc)
  · exact ExitLineTraceObjects_eq _ _

theorem RegisterAsyncLineTrace_Objects (p : Option Nat) (s : State) :
    (RegisterAsyncLineTrace p s).Objects = s.Objects := by
  unfold RegisterAsyncLineTrace
  split_ifs <;> rfl

theorem StartLineTraceChannel_eq (self : Nat) (s : State)
    (hc : (s.Objects self).Class = ETraceClass.Channel) :
    StartLineTraceChannel self s = started self s := by
  unfold StartLineTraceChannel started
  split_ifs
  · exact ExitLineTraceChannel_eq _ _
  · exact ProcessLineTraceChannel_eq _ _ (by rw [RegisterAsyncLineTrace_Objects]; exact hc)

theorem StartLineTraceProfile_eq (self : Nat) (s : State)
    (hc : (s.Objects self).Class = ETraceClass.Profile) :
    StartLineTraceProfile self s = started self s := by
  unfold StartLineTraceProfile started
  split_ifs
  · exact ExitLineTraceProfile_eq _ _
  · exact ProcessLineTraceProfile_eq _ _ (by rw [RegisterAsyncLineTrace_Objects]; exact hc)

theorem StartLineTraceObjects_eq (self : Nat) (s : State)
    (hc : (s.Objects self).Class = ETraceClass.Objects) :
    StartLineTraceObjects self s = started self s := by
  unfold StartLineTraceObjects started
  split_ifs
  · exact ExitLineTraceObjects_eq _ _
  · exact ProcessLineTraceObjects_eq _ _ (by rw [RegisterAsyncLineTrace_Objects]; exact hc)

theorem OnExitedAsyncTrace_eq (self : Nat) (s : State) :
    OnExitedAsyncTrace self s = exited self (s.emit (Event.Exited self)) := by
  unfold OnExitedAsyncTrace
  cases hc : (s.Objects self).Class
  · exact ExitLineTraceChannel_eq _ _
  · exact ExitLineTraceProfile_eq _ _
  · exact ExitLineTraceObjects_eq _ _

theorem OnRequestedAsyncTrace_eq (self : Nat) (s : State) :
    OnRequestedAsyncTrace self s = requested self (s.emit (Event.Requested self)) := by
  unfold OnRequestedAsyncTrace
  cases hc : (s.Objects self).Class
  · exact RequestLineTraceChannel_eq _ _ hc
  · exact RequestLineTraceProfile_eq _ _ hc
  · exact RequestLineTraceObjects_eq _ _ hc

theorem OnActivatedAsyncTrace_eq (self : Nat) (s : State) :
    OnActivatedAsyncTrace self s = started self (s.emit (Event.Activated self)) := by
  unfold OnActivatedAsyncTrace
  cases hc : (s.Objects self).Class
  · exact StartLineTraceChannel_eq _ _ hc
  · exact StartLineTraceProfile_eq _ _ hc
  · exact StartLineTraceObjects_eq _ _ hc

theorem keptHits_nil (t : EAsyncTraceType) : keptHits t [] = [] := by
  cases t <;> rfl

theorem keptHits_multi (t : EAsyncTraceType) (r : List FHitResult)
    (h : t = EAsyncTraceType.Multi) : keptHits t r = r := by
  subst h; rfl

theorem keptHits_other (t : EAsyncTraceType) (hit : FHitResult) (hits : List FHitResult)
    (h : t ≠ EAsyncTraceType.Multi) : keptHits t (hit :: hits) = [hit] := by
  cases t <;> simp_all [keptHits]

theorem derefsNull_nil (o : UAsyncLineTrace) : derefsNull o [] = false := by
  simp [derefsNull, keptHits_nil]

theorem handleEach_single (self : Nat) (hit : FHitResult) (s : State) :
    handleEach self [hit] s = addHit self hit s := by
  rw [handleEach]
  cases addHit self hit s <;> rfl

/-- What the switch of `OnTraceCompleted` hands to the two handlers. -/
theorem handlers_eq (self : Nat) (t : EAsyncTraceType) (InData : FTraceDatum) (s : State)
    (h : InData.OutHits.isEmpty = false) :
    OnTraceCompleted.match_1 (fun _ => Except State State) t
      (fun _ => HandleSingleLineTrace self InData s)
      (fun _ => HandleMultiLineTrace self InData s)
      (fun _ => HandleSingleLineTrace self InData s) =
      handleEach self (keptHits t InData.OutHits) s := by
  rcases hh : InData.OutHits with _ | ⟨hit, hits⟩
  · rw [hh] at h; cases h
  · cases t <;>
      simp [HandleSingleLineTrace, HandleMultiLineTrace, hh, keptHits, handleEach_single]

theorem handleEach_kept (self : Nat) (InData : FTraceDatum) (s s1 : State)
    (hO : s1.Objects self = s.Objects self) :
    handleEach self (keptHits (s.Objects self).TraceType InData.OutHits) s1 =
      if derefsNull (s.Objects self) InData.OutHits = true then
        Except.error { s1 with
          Objects := Function.update s1.Objects self
            { s.Objects self with
              OutHits := (s.Objects self).OutHits ++
                uptoNull (keptHits (s.Objects self).TraceType InData.OutHits) }
          Events := s1.Events ++
            (beforeNull (keptHits (s.Objects self).TraceType InData.OutHits)).flatMap
              (hitEffects (s.Objects self).InputData) }
      else
        Except.ok { s1 with
          Objects := Function.update s1.Objects self
            { s.Objects self with
              OutHits := (s.Objects self).OutHits ++
                keptHits (s.Objects self).TraceType InData.OutHits }
          Events := s1.Events ++
            (keptHits (s.Objects self).TraceType InData.OutHits).flatMap
              (hitEffects (s.Objects self).InputData) } := by
  rw [handleEach_eq, hO]
  unfold derefsNull
  simp only [Bool.and_eq_true]

theorem OnTraceCompleted_eq (self : Nat) (InHandle : Nat) (InData : FTraceDatum) (s : State) :
    OnTraceCompleted self InHandle InData s =
      if GetWorld s.WorldLive (s.Objects self).WorldContextObject = true ∧
          derefsNull (s.Objects self) InData.OutHits = true then
        halted self InData s
      else requested self ((accumulated self InData s).emit (Event.Requested self)) := by
  unfold OnTraceCompleted
  simp only [OnRequestedAsyncTrace_eq]
  by_cases hw : GetWorld s.WorldLive (s.Objects self).WorldContextObject = true
  · have hacc : accumulated self InData s =
        { s with
          Objects := Function.update s.Objects self
            { s.Objects self with
              OutHits := (s.Objects self).OutHits ++
                keptHits (s.Objects self).TraceType InData.OutHits }
          Events := s.Events ++ callbackEffects (s.Objects self) InData.OutHits } := by
      unfold accumulated
      rw [if_pos hw]
    rw [hacc]
    simp only [hw, if_true, true_and]
    by_cases he : InData.OutHits.isEmpty = false
    · simp only [he, if_true]
      rw [handlers_eq _ _ _ _ he]
      by_cases hd : (s.Objects self).InputData.bDebugDraw = true
      · rw [if_pos hd, handleEach_kept self InData s (s.emit _) rfl]
        by_cases hn : derefsNull (s.Objects self) InData.OutHits = true
        · rw [if_pos hn, if_pos hn]
          simp [halted, State.emit, hd, List.append_assoc]
        · rw [if_neg hn, if_neg hn]
          simp [callbackEffects, State.emit, hd, List.append_assoc]
      · rw [if_neg hd, handleEach_kept self InData s s rfl]
        by_cases hn : derefsNull (s.Objects self) InData.OutHits = true
        · rw [if_pos hn, if_pos hn]
          simp [halted, State.emit, hd]
        · rw [if_neg hn, if_neg hn]
          simp [callbackEffects, State.emit, hd]
    · have hnil : InData.OutHits = [] := by
        cases hI : InData.OutHits with
        | nil => rfl
        | cons a l => rw [hI] at he; simp at he
      have hdn : ¬ derefsNull (s.Objects self) InData.OutHits = true := by
        rw [hnil, derefsNull_nil]; simp
      rw [if_neg he, if_neg hdn]
      by_cases hd : (s.Objects self).InputData.bDebugDraw = true <;>
        simp [callbackEffects, hnil, keptHits_nil, State.emit, hd]
  · have hacc : accumulated self InData s = s := by
      unfold accumulated
      rw [if_neg hw]
    rw [hacc]
    simp only [hw, if_false, false_and]
    rfl

/-- A callback that reaches no hit without actor in `DebugPrintHitInfo`, or that finds no
world, broadcasts the segment-completed notification. -/
theorem OnTraceCompleted_ok (self : Nat) (InHandle : Nat) (InData : FTraceDatum) (s : State)
    (h : GetWorld s.WorldLive (s.Objects self).WorldContextObject = false ∨
      derefsNull (s.Objects self) InData.OutHits = false) :
    OnTraceCompleted self InHandle InData s =
      requested self ((accumulated self InData s).emit (Event.Requested self)) := by
  rw [OnTraceCompleted_eq, if_neg]
  rintro ⟨hw, hd⟩
  rcases h with h | h
  · rw [hw] at h; cases h
  · rw [hd] at h; cases h

/-- A callback that reaches a hit without actor in `DebugPrintHitInfo` ends the process. -/
theorem OnTraceCompleted_halt (self : Nat) (InHandle : Nat) (InData : FTraceDatum) (s : State)
    (hw : GetWorld s.WorldLive (s.Objects self).WorldContextObject = true)
    (hd : derefsNull (s.Objects self) InData.OutHits = true) :
    OnTraceCompleted self InHandle InData s = halted self InData s := by
  rw [OnTraceCompleted_eq, if_pos ⟨hw, hd⟩]

theorem Activate_eq (self : Nat) (s : State) :
    Activate self s =
      if activatable self s then started self (accepted self s)
      else exited self (rejected self s) := by
  unfold Activate
  simp only [OnExitedAsyncTrace_eq, OnActivatedAsyncTrace_eq]
  unfold bValidityCheck activatable rejected accepted rejection
  simp only [State.setObject, State.emit, Function.update_same, GetWorld]
  rcases hctx : (s.Objects self).InputData.WorldContextObject with _ | c
  · simp
  · by_cases hl : s.WorldLive c = true
    · by_cases hn : (s.Objects self).InputData.StartAndEndLocations.length ≤ 0
      · have hn0 : (s.Objects self).InputData.StartAndEndLocations = [] := by
          simpa using hn
        simp [hl, hn0]
      · have hpos : 0 < (s.Objects self).InputData.StartAndEndLocations.length := by omega
        have hne : (s.Objects self).InputData.StartAndEndLocations ≠ [] := by
          intro h; rw [h] at hpos; simp at hpos
        by_cases hp : (s.Objects self).bTraceInProgress = true
        · simp [hl, hne, hp, hpos]
        · simp [hl, hne, hp, hpos]
    · simp [hl]

theorem requested_OutHits (self : Nat) (s : State) :
    ((requested self s).Objects self).OutHits = (s.Objects self).OutHits := by
  unfold requested
  split_ifs with h
  · unfold processed
    split_ifs with hw
    · simp [issued, bumped]
    · simp [exited, diagnosed, bumped]
  · simp [exited, bumped]

theorem eventsSince_append (s0 s : State) (new : List Event)
    (h : s.Events = s0.Events ++ new) : eventsSince s0 s = new := by
  unfold eventsSince
  rw [h, List.drop_left]

/-! ## C1 -/

/-- C1 (the code departs from the claim): an all-hits engine with two segments is
activated, so it is in progress, registered and has one query in flight.  A second
`Activate` issues no query, but it removes the engine from the registry, fires the
completion event and clears the in-progress flag, although the claim says that the
registry and the in-progress flag are untouched.  The interrupted run then goes on
outside the registry: the callback of the query in flight issues the query of segment 1,
and the callback of that one fires the completion event a second time. -/
theorem Activate_in_progress_ends_trace :
    (((Activate 0 (multiState 2)).Objects 0).bTraceInProgress = true ∧
      (Activate 0 (multiState 2)).ActiveAsyncLineTraces = [some 0] ∧
      outstanding 0 (Activate 0 (multiState 2)) = 1) ∧
    (Activate 0 (Activate 0 (multiState 2))).ActiveAsyncLineTraces = [] ∧
    ((Activate 0 (Activate 0 (multiState 2))).Objects 0).bTraceInProgress = false ∧
    queriesOf (eventsSince (Activate 0 (multiState 2)) (Activate 0 (Activate 0 (multiState 2)))) = [] ∧
    completedOf (eventsSince (Activate 0 (multiState 2)) (Activate 0 (Activate 0 (multiState 2))))
      = [(0, [])] ∧
    (queriesOf (eventsSince (Activate 0 (multiState 2))
      (deliverAll 0 [⟨[]⟩, ⟨[]⟩] (Activate 0 (Activate 0 (multiState 2)))))).map
        FTraceQuery.target = [(0, 1)] ∧
    completedOf (eventsSince (Activate 0 (multiState 2))
      (deliverAll 0 [⟨[]⟩, ⟨[]⟩] (Activate 0 (Activate 0 (multiState 2))))) =
        [(0, []), (0, [])] := by
  decide

/-! ## C4 -/

/-- C4 (counterexample): a single-hit engine is in progress when its context stops
resolving to a live scene; the callback then reports one hit and the accumulated list
stays empty instead of receiving that hit. -/
theorem OnTraceCompleted_dead_world_keeps_hits :
    ¬ ((OnTraceCompleted 0 0 ⟨[exampleHit 1]⟩
          (SceneLost 0 (Activate 0 (singleState 2)))).Objects 0).OutHits =
        ((SceneLost 0 (Activate 0 (singleState 2))).Objects 0).OutHits ++ [exampleHit 1] := by
  decide

/-- C4 (amended): when the scene context of the engine resolves to a live scene at the
time the callback is delivered, a result with at least one hit extends the accumulated
list by exactly the first reported hit for the single-hit kind, and by all reported hits
in the reported order for the all-hits kind.  The state is arbitrary, so this holds for
every value of the debug-draw flag, and for every value of the print flag as long as no
hit that is handled lacks an actor while the flag is set (`derefsNull` is false); what
happens in that remaining case is left open here. -/
theorem OnTraceCompleted_accumulates (self InHandle : Nat) (hit : FHitResult)
    (hits : List FHitResult) (s : State)
    (hw : GetWorld s.WorldLive (s.Objects self).WorldContextObject = true)
    (hn : derefsNull (s.Objects self) (hit :: hits) = false) :
    ((s.Objects self).TraceType = EAsyncTraceType.Single →
      ((OnTraceCompleted self InHandle ⟨hit :: hits⟩ s).Objects self).OutHits =
        (s.Objects self).OutHits ++ [hit]) ∧
    ((s.Objects self).TraceType = EAsyncTraceType.Multi →
      ((OnTraceCompleted self InHandle ⟨hit :: hits⟩ s).Objects self).OutHits =
        (s.Objects self).OutHits ++ hit :: hits) := by
  rw [OnTraceCompleted_ok _ _ _ _ (Or.inr hn), requested_OutHits]
  constructor
  · intro ht
    simp [accumulated, hw, State.emit, keptHits_other _ _ _
      (show (s.Objects self).TraceType ≠ EAsyncTraceType.Multi by rw [ht]; decide)]
  · intro ht
    simp [accumulated, hw, State.emit, keptHits_multi _ _ ht]

/-- C4 (witness): a live single-hit engine with two reported hits keeps the first, and a
live all-hits engine that prints its hits keeps both. -/
theorem OnTraceCompleted_accumulates_witness :
    (GetWorld (Activate 0 (singleState 2)).WorldLive
        ((Activate 0 (singleState 2)).Objects 0).WorldContextObject = true ∧
      ((Activate 0 (singleState 2)).Objects 0).TraceType = EAsyncTraceType.Single ∧
      ((OnTraceCompleted 0 0 ⟨[exampleHit 1, exampleHit 2]⟩
          (Activate 0 (singleState 2))).Objects 0).OutHits =
        ((Activate 0 (singleState 2)).Objects 0).OutHits ++ [exampleHit 1]) ∧
    ((Activate 0 (printingState 2)).Objects 0).InputData.bPrintCurrentHitInfo = true ∧
    ((OnTraceCompleted 0 0 ⟨[exampleHit 1, exampleHit 2]⟩
        (Activate 0 (printingState 2))).Objects 0).OutHits =
      ((Activate 0 (printingState 2)).Objects 0).OutHits ++ [exampleHit 1, exampleHit 2] :=
  ⟨⟨by decide, by decide,
    (OnTraceCompleted_accumulates 0 0 (exampleHit 1) [exampleHit 2] (Activate 0 (singleState 2))
      (by decide) (by decide)).1 (by decide)⟩, by decide,
    (OnTraceCompleted_accumulates 0 0 (exampleHit 1) [exampleHit 2]
      (Activate 0 (printingState 2)) (by decide) (by decide)).2 (by decide)⟩

/-! ## C6 -/

theorem exited_rejected_Events (self : Nat) (s : State) :
    (exited self (rejected self s)).Events =
      s.Events ++ [rejection self s, Event.Log ELogVerbosity.Error EDiagnostic.CantStart,
        Event.Exited self, Event.Completed self (s.Objects self).OutHits] := by
  simp [exited, rejected]

theorem rejection_is_log (self : Nat) (s : State) :
    ∃ v m, rejection self s = Event.Log v m := by
  unfold rejection
  simp only []
  split_ifs <;> exact ⟨_, _, rfl⟩

/-- C6 (counterexample): activating an engine whose request has no segment fires the
completion event (once, with no hits), so the exited notification is not the only
notification fired. -/
theorem empty_request_fires_completion :
    ¬ completedOf (eventsSince (multiState 0) (Activate 0 (multiState 0))) = [] := by
  decide

/-- C6 (amended): for every request whose segment list is empty and every state,
`Activate` issues no backend query (the backend queue is unchanged) and does not fire the
activated notification; it fires the exited notification once, and the handler bound to
that notification fires the completion event once, carrying the accumulated hit list the
engine had before the call. -/
theorem Activate_empty_request (self : Nat) (s : State)
    (h : (s.Objects self).InputData.StartAndEndLocations = []) :
    queriesOf (eventsSince s (Activate self s)) = [] ∧
    (Activate self s).InFlight = s.InFlight ∧
    activatedOf (eventsSince s (Activate self s)) = [] ∧
    exitedOf (eventsSince s (Activate self s)) = [self] ∧
    completedOf (eventsSince s (Activate self s)) = [(self, (s.Objects self).OutHits)] := by
  have hna : activatable self s = false := by
    simp [activatable, h]
  have hA : Activate self s = exited self (rejected self s) := by
    rw [Activate_eq]; simp [hna]
  rw [hA, eventsSince_append s _ _ (exited_rejected_Events self s)]
  obtain ⟨v, m, hr⟩ := rejection_is_log self s
  rw [hr]
  refine ⟨by simp [queriesOf], by simp [exited, rejected], by simp [activatedOf],
    by simp [exitedOf], by simp [completedOf]⟩

/-- C6 (witness): the amended statement at a request without segments. -/
theorem Activate_empty_request_witness :
    ((multiState 0).Objects 0).InputData.StartAndEndLocations = [] ∧
    queriesOf (eventsSince (multiState 0) (Activate 0 (multiState 0))) = [] ∧
    (Activate 0 (multiState 0)).InFlight = (multiState 0).InFlight ∧
    activatedOf (eventsSince (multiState 0) (Activate 0 (multiState 0))) = [] ∧
    exitedOf (eventsSince (multiState 0) (Activate 0 (multiState 0))) = [0] ∧
    completedOf (eventsSince (multiState 0) (Activate 0 (multiState 0))) =
      [(0, ((multiState 0).Objects 0).OutHits)] :=
  ⟨by decide, Activate_empty_request 0 (multiState 0) (by decide)⟩

/-! ## C7 -/

theorem foldl_hits_eq (InID : Nat) (s : State) (l : List (Option Nat)) (acc : List FHitResult) :
    l.foldl (fun (currentHits : List FHitResult) (asyncTrace : Option Nat) =>
        match asyncTrace with
        | some t =>
          if (s.Objects t).CurrentTraceID = InID then currentHits ++ (s.Objects t).OutHits
          else currentHits
        | none => currentHits) acc =
      acc ++ ((l.filterMap (fun p => p)).filter
        (fun e => decide ((s.Objects e).CurrentTraceID = InID))).flatMap
        (fun e => (s.Objects e).OutHits) := by
  induction l generalizing acc with
  | nil => simp
  | cons p l ih =>
    rw [List.foldl_cons, ih]
    cases p with
    | none => simp
    | some t =>
      by_cases ht : (s.Objects t).CurrentTraceID = InID
      · simp [ht, List.filter_cons, List.append_assoc]
      · simp [ht, List.filter_cons]

/-- C7: `GetCurrentHitsByID` returns exactly the concatenation, in registry order, of
the accumulated hit lists of the registered engines whose identifier is the given one
(`specHitsByIdentifier`); the result is empty when no registered engine has that
identifier; and the call changes neither the registry nor any engine (the state after
the call is the state before it). -/
theorem GetCurrentHitsByID_spec (InID : Nat) (s : State) :
    (GetCurrentHitsByID InID s).1 = specHitsByIdentifier InID s ∧
    ((∀ e, some e ∈ s.ActiveAsyncLineTraces → (s.Objects e).CurrentTraceID ≠ InID) →
      (GetCurrentHitsByID InID s).1 = []) ∧
    (GetCurrentHitsByID InID s).2 = s := by
  have h1 : (GetCurrentHitsByID InID s).1 = specHitsByIdentifier InID s := by
    unfold GetCurrentHitsByID specHitsByIdentifier
    simp only []
    refine (foldl_hits_eq InID s s.ActiveAsyncLineTraces []).trans ?_
    simp
  refine ⟨h1, ?_, rfl⟩
  intro hno
  rw [h1]
  unfold specHitsByIdentifier
  have : (s.ActiveAsyncLineTraces.filterMap (fun p => p)).filter
      (fun e => decide ((s.Objects e).CurrentTraceID = InID)) = [] := by
    rw [List.filter_eq_nil_iff]
    intro e he
    have hmem : some e ∈ s.ActiveAsyncLineTraces := by
      rw [List.mem_filterMap] at he
      obtain ⟨a, ha, rfl⟩ := he
      exact ha
    simpa using hno e hmem
  rw [this]
  rfl

/-- C7 (witness): two registered engines with identifier 7; the hits for identifier 9
are empty. -/
theorem GetCurrentHitsByID_spec_witness :
    (∀ e, some e ∈ (Activate 1 (Activate 0 (multiState 1))).ActiveAsyncLineTraces →
      ((Activate 1 (Activate 0 (multiState 1))).Objects e).CurrentTraceID ≠ 9) ∧
    (GetCurrentHitsByID 9 (Activate 1 (Activate 0 (multiState 1)))).1 = [] :=
  have h : ∀ e, some e ∈ (Activate 1 (Activate 0 (multiState 1))).ActiveAsyncLineTraces →
      ((Activate 1 (Activate 0 (multiState 1))).Objects e).CurrentTraceID ≠ 9 := by
    intro e he
    have hreg : (Activate 1 (Activate 0 (multiState 1))).ActiveAsyncLineTraces =
        [some 0, some 1] := by decide
    rw [hreg] at he
    simp only [List.mem_cons, Option.some.injEq, List.mem_singleton, List.not_mem_nil,
      or_false] at he
    rcases he with rfl | rfl <;> decide
  ⟨h, (GetCurrentHitsByID_spec 9 (Activate 1 (Activate 0 (multiState 1)))).2.1 h⟩

/-! ## C8 -/

theorem CancelAsyncLineTrace_eq (self : Nat) (s : State) :
    CancelAsyncLineTrace self s =
      { s with
        Objects := Function.update s.Objects self { s.Objects self with bCalledCancel := true }
        Events := s.Events ++ [Event.Log ELogVerbosity.Warning EDiagnostic.Cancelled] } := by
  simp [CancelAsyncLineTrace, State.emit, State.setObject]

/-- What the loop of `CancelAsyncLineTracesByID` does over a list of registry entries. -/
theorem cancelByID_fold (InID : Nat) (l : List (Option Nat)) (s : State) :
    let s1 := l.foldl (fun (st : State) (asyncTrace : Option Nat) =>
      match asyncTrace with
      | some t =>
        if (st.Objects t).CurrentTraceID = InID then CancelAsyncLineTrace t st
        else st
      | none => st) s
    (∀ e, s1.Objects e =
      { s.Objects e with
        bCalledCancel := (s.Objects e).bCalledCancel ||
          decide (some e ∈ l ∧ (s.Objects e).CurrentTraceID = InID) }) ∧
    s1.ActiveAsyncLineTraces = s.ActiveAsyncLineTraces ∧ s1.InFlight = s.InFlight ∧
    s1.WorldLive = s.WorldLive ∧ s1.HasSubsystem = s.HasSubsystem ∧
    s1.NextHandle = s.NextHandle ∧
    ∃ n, s1.Events = s.Events ++
      List.replicate n (Event.Log ELogVerbosity.Warning EDiagnostic.Cancelled) := by
  induction l generalizing s with
  | nil =>
    refine ⟨fun e => ?_, rfl, rfl, rfl, rfl, rfl, 0, by simp⟩
    simp
  | cons p l ih =>
    simp only [List.foldl_cons]
    cases p with
    | none =>
      obtain ⟨h1, h2, h3, h4, h5, h6, h7⟩ := ih s
      refine ⟨?_, h2, h3, h4, h5, h6, h7⟩
      intro e
      rw [h1 e]
      simp
    | some t =>
      by_cases ht : (s.Objects t).CurrentTraceID = InID
      · simp only [ht, if_true]
        obtain ⟨h1, h2, h3, h4, h5, h6, n, h7⟩ := ih (CancelAsyncLineTrace t s)
        refine ⟨?_, ?_, ?_, ?_, ?_, ?_, n + 1, ?_⟩
        · intro e
          rw [h1 e, CancelAsyncLineTrace_eq]
          by_cases he : e = t
          · subst he
            simp [ht]
          · have he2 : ¬ t = e := fun h => he h.symm
            simp [he, he2]
        · rw [h2, CancelAsyncLineTrace_eq]
        · rw [h3, CancelAsyncLineTrace_eq]
        · rw [h4, CancelAsyncLineTrace_eq]
        · rw [h5, CancelAsyncLineTrace_eq]
        · rw [h6, CancelAsyncLineTrace_eq]
        · rw [h7, CancelAsyncLineTrace_eq]
          simp [List.replicate_succ]
      · simp only [ht, if_false]
        obtain ⟨h1, h2, h3, h4, h5, h6, h7⟩ := ih s
        refine ⟨?_, h2, h3, h4, h5, h6, h7⟩
        intro e
        rw [h1 e]
        by_cases he : e = t
        · subst he
          simp [ht]
        · have he2 : ¬ t = e := fun h => he h.symm
          simp [he, he2]

/-- C8: after `CancelAsyncLineTracesByID`, every engine has exactly its former fields
except that the cancellation flag is set on the engines that are registered and carry
the given identifier: an engine with another identifier, or one that is not registered,
keeps its flag; segment index, accumulated hits and in-progress flag of every engine,
the registry and the backend queue are unchanged. -/
theorem CancelAsyncLineTracesByID_spec (InID : Nat) (s : State) (e : Nat) :
    (CancelAsyncLineTracesByID InID s).Objects e =
      { s.Objects e with
        bCalledCancel := (s.Objects e).bCalledCancel ||
          decide (some e ∈ s.ActiveAsyncLineTraces ∧ (s.Objects e).CurrentTraceID = InID) } ∧
    (CancelAsyncLineTracesByID InID s).ActiveAsyncLineTraces = s.ActiveAsyncLineTraces ∧
    (CancelAsyncLineTracesByID InID s).InFlight = s.InFlight := by
  obtain ⟨h1, h2, h3, -⟩ := cancelByID_fold InID s.ActiveAsyncLineTraces s
  exact ⟨h1 e, h2, h3⟩

/-! ## The backend queue -/

theorem find_owned_none (e : Nat) (l : List FTraceQuery)
    (h : (l.filter (fun q => decide (q.Owner = e))).length = 0) :
    l.find? (fun q => decide (q.Owner = e)) = none := by
  rw [List.find?_eq_none]
  intro q hq
  have : l.filter (fun q => decide (q.Owner = e)) = [] := List.length_eq_zero.mp h
  rw [List.filter_eq_nil_iff] at this
  exact this q hq

theorem find_owned_some (e : Nat) (l : List FTraceQuery)
    (h : (l.filter (fun q => decide (q.Owner = e))).length ≠ 0) :
    ∃ q, l.find? (fun q => decide (q.Owner = e)) = some q := by
  cases hf : l.find? (fun q => decide (q.Owner = e)) with
  | some q => exact ⟨q, rfl⟩
  | none =>
    exfalso
    apply h
    rw [List.find?_eq_none] at hf
    rw [List.length_eq_zero, List.filter_eq_nil_iff]
    exact hf

theorem removeFirstOwned_self (e : Nat) (l : List FTraceQuery) :
    ((removeFirstOwned e l).filter (fun q => decide (q.Owner = e))).length =
      (l.filter (fun q => decide (q.Owner = e))).length - 1 := by
  induction l with
  | nil => rfl
  | cons q l ih =>
    by_cases hq : q.Owner = e
    · simp [removeFirstOwned, hq, List.filter_cons]
    · simp [removeFirstOwned, hq, List.filter_cons, ih]

theorem removeFirstOwned_other (e e1 : Nat) (l : List FTraceQuery) (h : e1 ≠ e) :
    (removeFirstOwned e l).filter (fun q => decide (q.Owner = e1)) =
      l.filter (fun q => decide (q.Owner = e1)) := by
  induction l with
  | nil => rfl
  | cons q l ih =>
    by_cases hq : q.Owner = e
    · have : ¬ q.Owner = e1 := fun h1 => h (h1.symm.trans hq)
      simp [removeFirstOwned, hq, List.filter_cons, this, h.symm]
    · simp [removeFirstOwned, hq, List.filter_cons, ih]

theorem DeliverCallback_eq (e : Nat) (d : FTraceDatum) (s : State) (h : outstanding e s ≠ 0)
    (hc : s.Crashed = false)
    (hn : GetWorld s.WorldLive (s.Objects e).WorldContextObject = false ∨
      derefsNull (s.Objects e) d.OutHits = false) :
    DeliverCallback e d s =
      requested e ((accumulated e d (dequeued e s)).emit (Event.Requested e)) := by
  unfold DeliverCallback
  obtain ⟨q, hq⟩ := find_owned_some e s.InFlight h
  rw [hq, if_neg (by rw [hc]; decide)]
  exact OnTraceCompleted_ok e q.Handle d (dequeued e s) hn

theorem DeliverCallback_idle (e : Nat) (d : FTraceDatum) (s : State) (h : outstanding e s = 0) :
    DeliverCallback e d s = s := by
  unfold DeliverCallback
  rw [find_owned_none e s.InFlight h]
  simp

theorem DeliverCallback_dead (e : Nat) (d : FTraceDatum) (s : State) (h : s.Crashed = true) :
    DeliverCallback e d s = s := by
  unfold DeliverCallback
  rw [if_pos h]

/-- A callback that reaches a hit without actor in `DebugPrintHitInfo` ends the process. -/
theorem DeliverCallback_halt (e : Nat) (d : FTraceDatum) (s : State) (h : outstanding e s ≠ 0)
    (hc : s.Crashed = false)
    (hw : GetWorld s.WorldLive (s.Objects e).WorldContextObject = true)
    (hd : derefsNull (s.Objects e) d.OutHits = true) :
    DeliverCallback e d s = halted e d (dequeued e s) := by
  unfold DeliverCallback
  obtain ⟨q, hq⟩ := find_owned_some e s.InFlight h
  rw [hq, if_neg (by rw [hc]; decide)]
  exact OnTraceCompleted_halt e q.Handle d (dequeued e s) hw hd

/-! ## Observations on effect lists -/

theorem queriesOf_append (a b : List Event) : queriesOf (a ++ b) = queriesOf a ++ queriesOf b := by
  simp [queriesOf, List.filterMap_append]

theorem completedOf_append (a b : List Event) :
    completedOf (a ++ b) = completedOf a ++ completedOf b := by
  simp [completedOf, List.filterMap_append]

theorem queriesOf_hitEffects (d : FAsyncTraceInputData) (hit : FHitResult) :
    queriesOf (hitEffects d hit) = [] := by
  unfold hitEffects
  split_ifs <;> simp [queriesOf]

theorem completedOf_hitEffects (d : FAsyncTraceInputData) (hit : FHitResult) :
    completedOf (hitEffects d hit) = [] := by
  unfold hitEffects
  split_ifs <;> simp [completedOf]

theorem queriesOf_flatMap_hitEffects (d : FAsyncTraceInputData) (hits : List FHitResult) :
    queriesOf (hits.flatMap (hitEffects d)) = [] := by
  induction hits with
  | nil => rfl
  | cons h hs ih => simp [List.flatMap_cons, queriesOf_append, queriesOf_hitEffects, ih]

theorem completedOf_flatMap_hitEffects (d : FAsyncTraceInputData) (hits : List FHitResult) :
    completedOf (hits.flatMap (hitEffects d)) = [] := by
  induction hits with
  | nil => rfl
  | cons h hs ih => simp [List.flatMap_cons, completedOf_append, completedOf_hitEffects, ih]

theorem queriesOf_callbackEffects (o : UAsyncLineTrace) (r : List FHitResult) :
    queriesOf (callbackEffects o r) = [] := by
  unfold callbackEffects
  rw [queriesOf_append, queriesOf_flatMap_hitEffects]
  split_ifs <;> simp [queriesOf]

theorem completedOf_callbackEffects (o : UAsyncLineTrace) (r : List FHitResult) :
    completedOf (callbackEffects o r) = [] := by
  unfold callbackEffects
  rw [completedOf_append, completedOf_flatMap_hitEffects]
  split_ifs <;> simp [completedOf]

/-! ## One callback of a running trace -/

theorem callback_advance (e c N : Nat) (t : EAsyncTraceType) (i : Nat) (d : FTraceDatum)
    (s : State) (hR : Running e c N t i s) (hN : i + 1 < N)
    (hn : derefsNull (s.Objects e) d.OutHits = false) :
    Running e c N t (i + 1) (DeliverCallback e d s) ∧
    ((DeliverCallback e d s).Objects e).OutHits = (s.Objects e).OutHits ++ keptHits t d.OutHits ∧
    ((DeliverCallback e d s).Objects e).bTraceInProgress = (s.Objects e).bTraceInProgress ∧
    (DeliverCallback e d s).ActiveAsyncLineTraces = s.ActiveAsyncLineTraces ∧
    ∃ new, (DeliverCallback e d s).Events = s.Events ++ new ∧
      (queriesOf new).map FTraceQuery.target = [(e, ((i + 1 : Nat) : Int))] ∧
      completedOf new = [] := by
  obtain ⟨hctx, hlive, hsub, hcancel, hlen, hkind, hidx, hout, halive⟩ := hR
  have hout' : (List.filter (fun q => decide (q.Owner = e)) s.InFlight).length = 1 := hout
  rw [DeliverCallback_eq e d s (by rw [hout]; decide) halive (Or.inr hn)]
  have hadv : requested e ((accumulated e d (dequeued e s)).emit (Event.Requested e)) =
      issued e (bumped e ((accumulated e d (dequeued e s)).emit (Event.Requested e))) := by
    unfold requested
    rw [if_pos]
    · unfold processed
      rw [if_pos]
      simp [bumped, accumulated, dequeued, State.emit, hctx, GetWorld, hlive]
    · simp [accumulated, dequeued, State.emit, hctx, GetWorld, hlive, hidx, hcancel, hlen]
      omega
  rw [hadv]
  refine ⟨⟨?_, ?_, ?_, ?_, ?_, ?_, ?_, ?_, ?_⟩, ?_, ?_, ?_, ?_⟩
  · simp [issued, bumped, accumulated, dequeued, State.emit, hctx, GetWorld, hlive]
  · simp [issued, bumped, accumulated, dequeued, State.emit, hctx, GetWorld, hlive]
  · simp [issued, bumped, accumulated, dequeued, State.emit, hctx, GetWorld, hlive, hsub]
  · simp [issued, bumped, accumulated, dequeued, State.emit, hctx, GetWorld, hlive, hcancel]
  · simp [issued, bumped, accumulated, dequeued, State.emit, hctx, GetWorld, hlive, hlen]
  · simp [issued, bumped, accumulated, dequeued, State.emit, hctx, GetWorld, hlive, hkind]
  · simp [issued, bumped, accumulated, dequeued, State.emit, hctx, GetWorld, hlive, hidx]
  · simp [outstanding, issued, bumped, accumulated, dequeued, State.emit, hctx, GetWorld, hlive,
      List.filter_append, queryOf, removeFirstOwned_self, hout']
  · simp [issued, bumped, accumulated, dequeued, State.emit, hctx, GetWorld, hlive, halive]
  · simp [issued, bumped, accumulated, dequeued, State.emit, hctx, GetWorld, hlive, hkind]
  · simp [issued, bumped, accumulated, dequeued, State.emit, hctx, GetWorld, hlive]
  · simp [issued, bumped, accumulated, dequeued, State.emit, hctx, GetWorld, hlive]
  · refine ⟨callbackEffects (s.Objects e) d.OutHits ++ [Event.Requested e,
      Event.Query (queryOf e (bumped e ((accumulated e d (dequeued e s)).emit (Event.Requested e)))
        ((bumped e ((accumulated e d (dequeued e s)).emit (Event.Requested e))).Objects e))],
      ?_, ?_, ?_⟩
    · simp [issued, bumped, accumulated, dequeued, State.emit, hctx, GetWorld, hlive]
    · rw [queriesOf_append, queriesOf_callbackEffects]
      simp [queriesOf, FTraceQuery.target, queryOf, bumped, accumulated, dequeued, State.emit,
        hctx, GetWorld, hlive, hidx]
    · rw [completedOf_append, completedOf_callbackEffects]
      simp [completedOf]

theorem callback_final (e c N : Nat) (t : EAsyncTraceType) (i : Nat) (d : FTraceDatum)
    (s : State) (hR : Running e c N t i s) (hN : i + 1 = N)
    (hn : derefsNull (s.Objects e) d.OutHits = false) :
    ((DeliverCallback e d s).Objects e).bTraceInProgress = false ∧
    ((DeliverCallback e d s).Objects e).OutHits = (s.Objects e).OutHits ++ keptHits t d.OutHits ∧
    (DeliverCallback e d s).ActiveAsyncLineTraces =
      s.ActiveAsyncLineTraces.filter (fun p => !decide (p = some e)) ∧
    outstanding e (DeliverCallback e d s) = 0 ∧
    ∃ new, (DeliverCallback e d s).Events = s.Events ++ new ∧
      queriesOf new = [] ∧
      completedOf new = [(e, (s.Objects e).OutHits ++ keptHits t d.OutHits)] := by
  obtain ⟨hctx, hlive, hsub, hcancel, hlen, hkind, hidx, hout, halive⟩ := hR
  have hout' : (List.filter (fun q => decide (q.Owner = e)) s.InFlight).length = 1 := hout
  rw [DeliverCallback_eq e d s (by rw [hout]; decide) halive (Or.inr hn)]
  have hfin : requested e ((accumulated e d (dequeued e s)).emit (Event.Requested e)) =
      exited e (bumped e ((accumulated e d (dequeued e s)).emit (Event.Requested e))) := by
    unfold requested
    rw [if_neg]
    simp [accumulated, dequeued, State.emit, hctx, GetWorld, hlive, hidx, hcancel, hlen]
    omega
  rw [hfin]
  refine ⟨?_, ?_, ?_, ?_, ?_⟩
  · simp [exited, bumped, accumulated, dequeued, State.emit, hctx, GetWorld, hlive]
  · simp [exited, bumped, accumulated, dequeued, State.emit, hctx, GetWorld, hlive, hkind]
  · simp [exited, Get_eq, bumped, accumulated, dequeued, State.emit, hctx, GetWorld, hlive, hsub]
  · simp [outstanding, exited, bumped, accumulated, dequeued, State.emit, hctx, GetWorld, hlive,
      removeFirstOwned_self, hout']
  · refine ⟨callbackEffects (s.Objects e) d.OutHits ++ [Event.Requested e,
      Event.Completed e ((s.Objects e).OutHits ++ keptHits t d.OutHits)], ?_, ?_, ?_⟩
    · simp [exited, bumped, accumulated, dequeued, State.emit, hctx, GetWorld, hlive, hkind]
    · rw [queriesOf_append, queriesOf_callbackEffects]
      simp [queriesOf]
    · rw [completedOf_append, completedOf_callbackEffects]
      simp [completedOf]

theorem requested_static (self : Nat) (s : State) :
    ((requested self s).Objects self).InputData = (s.Objects self).InputData ∧
    ((requested self s).Objects self).TraceType = (s.Objects self).TraceType := by
  unfold requested
  split_ifs with h
  · unfold processed
    split_ifs with hw
    · simp [issued, bumped]
    · simp [exited, diagnosed, bumped]
  · simp [exited, bumped]

/-- A callback changes neither the request nor the trace kind of its engine, so whether
a result would reach a hit without actor in `DebugPrintHitInfo` stays the same. -/
theorem DeliverCallback_derefsNull (e : Nat) (d : FTraceDatum) (s : State)
    (r : List FHitResult) :
    derefsNull ((DeliverCallback e d s).Objects e) r = derefsNull (s.Objects e) r := by
  have key : ((DeliverCallback e d s).Objects e).InputData = (s.Objects e).InputData ∧
      ((DeliverCallback e d s).Objects e).TraceType = (s.Objects e).TraceType := by
    by_cases hc : s.Crashed = true
    · rw [DeliverCallback_dead e d s hc]; exact ⟨rfl, rfl⟩
    · by_cases ho : outstanding e s = 0
      · rw [DeliverCallback_idle e d s ho]; exact ⟨rfl, rfl⟩
      · by_cases hx : GetWorld s.WorldLive (s.Objects e).WorldContextObject = true ∧
            derefsNull (s.Objects e) d.OutHits = true
        · rw [DeliverCallback_halt e d s ho (by simpa using hc) hx.1 hx.2]
          simp [halted, dequeued]
        · have hn : GetWorld s.WorldLive (s.Objects e).WorldContextObject = false ∨
              derefsNull (s.Objects e) d.OutHits = false := by
            by_cases hw : GetWorld s.WorldLive (s.Objects e).WorldContextObject = true
            · right
              cases hD : derefsNull (s.Objects e) d.OutHits
              · rfl
              · exact absurd ⟨hw, hD⟩ hx
            · left; simpa using hw
          rw [DeliverCallback_eq e d s ho (by simpa using hc) hn]
          obtain ⟨h1, h2⟩ := requested_static e ((accumulated e d (dequeued e s)).emit
            (Event.Requested e))
          rw [h1, h2]
          unfold accumulated
          split_ifs <;> simp [dequeued, State.emit]
  unfold derefsNull
  rw [key.1, key.2]

theorem deliverAll_cons (e : Nat) (d : FTraceDatum) (rs : List FTraceDatum) (s : State) :
    deliverAll e (d :: rs) s = deliverAll e rs (DeliverCallback e d s) := rfl

theorem deliverAll_append (e : Nat) (rs1 rs2 : List FTraceDatum) (s : State) :
    deliverAll e (rs1 ++ rs2) s = deliverAll e rs2 (deliverAll e rs1 s) := by
  simp [deliverAll, List.foldl_append]

theorem deliverAll_derefsNull (e : Nat) (rs : List FTraceDatum) (s : State)
    (r : List FHitResult) :
    derefsNull ((deliverAll e rs s).Objects e) r = derefsNull (s.Objects e) r := by
  induction rs generalizing s with
  | nil => rfl
  | cons d rs ih => rw [deliverAll_cons, ih, DeliverCallback_derefsNull]

/-- While callbacks remain that do not reach the last segment, the trace keeps running:
each callback issues the query of the next segment and fires no completion event. -/
theorem callbacks_advance (e c N : Nat) (t : EAsyncTraceType) (rs : List FTraceDatum) :
    ∀ (i : Nat) (s : State), Running e c N t i s → i + rs.length < N →
      (∀ d ∈ rs, derefsNull (s.Objects e) d.OutHits = false) →
      Running e c N t (i + rs.length) (deliverAll e rs s) ∧
      ((deliverAll e rs s).Objects e).OutHits =
        (s.Objects e).OutHits ++ rs.flatMap (fun r => keptHits t r.OutHits) ∧
      ((deliverAll e rs s).Objects e).bTraceInProgress = (s.Objects e).bTraceInProgress ∧
      (deliverAll e rs s).ActiveAsyncLineTraces = s.ActiveAsyncLineTraces ∧
      ∃ new, (deliverAll e rs s).Events = s.Events ++ new ∧
        (queriesOf new).map FTraceQuery.target =
          (List.range' (i + 1) rs.length).map (fun k => (e, (k : Int))) ∧
        completedOf new = [] := by
  induction rs with
  | nil =>
    intro i s hR _ _
    exact ⟨by simpa [deliverAll] using hR, by simp [deliverAll], rfl, rfl, [],
      by simp [deliverAll], rfl, rfl⟩
  | cons d rs ih =>
    intro i s hR hN hq
    simp only [List.length_cons] at hN
    obtain ⟨hR1, hO1, hP1, hA1, new1, hE1, hQ1, hC1⟩ :=
      callback_advance e c N t i d s hR (by omega) (hq d (List.mem_cons_self _ _))
    obtain ⟨hR2, hO2, hP2, hA2, new2, hE2, hQ2, hC2⟩ :=
      ih (i + 1) (DeliverCallback e d s) hR1 (by omega) (fun d1 hd1 => by
        rw [DeliverCallback_derefsNull]
        exact hq d1 (List.mem_cons_of_mem _ hd1))
    rw [deliverAll_cons]
    refine ⟨?_, ?_, ?_, ?_, new1 ++ new2, ?_, ?_, ?_⟩
    · have : i + (d :: rs).length = i + 1 + rs.length := by simp; omega
      rw [this]; exact hR2
    · rw [hO2, hO1]; simp [List.append_assoc]
    · rw [hP2, hP1]
    · rw [hA2, hA1]
    · rw [hE2, hE1, List.append_assoc]
    · rw [queriesOf_append, List.map_append, hQ1, hQ2]
      simp [List.range'_succ]
    · rw [completedOf_append, hC1, hC2]; rfl

/-- A full run from a running state: the remaining callbacks issue the queries of the
remaining segments in order, and the last one fires the completion event. -/
theorem callbacks_complete (e c N : Nat) (t : EAsyncTraceType) (rs : List FTraceDatum)
    (i : Nat) (s : State) (hR : Running e c N t i s) (hN : i + rs.length = N)
    (hne : rs ≠ []) (hq : ∀ d ∈ rs, derefsNull (s.Objects e) d.OutHits = false) :
    ((deliverAll e rs s).Objects e).bTraceInProgress = false ∧
    (deliverAll e rs s).ActiveAsyncLineTraces =
      s.ActiveAsyncLineTraces.filter (fun p => !decide (p = some e)) ∧
    outstanding e (deliverAll e rs s) = 0 ∧
    ∃ new, (deliverAll e rs s).Events = s.Events ++ new ∧
      (queriesOf new).map FTraceQuery.target =
        (List.range' (i + 1) (rs.length - 1)).map (fun k => (e, (k : Int))) ∧
      completedOf new =
        [(e, (s.Objects e).OutHits ++ rs.flatMap (fun r => keptHits t r.OutHits))] := by
  obtain ⟨rs1, d, rfl⟩ : ∃ rs1 d, rs = rs1 ++ [d] :=
    ⟨rs.dropLast, rs.getLast hne, (List.dropLast_append_getLast hne).symm⟩
  simp only [List.length_append, List.length_singleton] at hN
  obtain ⟨hR1, hO1, hP1, hA1, new1, hE1, hQ1, hC1⟩ :=
    callbacks_advance e c N t rs1 i s hR (by omega)
      (fun d1 hd1 => hq d1 (List.mem_append_left _ hd1))
  have hq2 : derefsNull ((deliverAll e rs1 s).Objects e) d.OutHits = false := by
    rw [deliverAll_derefsNull]
    exact hq d (List.mem_append_right _ (List.mem_singleton_self d))
  obtain ⟨hP2, hO2, hA2, hout2, new2, hE2, hQ2, hC2⟩ :=
    callback_final e c N t (i + rs1.length) d (deliverAll e rs1 s) hR1 (by omega) hq2
  rw [deliverAll_append]
  have hd : deliverAll e [d] (deliverAll e rs1 s) = DeliverCallback e d (deliverAll e rs1 s) := rfl
  rw [hd]
  refine ⟨hP2, by rw [hA2, hA1], hout2, new1 ++ new2, ?_, ?_, ?_⟩
  · rw [hE2, hE1, List.append_assoc]
  · rw [queriesOf_append, List.map_append, hQ1, hQ2]
    simp
  · rw [completedOf_append, hC1, hC2, hO1]
    simp [List.append_assoc]

theorem RegisterAsyncLineTrace_WorldLive (p : Option Nat) (s : State) :
    (RegisterAsyncLineTrace p s).WorldLive = s.WorldLive := by
  unfold RegisterAsyncLineTrace; split_ifs <;> rfl

theorem RegisterAsyncLineTrace_HasSubsystem (p : Option Nat) (s : State) :
    (RegisterAsyncLineTrace p s).HasSubsystem = s.HasSubsystem := by
  unfold RegisterAsyncLineTrace; split_ifs <;> rfl

theorem RegisterAsyncLineTrace_InFlight (p : Option Nat) (s : State) :
    (RegisterAsyncLineTrace p s).InFlight = s.InFlight := by
  unfold RegisterAsyncLineTrace; split_ifs <;> rfl

theorem RegisterAsyncLineTrace_Events (p : Option Nat) (s : State) :
    (RegisterAsyncLineTrace p s).Events = s.Events := by
  unfold RegisterAsyncLineTrace; split_ifs <;> rfl

theorem RegisterAsyncLineTrace_Crashed (p : Option Nat) (s : State) :
    (RegisterAsyncLineTrace p s).Crashed = s.Crashed := by
  unfold RegisterAsyncLineTrace; split_ifs <;> rfl

theorem RegisterAsyncLineTrace_NextHandle (p : Option Nat) (s : State) :
    (RegisterAsyncLineTrace p s).NextHandle = s.NextHandle := by
  unfold RegisterAsyncLineTrace; split_ifs <;> rfl

/-- A successful activation: the engine is registered, in progress, and the query of
segment 0 is its one outstanding query. -/
theorem Activate_running (e c N : Nat) (s : State)
    (hctx : (s.Objects e).InputData.WorldContextObject = some c)
    (hlive : s.WorldLive c = true) (hsub : s.HasSubsystem = true)
    (hlen : (s.Objects e).InputData.StartAndEndLocations.length = N) (hpos : 1 ≤ N)
    (hnp : (s.Objects e).bTraceInProgress = false)
    (hnc : (s.Objects e).bCalledCancel = false)
    (hidle : outstanding e s = 0) (halive : s.Crashed = false) :
    Running e c N (s.Objects e).TraceType 0 (Activate e s) ∧
    ((Activate e s).Objects e).OutHits = [] ∧
    ((Activate e s).Objects e).bTraceInProgress = true ∧
    some e ∈ (Activate e s).ActiveAsyncLineTraces ∧
    (∀ p, p ≠ some e → (p ∈ (Activate e s).ActiveAsyncLineTraces ↔ p ∈ s.ActiveAsyncLineTraces)) ∧
    ∃ new, (Activate e s).Events = s.Events ++ new ∧
      (queriesOf new).map FTraceQuery.target = [(e, 0)] ∧ completedOf new = [] := by
  have hidle' : (List.filter (fun q => decide (q.Owner = e)) s.InFlight).length = 0 := hidle
  have hact : activatable e s = true := by
    simp [activatable, hctx, GetWorld, hlive, hnp]; omega
  have hget : ¬ Get (accepted e s) ((accepted e s).Objects e).WorldContextObject = false := by
    simp [Get_eq, accepted, hctx, GetWorld, hlive, hsub]
  have hworld : GetWorld (RegisterAsyncLineTrace (some e) (accepted e s)).WorldLive
      ((RegisterAsyncLineTrace (some e) (accepted e s)).Objects e).WorldContextObject = true := by
    rw [RegisterAsyncLineTrace_WorldLive, RegisterAsyncLineTrace_Objects]
    simp [accepted, hctx, GetWorld, hlive]
  have hA : Activate e s = issued e (RegisterAsyncLineTrace (some e) (accepted e s)) := by
    rw [Activate_eq, if_pos hact]
    unfold started
    rw [if_neg hget]
    unfold processed
    rw [if_pos hworld]
  rw [hA]
  refine ⟨⟨?_, ?_, ?_, ?_, ?_, ?_, ?_, ?_, ?_⟩, ?_, ?_, ?_, ?_, ?_⟩
  · simp [issued, RegisterAsyncLineTrace_Objects, accepted, hctx]
  · simp [issued, RegisterAsyncLineTrace_WorldLive, accepted, hlive]
  · simp [issued, RegisterAsyncLineTrace_HasSubsystem, accepted, hsub]
  · simp [issued, RegisterAsyncLineTrace_Objects, accepted, hnc]
  · simp [issued, RegisterAsyncLineTrace_Objects, accepted, hlen]
  · simp [issued, RegisterAsyncLineTrace_Objects, accepted]
  · simp [issued, RegisterAsyncLineTrace_Objects, accepted]
  · simp [outstanding, issued, RegisterAsyncLineTrace_InFlight, accepted, List.filter_append, queryOf, hidle']
  · simp [issued, RegisterAsyncLineTrace_Crashed, accepted, halive]
  · simp [issued, RegisterAsyncLineTrace_Objects, accepted]
  · simp [issued, RegisterAsyncLineTrace_Objects, accepted]
  · simp only [issued, RegisterAsyncLineTrace, accepted, Option.isSome_some, if_true]
    split_ifs with hm
    · exact hm
    · simp
  · intro p hp
    simp only [issued, RegisterAsyncLineTrace, accepted, Option.isSome_some, if_true]
    split_ifs with hm
    · rfl
    · simp [hp]
  · refine ⟨[Event.Activated e, Event.Query (queryOf e
      (RegisterAsyncLineTrace (some e) (accepted e s))
      ((RegisterAsyncLineTrace (some e) (accepted e s)).Objects e))], ?_, ?_, ?_⟩
    · simp only [issued, RegisterAsyncLineTrace_Events]
      simp [accepted]
    · simp [queriesOf, FTraceQuery.target, queryOf, RegisterAsyncLineTrace_Objects, accepted]
    · simp [completedOf]

/-! ## C2 -/

/-- `Activate` changes neither the request nor the trace kind of its engine. -/
theorem Activate_derefsNull (e : Nat) (s : State) (r : List FHitResult) :
    derefsNull ((Activate e s).Objects e) r = derefsNull (s.Objects e) r := by
  have key : ((Activate e s).Objects e).InputData = (s.Objects e).InputData ∧
      ((Activate e s).Objects e).TraceType = (s.Objects e).TraceType := by
    rw [Activate_eq]
    split_ifs with ha
    · unfold started
      split_ifs with hg
      · simp [exited, accepted]
      · unfold processed
        split_ifs with hw
        · simp [issued, RegisterAsyncLineTrace_Objects, accepted]
        · simp [exited, diagnosed, RegisterAsyncLineTrace_Objects, accepted]
    · simp [exited, rejected]
  unfold derefsNull
  rw [key.1, key.2]

theorem range_targets (e N : Nat) (hpos : 1 ≤ N) :
    (e, (0 : Int)) :: (List.range' 1 (N - 1)).map (fun k => (e, (k : Int))) =
      (List.range N).map (fun k => (e, (k : Int))) := by
  obtain ⟨n, rfl⟩ : ∃ n, N = n + 1 := ⟨N - 1, by omega⟩
  rw [List.range_eq_range', List.range'_succ]
  simp

/-- The run of a fresh activation when no callback reaches a hit without actor in
`DebugPrintHitInfo`: a request with `N ≥ 1` segments is activated on an engine that is
not in progress, has no cancellation requested and no query outstanding, its scene
context and the registry resolving; the backend then delivers one callback per issued
query, with results `rs`.  Exactly `N` queries are issued, the `k`-th for segment `k` of
this engine; the completion event fires exactly once; after fewer than `N` callbacks it
has not fired yet and exactly one query is outstanding (segments `0..k` issued after `k`
callbacks), and after the `N`-th callback no query is outstanding. -/
theorem queries_in_segment_order (e c N : Nat) (s : State) (rs : List FTraceDatum)
    (hctx : (s.Objects e).InputData.WorldContextObject = some c)
    (hlive : s.WorldLive c = true) (hsub : s.HasSubsystem = true)
    (hlen : (s.Objects e).InputData.StartAndEndLocations.length = N) (hpos : 1 ≤ N)
    (hnp : (s.Objects e).bTraceInProgress = false)
    (hnc : (s.Objects e).bCalledCancel = false)
    (hidle : outstanding e s = 0) (hrs : rs.length = N) (halive : s.Crashed = false)
    (hq : ∀ d ∈ rs, derefsNull (s.Objects e) d.OutHits = false) :
    (queriesOf (eventsSince s (deliverAll e rs (Activate e s)))).map FTraceQuery.target =
      (List.range N).map (fun k => (e, (k : Int))) ∧
    (completedOf (eventsSince s (deliverAll e rs (Activate e s)))).map Prod.fst = [e] ∧
    outstanding e (deliverAll e rs (Activate e s)) = 0 ∧
    ∀ k, k < N →
      (queriesOf (eventsSince s (deliverAll e (rs.take k) (Activate e s)))).map
          FTraceQuery.target = (List.range (k + 1)).map (fun j => (e, (j : Int))) ∧
      completedOf (eventsSince s (deliverAll e (rs.take k) (Activate e s))) = [] ∧
      outstanding e (deliverAll e (rs.take k) (Activate e s)) = 1 := by
  obtain ⟨hR, -, -, -, -, new0, hE0, hQ0, hC0⟩ :=
    Activate_running e c N s hctx hlive hsub hlen hpos hnp hnc hidle halive
  have hne : rs ≠ [] := by
    intro h; rw [h] at hrs; simp at hrs; omega
  have hq1 : ∀ d ∈ rs, derefsNull ((Activate e s).Objects e) d.OutHits = false := by
    intro d hd
    rw [Activate_derefsNull]
    exact hq d hd
  obtain ⟨-, -, hout, new1, hE1, hQ1, hC1⟩ :=
    callbacks_complete e c N _ rs 0 (Activate e s) hR (by omega) hne hq1
  refine ⟨?_, ?_, hout, ?_⟩
  · rw [eventsSince_append s _ (new0 ++ new1) (by rw [hE1, hE0, List.append_assoc])]
    rw [queriesOf_append, List.map_append, hQ0, hQ1, hrs]
    exact range_targets e N hpos
  · rw [eventsSince_append s _ (new0 ++ new1) (by rw [hE1, hE0, List.append_assoc])]
    rw [completedOf_append, hC0, hC1]
    rfl
  · intro k hk
    have hlk : (rs.take k).length = k := by
      rw [List.length_take]; omega
    obtain ⟨hRk, -, -, -, newk, hEk, hQk, hCk⟩ :=
      callbacks_advance e c N _ (rs.take k) 0 (Activate e s) hR (by omega)
        (fun d hd => hq1 d (List.mem_of_mem_take hd))
    refine ⟨?_, ?_, hRk.out⟩
    · rw [eventsSince_append s _ (new0 ++ newk) (by rw [hEk, hE0, List.append_assoc])]
      rw [queriesOf_append, List.map_append, hQ0, hQk, hlk]
      have := range_targets e (k + 1) (by omega)
      simpa using this
    · rw [eventsSince_append s _ (new0 ++ newk) (by rw [hEk, hE0, List.append_assoc])]
      rw [completedOf_append, hC0, hCk]
      rfl

/-- C2 (the code departs from the claim): an all-hits engine that prints its hits is
activated with a request of two segments, scene context and registry resolving, no
cancellation.  The callback of segment 0 reports one hit that has no actor:
`DebugPrintHitInfo` dereferences the null actor and the process ends inside the
callback.  Only the query of segment 0 has been issued, where the claim says two
queries, for segments 0 and 1; the completion event has not fired, where the claim says
it fires once; and the callback of segment 1 is never delivered. -/
theorem null_actor_hit_stops_queries :
    (((Activate 0 (printingState 2)).Objects 0).bTraceInProgress = true ∧
      ((Activate 0 (printingState 2)).Objects 0).InputData.bPrintCurrentHitInfo = true ∧
      outstanding 0 (Activate 0 (printingState 2)) = 1) ∧
    (DeliverCallback 0 ⟨[strayHit]⟩ (Activate 0 (printingState 2))).Crashed = true ∧
    (queriesOf (eventsSince (printingState 2)
      (deliverAll 0 [⟨[strayHit]⟩, ⟨[]⟩] (Activate 0 (printingState 2))))).map
        FTraceQuery.target = [(0, 0)] ∧
    completedOf (eventsSince (printingState 2)
      (deliverAll 0 [⟨[strayHit]⟩, ⟨[]⟩] (Activate 0 (printingState 2)))) = [] ∧
    ¬ (queriesOf (eventsSince (printingState 2)
      (deliverAll 0 [⟨[strayHit]⟩, ⟨[]⟩] (Activate 0 (printingState 2))))).map
        FTraceQuery.target = (List.range 2).map (fun k => (0, (k : Int))) := by
  decide

/-! ## C3 -/

theorem keptHits_Multi_spec (r : List FHitResult) :
    keptHits EAsyncTraceType.Multi r = specSegmentHits true r := by
  simp [keptHits, specSegmentHits]

theorem keptHits_Single_spec (r : List FHitResult) :
    keptHits EAsyncTraceType.Single r = specSegmentHits false r := by
  cases r <;> simp [keptHits, specSegmentHits]

/-- The completion event of a fresh activation when no callback reaches a hit without
actor in `DebugPrintHitInfo`: under the conditions of a fresh activation (engine not in
progress, no cancellation, no query outstanding, scene context and registry resolving,
one callback per issued query), the completion event fires once and carries the
concatenation, in segment order, of the whole results for the all-hits kind and of the
first hit of each non-empty result for the single-hit kind (`specSegmentHits`);
afterwards the registry does not contain the engine. -/
theorem completion_carries_segment_hits (e c N : Nat) (s : State) (rs : List FTraceDatum)
    (hctx : (s.Objects e).InputData.WorldContextObject = some c)
    (hlive : s.WorldLive c = true) (hsub : s.HasSubsystem = true)
    (hlen : (s.Objects e).InputData.StartAndEndLocations.length = N) (hpos : 1 ≤ N)
    (hnp : (s.Objects e).bTraceInProgress = false)
    (hnc : (s.Objects e).bCalledCancel = false)
    (hidle : outstanding e s = 0) (hrs : rs.length = N) (halive : s.Crashed = false)
    (hq : ∀ d ∈ rs, derefsNull (s.Objects e) d.OutHits = false) :
    ((s.Objects e).TraceType = EAsyncTraceType.Multi →
      completedOf (eventsSince s (deliverAll e rs (Activate e s))) =
        [(e, rs.flatMap (fun r => specSegmentHits true r.OutHits))]) ∧
    ((s.Objects e).TraceType = EAsyncTraceType.Single →
      completedOf (eventsSince s (deliverAll e rs (Activate e s))) =
        [(e, rs.flatMap (fun r => specSegmentHits false r.OutHits))]) ∧
    some e ∉ (deliverAll e rs (Activate e s)).ActiveAsyncLineTraces := by
  obtain ⟨hR, hO0, -, -, -, new0, hE0, hQ0, hC0⟩ :=
    Activate_running e c N s hctx hlive hsub hlen hpos hnp hnc hidle halive
  have hne : rs ≠ [] := by
    intro h; rw [h] at hrs; simp at hrs; omega
  have hq1 : ∀ d ∈ rs, derefsNull ((Activate e s).Objects e) d.OutHits = false := by
    intro d hd
    rw [Activate_derefsNull]
    exact hq d hd
  obtain ⟨-, hA, -, new1, hE1, hQ1, hC1⟩ :=
    callbacks_complete e c N _ rs 0 (Activate e s) hR (by omega) hne hq1
  have hcomp : completedOf (eventsSince s (deliverAll e rs (Activate e s))) =
      [(e, rs.flatMap (fun r => keptHits (s.Objects e).TraceType r.OutHits))] := by
    rw [eventsSince_append s _ (new0 ++ new1) (by rw [hE1, hE0, List.append_assoc])]
    rw [completedOf_append, hC0, hC1, hO0]
    rfl
  refine ⟨?_, ?_, ?_⟩
  · intro ht
    rw [hcomp, ht]
    simp only [keptHits_Multi_spec]
  · intro ht
    rw [hcomp, ht]
    simp only [keptHits_Single_spec]
  · rw [hA]
    simp [List.mem_filter]

/-- C3 (the code departs from the claim): the first scenario of the claim, three
segments of the all-hits kind with one hit each, on an engine that prints its hits and
with a second hit that has no actor.  `DebugPrintHitInfo` dereferences the null actor in
the second callback and the process ends there: the hit list holds two hits, the
completion event never fires, where the claim says it carries the three hits, and the
registry still contains the engine, where the claim says it no longer does. -/
theorem null_actor_hit_loses_completion :
    ((Activate 0 (printingState 3)).Objects 0).InputData.bPrintCurrentHitInfo = true ∧
    (deliverAll 0 [⟨[exampleHit 1]⟩, ⟨[strayHit]⟩, ⟨[exampleHit 3]⟩]
      (Activate 0 (printingState 3))).Crashed = true ∧
    ((deliverAll 0 [⟨[exampleHit 1]⟩, ⟨[strayHit]⟩, ⟨[exampleHit 3]⟩]
      (Activate 0 (printingState 3))).Objects 0).OutHits = [exampleHit 1, strayHit] ∧
    completedOf (eventsSince (printingState 3)
      (deliverAll 0 [⟨[exampleHit 1]⟩, ⟨[strayHit]⟩, ⟨[exampleHit 3]⟩]
        (Activate 0 (printingState 3)))) = [] ∧
    some 0 ∈ (deliverAll 0 [⟨[exampleHit 1]⟩, ⟨[strayHit]⟩, ⟨[exampleHit 3]⟩]
      (Activate 0 (printingState 3))).ActiveAsyncLineTraces ∧
    completedOf (eventsSince (multiState 3)
      (deliverAll 0 [⟨[exampleHit 1]⟩, ⟨[strayHit]⟩, ⟨[exampleHit 3]⟩]
        (Activate 0 (multiState 3)))) = [(0, [exampleHit 1, strayHit, exampleHit 3])] := by
  decide

/-! ## Case analysis of the operations -/

/-- The three outcomes of a `Request...` function. -/
theorem requested_cases (self : Nat) (s : State) :
    ((s.Objects self).bCalledCancel = false ∧
      GetWorld s.WorldLive (s.Objects self).WorldContextObject = true ∧
      requested self s = issued self (bumped self s)) ∨
    ((s.Objects self).bCalledCancel = false ∧
      GetWorld s.WorldLive (s.Objects self).WorldContextObject = false ∧
      requested self s = exited self (diagnosed self (bumped self s))) ∨
    requested self s = exited self (bumped self s) := by
  unfold requested
  split_ifs with h
  · unfold processed
    by_cases hw : GetWorld s.WorldLive (s.Objects self).WorldContextObject = true
    · left
      refine ⟨h.2, hw, ?_⟩
      rw [if_pos]
      simpa [bumped] using hw
    · right; left
      refine ⟨h.2, by simpa using hw, ?_⟩
      rw [if_neg]
      simpa [bumped] using hw
  · right; right; rfl

/-- A cancelled engine always leaves a `Request...` function through `Exit...`. -/
theorem requested_cancelled (self : Nat) (s : State)
    (hc : (s.Objects self).bCalledCancel = true) :
    requested self s = exited self (bumped self s) := by
  unfold requested
  rw [if_neg]
  simp [hc]

/-- The outcomes of `Activate`. -/
theorem Activate_cases (self : Nat) (s : State) :
    (activatable self s = false ∧ Activate self s = exited self (rejected self s)) ∨
    (activatable self s = true ∧ s.HasSubsystem = false ∧
      Activate self s = exited self (accepted self s)) ∨
    (activatable self s = true ∧ s.HasSubsystem = true ∧
      Activate self s = issued self (RegisterAsyncLineTrace (some self) (accepted self s))) := by
  rw [Activate_eq]
  by_cases ha : activatable self s = true
  · have ha' := ha
    simp only [activatable, Bool.and_eq_true, Bool.not_eq_true', decide_eq_true_eq] at ha'
    obtain ⟨⟨⟨hsome, hworld⟩, -⟩, -⟩ := ha'
    rw [if_pos ha]
    by_cases hs : s.HasSubsystem = true
    · right; right
      refine ⟨ha, hs, ?_⟩
      unfold started
      rw [if_neg (by simp [Get_eq, accepted, hworld, hs])]
      unfold processed
      rw [if_pos (by
        rw [RegisterAsyncLineTrace_WorldLive, RegisterAsyncLineTrace_Objects]
        simpa [accepted] using hworld)]
    · right; left
      refine ⟨ha, by simpa using hs, ?_⟩
      unfold started
      rw [if_pos (by simp [Get_eq, accepted, hs])]
  · left
    refine ⟨by simpa using ha, ?_⟩
    rw [if_neg ha]

/-- The outcomes of a callback delivery: nothing is called (no outstanding query, or the
process has ended); the process ends in `DebugPrintHitInfo`; or the segment-completed
notification is broadcast. -/
theorem DeliverCallback_cases (e : Nat) (d : FTraceDatum) (s : State) :
    ((outstanding e s = 0 ∨ s.Crashed = true) ∧ DeliverCallback e d s = s) ∨
    (outstanding e s ≠ 0 ∧ s.Crashed = false ∧
      (GetWorld s.WorldLive (s.Objects e).WorldContextObject = true ∧
        derefsNull (s.Objects e) d.OutHits = true) ∧
      DeliverCallback e d s = halted e d (dequeued e s)) ∨
    (outstanding e s ≠ 0 ∧ s.Crashed = false ∧
      (GetWorld s.WorldLive (s.Objects e).WorldContextObject = false ∨
        derefsNull (s.Objects e) d.OutHits = false) ∧
      DeliverCallback e d s =
        requested e ((accumulated e d (dequeued e s)).emit (Event.Requested e))) := by
  by_cases hc : s.Crashed = true
  · exact Or.inl ⟨Or.inr hc, DeliverCallback_dead e d s hc⟩
  · have hc' : s.Crashed = false := by simpa using hc
    by_cases h : outstanding e s = 0
    · exact Or.inl ⟨Or.inl h, DeliverCallback_idle e d s h⟩
    · by_cases hx : GetWorld s.WorldLive (s.Objects e).WorldContextObject = true ∧
          derefsNull (s.Objects e) d.OutHits = true
      · exact Or.inr (Or.inl ⟨h, hc', hx, DeliverCallback_halt e d s h hc' hx.1 hx.2⟩)
      · have hn : GetWorld s.WorldLive (s.Objects e).WorldContextObject = false ∨
            derefsNull (s.Objects e) d.OutHits = false := by
          by_cases hw : GetWorld s.WorldLive (s.Objects e).WorldContextObject = true
          · right
            cases hD : derefsNull (s.Objects e) d.OutHits
            · rfl
            · exact absurd ⟨hw, hD⟩ hx
          · left; simpa using hw
        exact Or.inr (Or.inr ⟨h, hc', hn, DeliverCallback_eq e d s h hc' hn⟩)

/-- What `halted` changes: the hit list of the engine grows, debug effects are logged,
and the process has ended. -/
theorem halted_eq (self : Nat) (d : FTraceDatum) (s : State) :
    ∃ (hits : List FHitResult) (evs : List Event),
      queriesOf evs = [] ∧ completedOf evs = [] ∧
      halted self d s =
        { s with
          Objects := Function.update s.Objects self
            { s.Objects self with OutHits := (s.Objects self).OutHits ++ hits }
          Events := s.Events ++ evs
          Crashed := true } := by
  refine ⟨uptoNull (keptHits (s.Objects self).TraceType d.OutHits), _, ?_, ?_, rfl⟩
  · rw [queriesOf_append, queriesOf_flatMap_hitEffects]
    split_ifs <;> simp [queriesOf]
  · rw [completedOf_append, completedOf_flatMap_hitEffects]
    split_ifs <;> simp [completedOf]

/-- What `accumulated` changes: the hit list of the engine and the effect log. -/
theorem accumulated_eq (self : Nat) (d : FTraceDatum) (s : State) :
    ∃ (hits : List FHitResult) (evs : List Event),
      queriesOf evs = [] ∧ completedOf evs = [] ∧
      (GetWorld s.WorldLive (s.Objects self).WorldContextObject = true →
        hits = keptHits (s.Objects self).TraceType d.OutHits) ∧
      (GetWorld s.WorldLive (s.Objects self).WorldContextObject = false → hits = []) ∧
      accumulated self d s =
        { s with
          Objects := Function.update s.Objects self
            { s.Objects self with OutHits := (s.Objects self).OutHits ++ hits }
          Events := s.Events ++ evs } := by
  unfold accumulated
  by_cases hw : GetWorld s.WorldLive (s.Objects self).WorldContextObject = true
  · refine ⟨keptHits (s.Objects self).TraceType d.OutHits,
      callbackEffects (s.Objects self) d.OutHits, queriesOf_callbackEffects _ _,
      completedOf_callbackEffects _ _, fun _ => rfl, ?_, by rw [if_pos hw]⟩
    intro h
    rw [hw] at h
    cases h
  · refine ⟨[], [], rfl, rfl, fun h => absurd h hw, fun _ => rfl, ?_⟩
    rw [if_neg hw]
    simp

theorem step_dead_process (s : State) (op : Op) (h : s.Crashed = true) : step s op = s := by
  unfold step
  rw [if_pos h]

theorem step_alive (s : State) (op : Op) (h : s.Crashed = false) :
    step s op = perform s op := by
  unfold step
  rw [if_neg (by rw [h]; decide)]

theorem landedHits_live (self : Nat) (d : FTraceDatum) (s : State)
    (h : GetWorld s.WorldLive (s.Objects self).WorldContextObject = true) :
    landedHits self d s = keptHits (s.Objects self).TraceType d.OutHits := by
  unfold landedHits
  rw [if_pos h]

theorem landedHits_dead (self : Nat) (d : FTraceDatum) (s : State)
    (h : GetWorld s.WorldLive (s.Objects self).WorldContextObject = false) :
    landedHits self d s = [] := by
  unfold landedHits
  rw [if_neg (by rw [h]; decide)]

/-- The state `accumulated` with the hits it adds named by `landedHits`. -/
theorem accumulated_landed (self : Nat) (d : FTraceDatum) (s : State) :
    ∃ (evs : List Event), queriesOf evs = [] ∧ completedOf evs = [] ∧
      accumulated self d s =
        { s with
          Objects := Function.update s.Objects self
            { s.Objects self with OutHits := (s.Objects self).OutHits ++ landedHits self d s }
          Events := s.Events ++ evs } := by
  obtain ⟨hits, evs, hq, hc, h1, h2, hacc⟩ := accumulated_eq self d s
  refine ⟨evs, hq, hc, ?_⟩
  rw [hacc]
  by_cases hw : GetWorld s.WorldLive (s.Objects self).WorldContextObject = true
  · rw [landedHits_live _ _ _ hw, h1 hw]
  · have hw' : GetWorld s.WorldLive (s.Objects self).WorldContextObject = false := by
      simpa using hw
    rw [landedHits_dead _ _ _ hw', h2 hw']

/-! ## Cancellation -/

/-- What the loop of `CancelAllAsyncLineTraces` does over a list of registry entries. -/
theorem cancelAll_fold (l : List (Option Nat)) (s : State) :
    let s1 := l.foldl (fun (st : State) (asyncTrace : Option Nat) =>
      match asyncTrace with
      | some t => CancelAsyncLineTrace t st
      | none => st) s
    (∀ e, s1.Objects e =
      { s.Objects e with
        bCalledCancel := (s.Objects e).bCalledCancel || decide (some e ∈ l) }) ∧
    s1.ActiveAsyncLineTraces = s.ActiveAsyncLineTraces ∧ s1.InFlight = s.InFlight ∧
    s1.WorldLive = s.WorldLive ∧ s1.HasSubsystem = s.HasSubsystem ∧
    s1.NextHandle = s.NextHandle ∧
    ∃ n, s1.Events = s.Events ++
      List.replicate n (Event.Log ELogVerbosity.Warning EDiagnostic.Cancelled) := by
  induction l generalizing s with
  | nil =>
    refine ⟨fun e => ?_, rfl, rfl, rfl, rfl, rfl, 0, by simp⟩
    simp
  | cons p l ih =>
    simp only [List.foldl_cons]
    cases p with
    | none =>
      obtain ⟨h1, h2, h3, h4, h5, h6, h7⟩ := ih s
      refine ⟨?_, h2, h3, h4, h5, h6, h7⟩
      intro e
      rw [h1 e]
      simp
    | some t =>
      obtain ⟨h1, h2, h3, h4, h5, h6, n, h7⟩ := ih (CancelAsyncLineTrace t s)
      refine ⟨?_, ?_, ?_, ?_, ?_, ?_, n + 1, ?_⟩
      · intro e
        rw [h1 e, CancelAsyncLineTrace_eq]
        by_cases he : e = t
        · subst he
          simp
        · have he2 : ¬ t = e := fun h => he h.symm
          simp [he, he2]
      · rw [h2, CancelAsyncLineTrace_eq]
      · rw [h3, CancelAsyncLineTrace_eq]
      · rw [h4, CancelAsyncLineTrace_eq]
      · rw [h5, CancelAsyncLineTrace_eq]
      · rw [h6, CancelAsyncLineTrace_eq]
      · rw [h7, CancelAsyncLineTrace_eq]
        simp [List.replicate_succ]

theorem cancelAll_Crashed (l : List (Option Nat)) (s : State) :
    (l.foldl (fun (st : State) (asyncTrace : Option Nat) =>
      match asyncTrace with
      | some t => CancelAsyncLineTrace t st
      | none => st) s).Crashed = s.Crashed := by
  induction l generalizing s with
  | nil => rfl
  | cons p l ih =>
    simp only [List.foldl_cons]
    cases p with
    | none => exact ih s
    | some t =>
      rw [ih (CancelAsyncLineTrace t s), CancelAsyncLineTrace_eq]

/-- What `CancelAllAsyncLineTraces` changes: the cancellation flag of the registered
engines and the diagnostics logged. -/
theorem CancelAll_frame (s : State) :
    (∀ e, (CancelAllAsyncLineTraces s).Objects e =
      { s.Objects e with
        bCalledCancel := (s.Objects e).bCalledCancel ||
          decide (some e ∈ s.ActiveAsyncLineTraces) }) ∧
    (CancelAllAsyncLineTraces s).ActiveAsyncLineTraces = s.ActiveAsyncLineTraces ∧
    (CancelAllAsyncLineTraces s).InFlight = s.InFlight ∧
    (CancelAllAsyncLineTraces s).WorldLive = s.WorldLive ∧
    (CancelAllAsyncLineTraces s).HasSubsystem = s.HasSubsystem ∧
    (CancelAllAsyncLineTraces s).NextHandle = s.NextHandle ∧
    (CancelAllAsyncLineTraces s).Crashed = s.Crashed ∧
    ∃ n, (CancelAllAsyncLineTraces s).Events = s.Events ++
      List.replicate n (Event.Log ELogVerbosity.Warning EDiagnostic.Cancelled) := by
  obtain ⟨h1, h2, h3, h4, h5, h6, h7⟩ := cancelAll_fold s.ActiveAsyncLineTraces s
  exact ⟨h1, h2, h3, h4, h5, h6, cancelAll_Crashed s.ActiveAsyncLineTraces s, h7⟩

theorem queriesOf_replicate_log (n : Nat) (v : ELogVerbosity) (m : EDiagnostic) :
    queriesOf (List.replicate n (Event.Log v m)) = [] := by
  induction n with
  | zero => rfl
  | succ n ih =>
    rw [List.replicate_succ]
    exact ih

theorem completedOf_replicate_log (n : Nat) (v : ELogVerbosity) (m : EDiagnostic) :
    completedOf (List.replicate n (Event.Log v m)) = [] := by
  induction n with
  | zero => rfl
  | succ n ih =>
    rw [List.replicate_succ]
    exact ih

theorem queriesOf_diagnosis (o : UAsyncLineTrace) : queriesOf (diagnosis o) = [] := by
  unfold diagnosis
  split
  · split_ifs <;> rfl
  · rfl

theorem completedOf_diagnosis (o : UAsyncLineTrace) : completedOf (diagnosis o) = [] := by
  unfold diagnosis
  split
  · split_ifs <;> rfl
  · rfl

/-- The callback of a cancelled engine that does not reach a hit without actor in
`DebugPrintHitInfo`: the hits are kept as the trace kind says when the context still
resolves (and dropped when it does not), the trace exits, no query is issued. -/
theorem callback_cancelled (e : Nat) (d : FTraceDatum) (s : State)
    (hc : (s.Objects e).bCalledCancel = true)
    (hout : outstanding e s ≠ 0) (halive : s.Crashed = false)
    (hn : GetWorld s.WorldLive (s.Objects e).WorldContextObject = false ∨
      derefsNull (s.Objects e) d.OutHits = false) :
    ((DeliverCallback e d s).Objects e).bTraceInProgress = false ∧
    ((DeliverCallback e d s).Objects e).OutHits = (s.Objects e).OutHits ++ landedHits e d s ∧
    ((DeliverCallback e d s).Objects e).bCalledCancel = true ∧
    (∀ e1, e1 ≠ e → (DeliverCallback e d s).Objects e1 = s.Objects e1) ∧
    (DeliverCallback e d s).ActiveAsyncLineTraces =
      (if Get s (s.Objects e).WorldContextObject then
        s.ActiveAsyncLineTraces.filter (fun p => !decide (p = some e))
       else s.ActiveAsyncLineTraces) ∧
    outstanding e (DeliverCallback e d s) = outstanding e s - 1 ∧
    (∀ e1, e1 ≠ e → outstanding e1 (DeliverCallback e d s) = outstanding e1 s) ∧
    (DeliverCallback e d s).WorldLive = s.WorldLive ∧
    (DeliverCallback e d s).HasSubsystem = s.HasSubsystem ∧
    (DeliverCallback e d s).Crashed = false ∧
    ((DeliverCallback e d s).Objects e).InputData = (s.Objects e).InputData ∧
    ((DeliverCallback e d s).Objects e).TraceType = (s.Objects e).TraceType ∧
    ((DeliverCallback e d s).Objects e).WorldContextObject = (s.Objects e).WorldContextObject ∧
    ∃ new, (DeliverCallback e d s).Events = s.Events ++ new ∧ queriesOf new = [] ∧
      completedOf new = [(e, (s.Objects e).OutHits ++ landedHits e d s)] := by
  obtain ⟨evs, hqE, hcE, hacc⟩ := accumulated_landed e d (dequeued e s)
  have hL : landedHits e d (dequeued e s) = landedHits e d s := rfl
  rw [hL] at hacc
  rw [DeliverCallback_eq e d s hout halive hn, requested_cancelled _ _ (by
    rw [hacc]; simpa [dequeued, State.emit] using hc), hacc]
  refine ⟨?_, ?_, ?_, ?_, ?_, ?_, ?_, ?_, ?_, ?_, ?_, ?_, ?_, ?_⟩
  · simp [exited, bumped, dequeued, State.emit]
  · simp [exited, bumped, dequeued, State.emit]
  · simp [exited, bumped, dequeued, State.emit, hc]
  · intro e1 h1
    simp [exited, bumped, dequeued, State.emit, h1]
  · by_cases hg : Get s (s.Objects e).WorldContextObject = true
    · have hg2 := hg
      rw [Get_eq] at hg2
      simp [exited, Get_eq, bumped, dequeued, State.emit, hg, hg2]
    · have hg2 := hg
      rw [Get_eq] at hg2
      simp [exited, Get_eq, bumped, dequeued, State.emit, hg, hg2]
  · simp [outstanding, exited, bumped, dequeued, State.emit, removeFirstOwned_self]
  · intro e1 h1
    simp [outstanding, exited, bumped, dequeued, State.emit, removeFirstOwned_other _ _ _ h1]
  · simp [exited, bumped, dequeued, State.emit]
  · simp [exited, bumped, dequeued, State.emit]
  · simp [exited, bumped, dequeued, State.emit, halive]
  · simp [exited, bumped, dequeued, State.emit]
  · simp [exited, bumped, dequeued, State.emit]
  · simp [exited, bumped, dequeued, State.emit]
  · refine ⟨evs ++ [Event.Requested e,
      Event.Completed e ((s.Objects e).OutHits ++ landedHits e d s)], ?_, ?_, ?_⟩
    · simp [exited, bumped, dequeued, State.emit]
    · rw [queriesOf_append, hqE]
      simp [queriesOf]
    · rw [completedOf_append, hcE]
      simp [completedOf]

/-- Once cancellation was requested on `e`, no operation clears the flag, and the only
query `e` can still issue is the one of segment 0 at a new activation. -/
theorem step_cancelled (e : Nat) (op : Op) (s : State)
    (hc : (s.Objects e).bCalledCancel = true) :
    ((step s op).Objects e).bCalledCancel = true ∧
    ∃ new, (step s op).Events = s.Events ++ new ∧
      ∀ q ∈ queriesOf new, q.Owner = e → q.Segment = 0 := by
  by_cases hcr : s.Crashed = true
  · rw [step_dead_process s op hcr]
    exact ⟨hc, [], by simp, by simp [queriesOf]⟩
  rw [step_alive s op (by simpa using hcr)]
  cases op with
  | Activate x =>
    simp only [perform]
    rcases Activate_cases x s with ⟨-, hA⟩ | ⟨-, -, hA⟩ | ⟨-, -, hA⟩
    · rw [hA]
      obtain ⟨v, m, hr⟩ := rejection_is_log x s
      refine ⟨?_, [rejection x s, Event.Log ELogVerbosity.Error EDiagnostic.CantStart,
        Event.Exited x, Event.Completed x (s.Objects x).OutHits], by simp [exited, rejected], ?_⟩
      · by_cases hx : e = x
        · subst hx; simp [exited, rejected, hc]
        · simp [exited, rejected, hx, hc]
      · rw [hr]; simp [queriesOf]
    · rw [hA]
      refine ⟨?_, [Event.Activated x, Event.Completed x []], by simp [exited, accepted], ?_⟩
      · by_cases hx : e = x
        · subst hx; simp [exited, accepted, hc]
        · simp [exited, accepted, hx, hc]
      · simp [queriesOf]
    · rw [hA]
      refine ⟨?_, [Event.Activated x, Event.Query (queryOf x
        (RegisterAsyncLineTrace (some x) (accepted x s))
        ((RegisterAsyncLineTrace (some x) (accepted x s)).Objects x))], ?_, ?_⟩
      · by_cases hx : e = x
        · subst hx; simp [issued, RegisterAsyncLineTrace_Objects, accepted, hc]
        · simp [issued, RegisterAsyncLineTrace_Objects, accepted, hx, hc]
      · simp only [issued, RegisterAsyncLineTrace_Events]
        simp [accepted]
      · simp [queriesOf, queryOf, RegisterAsyncLineTrace_Objects, accepted]
  | Cancel x =>
    simp only [perform]
    rw [CancelAsyncLineTrace_eq]
    refine ⟨?_, [Event.Log ELogVerbosity.Warning EDiagnostic.Cancelled], rfl, by simp [queriesOf]⟩
    by_cases hx : e = x
    · subst hx; simp
    · simp [hx, hc]
  | Callback x d =>
    simp only [perform]
    rcases DeliverCallback_cases x d s with ⟨-, hD⟩ | ⟨-, -, -, hD⟩ | ⟨-, -, -, hD⟩
    · rw [hD]
      exact ⟨hc, [], by simp, by simp [queriesOf]⟩
    · obtain ⟨hits, evs, hq, -, hH⟩ := halted_eq x d (dequeued x s)
      rw [hD, hH]
      refine ⟨?_, evs, by simp [dequeued], by simp [hq]⟩
      by_cases hx : e = x
      · subst hx; simp [dequeued, hc]
      · simp [dequeued, hx, hc]
    · rw [hD]
      obtain ⟨hits, evs, hq, -, -, -, hacc⟩ := accumulated_eq x d (dequeued x s)
      rcases requested_cases x ((accumulated x d (dequeued x s)).emit (Event.Requested x))
        with ⟨hnc, -, hR⟩ | ⟨-, -, hR⟩ | hR
      · rw [hR]
        have hxe : e ≠ x := by
          rintro rfl
          rw [hacc] at hnc
          simp [dequeued, State.emit, hc] at hnc
        rw [hacc]
        refine ⟨by simp [issued, bumped, dequeued, State.emit, hxe, hc], evs ++ [Event.Requested x,
          Event.Query (queryOf x (bumped x ((accumulated x d (dequeued x s)).emit
            (Event.Requested x))) ((bumped x ((accumulated x d (dequeued x s)).emit
            (Event.Requested x))).Objects x))], ?_, ?_⟩
        · rw [hacc]
          simp [issued, bumped, dequeued, State.emit]
        · rw [queriesOf_append, hq]
          intro q hq1 hq2
          simp only [queriesOf, List.nil_append, List.filterMap_cons, List.filterMap_nil,
            List.mem_singleton] at hq1
          subst hq1
          exact absurd hq2.symm hxe
      · rw [hR, hacc]
        refine ⟨?_, evs ++ [Event.Requested x] ++
          diagnosis ((bumped x ((accumulated x d (dequeued x s)).emit
            (Event.Requested x))).Objects x) ++
          [Event.Completed x ((s.Objects x).OutHits ++ hits)], ?_, ?_⟩
        · by_cases hx : e = x
          · subst hx; simp [exited, diagnosed, bumped, dequeued, State.emit, hc]
          · simp [exited, diagnosed, bumped, dequeued, State.emit, hx, hc]
        · rw [hacc]
          simp [exited, diagnosed, bumped, dequeued, State.emit]
        · intro q hq1
          rw [queriesOf_append, queriesOf_append, queriesOf_append, hq, queriesOf_diagnosis] at hq1
          simp [queriesOf] at hq1
      · rw [hR, hacc]
        refine ⟨?_, evs ++ [Event.Requested x,
          Event.Completed x ((s.Objects x).OutHits ++ hits)], ?_, ?_⟩
        · by_cases hx : e = x
          · subst hx; simp [exited, bumped, dequeued, State.emit, hc]
          · simp [exited, bumped, dequeued, State.emit, hx, hc]
        · simp [exited, bumped, dequeued, State.emit]
        · simp [queriesOf_append, hq]
          simp [queriesOf]
  | GetCurrentHitsByID i =>
    exact ⟨hc, [], by simp [perform, GetCurrentHitsByID], by simp [queriesOf]⟩
  | CancelByID i =>
    simp only [perform]
    obtain ⟨h1, -, -, -, -, -, n, h7⟩ := cancelByID_fold i s.ActiveAsyncLineTraces s
    refine ⟨?_, _, h7, by simp [queriesOf_replicate_log]⟩
    unfold CancelAsyncLineTracesByID
    rw [h1 e]
    simp [hc]
  | CancelAll =>
    simp only [perform]
    obtain ⟨h1, -, -, -, -, -, n, h7⟩ := cancelAll_fold s.ActiveAsyncLineTraces s
    have h1e : (CancelAllAsyncLineTraces s).Objects e =
        { s.Objects e with
          bCalledCancel := (s.Objects e).bCalledCancel ||
            decide (some e ∈ s.ActiveAsyncLineTraces) } := h1 e
    refine ⟨?_, _, h7, by simp [queriesOf_replicate_log]⟩
    rw [h1e]
    simp [hc]
  | SceneLost c =>
    exact ⟨hc, [], by simp [perform, SceneLost], by simp [queriesOf]⟩

/-- The same over a sequence of operations. -/
theorem run_cancelled (e : Nat) (ops : List Op) :
    ∀ (s : State), (s.Objects e).bCalledCancel = true →
      ((run ops s).Objects e).bCalledCancel = true ∧
      ∃ new, (run ops s).Events = s.Events ++ new ∧
        ∀ q ∈ queriesOf new, q.Owner = e → q.Segment = 0 := by
  induction ops with
  | nil =>
    intro s hc
    exact ⟨hc, [], by simp [run], by simp [queriesOf]⟩
  | cons op ops ih =>
    intro s hc
    obtain ⟨hc1, new1, hE1, hQ1⟩ := step_cancelled e op s hc
    obtain ⟨hc2, new2, hE2, hQ2⟩ := ih (step s op) hc1
    have hrun : run (op :: ops) s = run ops (step s op) := rfl
    rw [hrun]
    refine ⟨hc2, new1 ++ new2, by rw [hE2, hE1, List.append_assoc], ?_⟩
    intro q hq ho
    rw [queriesOf_append, List.mem_append] at hq
    rcases hq with hq | hq
    · exact hQ1 q hq ho
    · exact hQ2 q hq ho

/-! ## C5 -/

/-- C5 (counterexample): the query of segment 0 of an all-hits engine is in flight,
`Cancel` is called, then the scene context stops resolving; when the callback delivers
one hit, the hit is not accumulated and the completion event carries no hit. -/
theorem cancelled_callback_dead_world_drops_hits :
    ¬ (exampleHit 1 ∈ ((DeliverCallback 0 ⟨[exampleHit 1]⟩
        (SceneLost 0 (CancelAsyncLineTrace 0 (Activate 0 (multiState 2))))).Objects 0).OutHits) ∧
    completedOf (eventsSince (Activate 0 (multiState 2))
      (DeliverCallback 0 ⟨[exampleHit 1]⟩
        (SceneLost 0 (CancelAsyncLineTrace 0 (Activate 0 (multiState 2)))))) = [(0, [])] := by
  decide

theorem DeliverCallback_step (e : Nat) (d : FTraceDatum) (s : State) :
    DeliverCallback e d s = step s (Op.Callback e d) := by
  by_cases hc : s.Crashed = true
  · rw [step_dead_process s _ hc, DeliverCallback_dead e d s hc]
  · rw [step_alive s _ (by simpa using hc)]
    rfl

/-- C5 (amended): the query of segment `i` of an engine is in flight and `Cancel` is
called before its callback.  Whatever operations follow the callback, no query for
segment `i + 1` of this engine is ever issued.  When the callback is delivered (in a
running process, and not reaching a hit without actor in `DebugPrintHitInfo`, a case that
is left open here), the trace terminates with one completion event, which carries the
accumulated list; and if the scene context of the engine still resolves to a live scene
at that moment, the hits of the result have been accumulated as the trace kind says (all
of them for the all-hits kind, the first one for the single-hit kind), so the completion
event carries them. -/
theorem cancel_before_callback (e i : Nat) (d : FTraceDatum) (s : State)
    (hfl : ∃ q ∈ s.InFlight, q.Owner = e ∧ q.Segment = i) :
    (∀ (ops : List Op) (q : FTraceQuery),
      q ∈ queriesOf (eventsSince s (run ops (DeliverCallback e d (CancelAsyncLineTrace e s)))) →
        q.target ≠ (e, (i : Int) + 1)) ∧
    (s.Crashed = false →
      (GetWorld s.WorldLive (s.Objects e).WorldContextObject = true →
        derefsNull (s.Objects e) d.OutHits = false) →
      ((DeliverCallback e d (CancelAsyncLineTrace e s)).Objects e).bTraceInProgress = false ∧
      completedOf (eventsSince s (DeliverCallback e d (CancelAsyncLineTrace e s))) =
        [(e, ((DeliverCallback e d (CancelAsyncLineTrace e s)).Objects e).OutHits)] ∧
      queriesOf (eventsSince s (DeliverCallback e d (CancelAsyncLineTrace e s))) = [] ∧
      (GetWorld s.WorldLive (s.Objects e).WorldContextObject = true →
        ((s.Objects e).TraceType = EAsyncTraceType.Multi →
          ((DeliverCallback e d (CancelAsyncLineTrace e s)).Objects e).OutHits =
            (s.Objects e).OutHits ++ specSegmentHits true d.OutHits) ∧
        ((s.Objects e).TraceType = EAsyncTraceType.Single →
          ((DeliverCallback e d (CancelAsyncLineTrace e s)).Objects e).OutHits =
            (s.Objects e).OutHits ++ specSegmentHits false d.OutHits))) := by
  have hC := CancelAsyncLineTrace_eq e s
  have hflag : ((CancelAsyncLineTrace e s).Objects e).bCalledCancel = true := by
    rw [hC]; simp
  constructor
  · intro ops q hq
    have hrun : run ops (DeliverCallback e d (CancelAsyncLineTrace e s)) =
        run (Op.Callback e d :: ops) (CancelAsyncLineTrace e s) := by
      rw [DeliverCallback_step]; rfl
    obtain ⟨-, new2, hE2, hQ2⟩ :=
      run_cancelled e (Op.Callback e d :: ops) (CancelAsyncLineTrace e s) hflag
    rw [hrun, eventsSince_append s _
      ([Event.Log ELogVerbosity.Warning EDiagnostic.Cancelled] ++ new2)
      (by rw [hE2, hC]; simp)] at hq
    rw [queriesOf_append] at hq
    simp only [queriesOf, List.filterMap_cons, List.filterMap_nil, List.nil_append] at hq
    intro htarget
    have ho : q.Owner = e := congrArg Prod.fst htarget
    have hs : q.Segment = (i : Int) + 1 := congrArg Prod.snd htarget
    have h0 := hQ2 q hq ho
    rw [h0] at hs
    omega
  · intro halive hn
    have hout : outstanding e (CancelAsyncLineTrace e s) ≠ 0 := by
      obtain ⟨q, hq, hqo, -⟩ := hfl
      rw [hC]
      simp only [outstanding]
      intro h0
      rw [List.length_eq_zero, List.filter_eq_nil_iff] at h0
      exact h0 q hq (by simpa using hqo)
    have hO1 : (CancelAsyncLineTrace e s).Objects e =
        { s.Objects e with bCalledCancel := true } := by
      rw [hC]; simp
    have hn1 : GetWorld (CancelAsyncLineTrace e s).WorldLive
          ((CancelAsyncLineTrace e s).Objects e).WorldContextObject = false ∨
        derefsNull ((CancelAsyncLineTrace e s).Objects e) d.OutHits = false := by
      by_cases hw : GetWorld s.WorldLive (s.Objects e).WorldContextObject = true
      · right
        have := hn hw
        rw [hO1]
        exact this
      · left
        rw [hO1]
        rw [hC]
        simpa using hw
    obtain ⟨hP, hO, -, -, -, -, -, -, -, -, -, -, -, new, hE, hQ, hCo⟩ :=
      callback_cancelled e d (CancelAsyncLineTrace e s) hflag hout
        (by rw [hC]; exact halive) hn1
    have hL : landedHits e d (CancelAsyncLineTrace e s) = landedHits e d s := by
      unfold landedHits
      rw [hO1, hC]
    have hO' : ((DeliverCallback e d (CancelAsyncLineTrace e s)).Objects e).OutHits =
        (s.Objects e).OutHits ++ landedHits e d s := by
      rw [hO, hL, hO1]
    have hE' : (DeliverCallback e d (CancelAsyncLineTrace e s)).Events =
        s.Events ++ ([Event.Log ELogVerbosity.Warning EDiagnostic.Cancelled] ++ new) := by
      rw [hE, hC]; simp
    refine ⟨hP, ?_, ?_, ?_⟩
    · rw [eventsSince_append s _ _ hE', completedOf_append, hCo, hO', hL, hO1]
      simp [completedOf]
    · rw [eventsSince_append s _ _ hE', queriesOf_append, hQ]
      simp [queriesOf]
    · intro hw
      rw [hO', landedHits_live _ _ _ hw]
      constructor
      · intro ht
        rw [ht, keptHits_Multi_spec]
      · intro ht
        rw [ht, keptHits_Single_spec]

/-- C5 (witness): the first of two segments is in flight when `Cancel` is called; the
callback delivers two hits, both are kept and carried by the completion event, the trace
has terminated and no query was issued. -/
theorem cancel_before_callback_witness :
    ((DeliverCallback 0 ⟨[exampleHit 1, exampleHit 2]⟩
        (CancelAsyncLineTrace 0 (Activate 0 (multiState 2)))).Objects 0).bTraceInProgress =
      false ∧
    completedOf (eventsSince (Activate 0 (multiState 2))
      (DeliverCallback 0 ⟨[exampleHit 1, exampleHit 2]⟩
        (CancelAsyncLineTrace 0 (Activate 0 (multiState 2))))) =
      [(0, ((DeliverCallback 0 ⟨[exampleHit 1, exampleHit 2]⟩
        (CancelAsyncLineTrace 0 (Activate 0 (multiState 2)))).Objects 0).OutHits)] ∧
    ((DeliverCallback 0 ⟨[exampleHit 1, exampleHit 2]⟩
        (CancelAsyncLineTrace 0 (Activate 0 (multiState 2)))).Objects 0).OutHits =
      ((Activate 0 (multiState 2)).Objects 0).OutHits ++
        specSegmentHits true [exampleHit 1, exampleHit 2] :=
  have h := (cancel_before_callback 0 0 ⟨[exampleHit 1, exampleHit 2]⟩
    (Activate 0 (multiState 2))
    ⟨⟨0, 0, 0, EAsyncTraceType.Multi, ⟨0, 0, 0⟩, ⟨10, 0, 0⟩, FTraceSelector.ByChannel 0, false,
      []⟩, by decide, rfl, rfl⟩).2 (by decide) (fun _ => by decide)
  ⟨h.1, h.2.1, (h.2.2.2 (by decide)).1 (by decide)⟩

/-! ## C9 -/

theorem deliverEach_cons (x : Nat × FTraceDatum) (ds : List (Nat × FTraceDatum)) (s : State) :
    deliverEach (x :: ds) s = deliverEach ds (DeliverCallback x.1 x.2 s) := rfl

/-- The callback of an engine on which cancellation was requested issues no query,
whatever its outcome, and clears no cancellation flag. -/
theorem callback_quiet (x : Nat) (d : FTraceDatum) (s : State)
    (hc : (s.Objects x).bCalledCancel = true) :
    (∀ e, (s.Objects e).bCalledCancel = true →
      ((DeliverCallback x d s).Objects e).bCalledCancel = true) ∧
    ∃ new, (DeliverCallback x d s).Events = s.Events ++ new ∧ queriesOf new = [] := by
  rcases DeliverCallback_cases x d s with ⟨-, hD⟩ | ⟨-, -, -, hD⟩ | ⟨-, -, -, hD⟩
  · rw [hD]
    exact ⟨fun e he => he, [], by simp, rfl⟩
  · obtain ⟨hits, evs, hq, -, hH⟩ := halted_eq x d (dequeued x s)
    rw [hD, hH]
    refine ⟨fun e he => ?_, evs, by simp [dequeued], hq⟩
    by_cases hx : e = x
    · subst hx; simp [dequeued, he]
    · simp [dequeued, hx, he]
  · obtain ⟨evs, hqE, -, hacc⟩ := accumulated_landed x d (dequeued x s)
    rw [hD, requested_cancelled _ _ (by
      rw [hacc]; simpa [dequeued, State.emit] using hc), hacc]
    refine ⟨fun e he => ?_, evs ++ [Event.Requested x,
      Event.Completed x ((s.Objects x).OutHits ++ landedHits x d (dequeued x s))], ?_, ?_⟩
    · by_cases hx : e = x
      · subst hx; simp [exited, bumped, dequeued, State.emit, he]
      · simp [exited, bumped, dequeued, State.emit, hx, he]
    · simp [exited, bumped, dequeued, State.emit]
    · rw [queriesOf_append, hqE]
      simp [queriesOf]

/-- Callbacks delivered to engines on which cancellation was requested issue no query. -/
theorem deliverEach_quiet (ds : List (Nat × FTraceDatum)) :
    ∀ (s : State), (∀ x ∈ ds, (s.Objects x.1).bCalledCancel = true) →
      ∃ new, (deliverEach ds s).Events = s.Events ++ new ∧ queriesOf new = [] := by
  induction ds with
  | nil =>
    intro s _
    exact ⟨[], by simp [deliverEach], rfl⟩
  | cons x ds ih =>
    intro s hall
    obtain ⟨hF, new1, hE1, hQ1⟩ := callback_quiet x.1 x.2 s (hall x (List.mem_cons_self _ _))
    obtain ⟨new2, hE2, hQ2⟩ := ih (DeliverCallback x.1 x.2 s)
      (fun y hy => hF y.1 (hall y (List.mem_cons_of_mem _ hy)))
    rw [deliverEach_cons]
    refine ⟨new1 ++ new2, by rw [hE2, hE1, List.append_assoc], ?_⟩
    rw [queriesOf_append, hQ1, hQ2]; rfl

/-- Callbacks delivered, one each and in any order, to cancelled engines, none reaching
a hit without actor in `DebugPrintHitInfo`: every one of them exits, those whose context
and registry still resolve leave the registry, none issues a query, and the other
engines are not touched. -/
theorem deliverEach_cancelled (ds : List (Nat × FTraceDatum)) :
    ∀ (s : State), (ds.map Prod.fst).Nodup → s.Crashed = false →
      (∀ x ∈ ds, (s.Objects x.1).bCalledCancel = true ∧
        (GetWorld s.WorldLive (s.Objects x.1).WorldContextObject = false ∨
          derefsNull (s.Objects x.1) x.2.OutHits = false) ∧
        outstanding x.1 s = 1) →
      (deliverEach ds s).ActiveAsyncLineTraces =
        s.ActiveAsyncLineTraces.filter (fun p => decide (p ∉
          (ds.filter (fun x => Get s (s.Objects x.1).WorldContextObject)).map
            (fun x => some x.1))) ∧
      (∀ e, e ∉ ds.map Prod.fst →
        (deliverEach ds s).Objects e = s.Objects e ∧
        outstanding e (deliverEach ds s) = outstanding e s) ∧
      (∀ e ∈ ds.map Prod.fst,
        ((deliverEach ds s).Objects e).bTraceInProgress = false ∧
        outstanding e (deliverEach ds s) = 0) ∧
      (deliverEach ds s).WorldLive = s.WorldLive ∧
      (deliverEach ds s).HasSubsystem = s.HasSubsystem ∧
      ∃ new, (deliverEach ds s).Events = s.Events ++ new ∧ queriesOf new = [] ∧
        (completedOf new).map Prod.fst = ds.map Prod.fst := by
  induction ds with
  | nil =>
    intro s _ _ _
    refine ⟨?_, fun e _ => ⟨rfl, rfl⟩, fun e he => by simp at he, rfl, rfl, [], by simp [deliverEach],
      rfl, rfl⟩
    simp [deliverEach]
  | cons x ds ih =>
    intro s hnd halive hall
    rw [List.map_cons, List.nodup_cons] at hnd
    obtain ⟨hx, hnd'⟩ := hnd
    obtain ⟨hxc, hxn, hxout⟩ := hall x (List.mem_cons_self _ _)
    obtain ⟨hP, -, -, hOth, hReg, hOut, hOutOth, hWL, hHS, hCr, -, -, -, new1, hE1, hQ1, hC1⟩ :=
      callback_cancelled x.1 x.2 s hxc (by rw [hxout]; decide) halive hxn
    have hne : ∀ y ∈ ds, y.1 ≠ x.1 := by
      intro y hy h
      exact hx (by rw [← h]; exact List.mem_map_of_mem Prod.fst hy)
    have hall' : ∀ y ∈ ds, ((DeliverCallback x.1 x.2 s).Objects y.1).bCalledCancel = true ∧
        (GetWorld (DeliverCallback x.1 x.2 s).WorldLive
            ((DeliverCallback x.1 x.2 s).Objects y.1).WorldContextObject = false ∨
          derefsNull ((DeliverCallback x.1 x.2 s).Objects y.1) y.2.OutHits = false) ∧
        outstanding y.1 (DeliverCallback x.1 x.2 s) = 1 := by
      intro y hy
      obtain ⟨h1, h2, h3⟩ := hall y (List.mem_cons_of_mem _ hy)
      rw [hOth y.1 (hne y hy), hWL, hOutOth y.1 (hne y hy)]
      exact ⟨h1, h2, h3⟩
    obtain ⟨iReg, iOth, iIn, iWL, iHS, new2, hE2, hQ2, hC2⟩ :=
      ih (DeliverCallback x.1 x.2 s) hnd' hCr hall'
    have hget : ∀ y ∈ ds, Get (DeliverCallback x.1 x.2 s)
          ((DeliverCallback x.1 x.2 s).Objects y.1).WorldContextObject =
        Get s (s.Objects y.1).WorldContextObject := by
      intro y hy
      rw [Get_eq, Get_eq, hOth y.1 (hne y hy), hWL, hHS]
    have hfil : ds.filter (fun y => Get (DeliverCallback x.1 x.2 s)
          ((DeliverCallback x.1 x.2 s).Objects y.1).WorldContextObject) =
        ds.filter (fun y => Get s (s.Objects y.1).WorldContextObject) :=
      List.filter_congr (fun y hy => hget y hy)
    rw [deliverEach_cons]
    refine ⟨?_, ?_, ?_, by rw [iWL, hWL], by rw [iHS, hHS], new1 ++ new2, ?_, ?_, ?_⟩
    · rw [iReg, hReg, hfil]
      by_cases hg : Get s (s.Objects x.1).WorldContextObject = true
      · rw [if_pos hg, List.filter_filter, List.filter_cons, if_pos hg]
        congr 1
        funext p
        by_cases hp : p = some x.1
        · simp [hp]
        · simp [hp]
      · rw [if_neg hg, List.filter_cons, if_neg hg]
    · intro e he
      rw [List.map_cons, List.mem_cons, not_or] at he
      obtain ⟨he1, he2⟩ := he
      obtain ⟨i1, i2⟩ := iOth e he2
      exact ⟨by rw [i1, hOth e he1], by rw [i2, hOutOth e he1]⟩
    · intro e he
      rw [List.map_cons, List.mem_cons] at he
      rcases he with he | he
      · subst he
        obtain ⟨i1, i2⟩ := iOth x.1 hx
        refine ⟨by rw [i1]; exact hP, ?_⟩
        rw [i2, hOut, hxout]
      · exact iIn e he
    · rw [hE2, hE1, List.append_assoc]
    · rw [queriesOf_append, hQ1, hQ2]; rfl
    · rw [completedOf_append, List.map_append, hC1, hC2]; rfl

/-- C9 (counterexample): three engines are active with one query each in flight;
`CancelAll` is called and the scene context stops resolving before the callbacks are
delivered; the three engines terminate but stay in the registry. -/
theorem CancelAll_dead_world_keeps_registry :
    ¬ (deliverEach [(0, ⟨[]⟩), (1, ⟨[]⟩), (2, ⟨[]⟩)]
        (SceneLost 0 (CancelAllAsyncLineTraces
          (Activate 2 (Activate 1 (Activate 0 (multiState 2))))))).ActiveAsyncLineTraces = [] := by
  decide

/-- C9 (amended): the registry holds the engines `es` (any number, each once), each with
one query in flight; `CancelAll` is called and then each engine's callback is delivered, in
any order `ds` and with any results.  No query is issued.  When the callbacks are
delivered (in a running process, none reaching a hit without actor in
`DebugPrintHitInfo`, a case that is left open here), every one of those engines is not
in progress and has no query outstanding, and its completion event has fired exactly
once; and if the scene context of every engine still resolves, together with the
registry, the registry is empty. -/
theorem CancelAll_terminates_all (es : List Nat) (ds : List (Nat × FTraceDatum)) (s : State)
    (hreg : s.ActiveAsyncLineTraces = es.map some) (hnd : es.Nodup)
    (hout : ∀ e ∈ es, outstanding e s = 1)
    (hds : (ds.map Prod.fst).Perm es) :
    queriesOf (eventsSince s (deliverEach ds (CancelAllAsyncLineTraces s))) = [] ∧
    (s.Crashed = false →
      (∀ x ∈ ds, GetWorld s.WorldLive (s.Objects x.1).WorldContextObject = true →
        derefsNull (s.Objects x.1) x.2.OutHits = false) →
      (∀ e ∈ es,
        ((deliverEach ds (CancelAllAsyncLineTraces s)).Objects e).bTraceInProgress = false ∧
        outstanding e (deliverEach ds (CancelAllAsyncLineTraces s)) = 0) ∧
      (completedOf (eventsSince s
        (deliverEach ds (CancelAllAsyncLineTraces s)))).map Prod.fst = ds.map Prod.fst ∧
      ((∀ e ∈ es, ∃ c, (s.Objects e).WorldContextObject = some c ∧ s.WorldLive c = true) →
        s.HasSubsystem = true →
        (deliverEach ds (CancelAllAsyncLineTraces s)).ActiveAsyncLineTraces = [])) := by
  obtain ⟨cO, cReg, cFl, cWL, cHS, -, n, cE⟩ := cancelAll_fold s.ActiveAsyncLineTraces s
  change (∀ e, (CancelAllAsyncLineTraces s).Objects e = _) at cO
  change (CancelAllAsyncLineTraces s).ActiveAsyncLineTraces = _ at cReg
  change (CancelAllAsyncLineTraces s).InFlight = _ at cFl
  change (CancelAllAsyncLineTraces s).WorldLive = _ at cWL
  change (CancelAllAsyncLineTraces s).HasSubsystem = _ at cHS
  change (CancelAllAsyncLineTraces s).Events = _ at cE
  have cCr : (CancelAllAsyncLineTraces s).Crashed = s.Crashed :=
    cancelAll_Crashed s.ActiveAsyncLineTraces s
  have hmem : ∀ x ∈ ds, x.1 ∈ es := fun x hx =>
    hds.subset (List.mem_map_of_mem Prod.fst hx)
  have hflag : ∀ x ∈ ds, ((CancelAllAsyncLineTraces s).Objects x.1).bCalledCancel = true := by
    intro x hx
    rw [cO x.1, hreg]
    simp [hmem x hx]
  constructor
  · obtain ⟨new, hE, hQ⟩ := deliverEach_quiet ds (CancelAllAsyncLineTraces s) hflag
    rw [eventsSince_append s _
      (List.replicate n (Event.Log ELogVerbosity.Warning EDiagnostic.Cancelled) ++ new)
      (by rw [hE, cE, List.append_assoc]), queriesOf_append, queriesOf_replicate_log, hQ]
    rfl
  intro halive hn
  have hall : ∀ x ∈ ds, ((CancelAllAsyncLineTraces s).Objects x.1).bCalledCancel = true ∧
      (GetWorld (CancelAllAsyncLineTraces s).WorldLive
          ((CancelAllAsyncLineTraces s).Objects x.1).WorldContextObject = false ∨
        derefsNull ((CancelAllAsyncLineTraces s).Objects x.1) x.2.OutHits = false) ∧
      outstanding x.1 (CancelAllAsyncLineTraces s) = 1 := by
    intro x hx
    have hxe := hmem x hx
    refine ⟨hflag x hx, ?_, ?_⟩
    · rw [cO x.1, cWL]
      by_cases hw : GetWorld s.WorldLive (s.Objects x.1).WorldContextObject = true
      · right
        exact hn x hx hw
      · left
        simpa using hw
    · have := hout x.1 hxe
      simp only [outstanding] at this ⊢
      rw [cFl]; exact this
  obtain ⟨iReg, -, iIn, -, -, new, hE, hQ, hC⟩ :=
    deliverEach_cancelled ds (CancelAllAsyncLineTraces s) (hds.nodup_iff.mpr hnd)
      (by rw [cCr]; exact halive) hall
  have hE' : (deliverEach ds (CancelAllAsyncLineTraces s)).Events = s.Events ++
      (List.replicate n (Event.Log ELogVerbosity.Warning EDiagnostic.Cancelled) ++ new) := by
    rw [hE, cE, List.append_assoc]
  refine ⟨?_, ?_, ?_⟩
  · intro e he
    exact iIn e (hds.symm.subset he)
  · rw [eventsSince_append s _ _ hE', completedOf_append, completedOf_replicate_log,
      List.nil_append, hC]
  · intro hlive hsub
    rw [iReg, cReg, hreg, List.filter_eq_nil_iff]
    intro p hp
    rw [List.mem_map] at hp
    obtain ⟨e, he, rfl⟩ := hp
    have : e ∈ ds.map Prod.fst := hds.symm.subset he
    rw [List.mem_map] at this
    obtain ⟨x, hx, rfl⟩ := this
    simp only [decide_not, Bool.not_eq_true', decide_eq_false_iff_not, not_not]
    refine List.mem_map_of_mem (fun x => some x.1) (List.mem_filter.mpr ⟨hx, ?_⟩)
    obtain ⟨c, h1, h2⟩ := hlive x.1 he
    rw [Get_eq, cO x.1, cWL, cHS]
    simp [h1, GetWorld, h2, hsub]

/-- C9 (witness): three active engines with two segments each; after `CancelAll` and
their three callbacks (delivered in the order 2, 0, 1) no second segment was issued,
the three engines have terminated and the registry is empty. -/
theorem CancelAll_terminates_all_witness :
    queriesOf (eventsSince (Activate 2 (Activate 1 (Activate 0 (multiState 2))))
      (deliverEach [(2, ⟨[exampleHit 1]⟩), (0, ⟨[]⟩), (1, ⟨[exampleHit 2]⟩)]
        (CancelAllAsyncLineTraces (Activate 2 (Activate 1 (Activate 0 (multiState 2))))))) = [] ∧
    (∀ e ∈ [0, 1, 2],
      ((deliverEach [(2, ⟨[exampleHit 1]⟩), (0, ⟨[]⟩), (1, ⟨[exampleHit 2]⟩)]
        (CancelAllAsyncLineTraces
          (Activate 2 (Activate 1 (Activate 0 (multiState 2)))))).Objects e).bTraceInProgress =
        false ∧
      outstanding e (deliverEach [(2, ⟨[exampleHit 1]⟩), (0, ⟨[]⟩), (1, ⟨[exampleHit 2]⟩)]
        (CancelAllAsyncLineTraces
          (Activate 2 (Activate 1 (Activate 0 (multiState 2)))))) = 0) ∧
    (deliverEach [(2, ⟨[exampleHit 1]⟩), (0, ⟨[]⟩), (1, ⟨[exampleHit 2]⟩)]
      (CancelAllAsyncLineTraces
        (Activate 2 (Activate 1 (Activate 0 (multiState 2)))))).ActiveAsyncLineTraces = [] :=
  have hlive : ∀ e ∈ [0, 1, 2], ∃ c,
      ((Activate 2 (Activate 1 (Activate 0 (multiState 2)))).Objects e).WorldContextObject =
        some c ∧ (Activate 2 (Activate 1 (Activate 0 (multiState 2)))).WorldLive c = true := by
    intro e he
    simp only [List.mem_cons, List.mem_singleton, List.not_mem_nil, or_false] at he
    rcases he with rfl | rfl | rfl <;> exact ⟨0, by decide, by decide⟩
  have hout : ∀ e ∈ [0, 1, 2],
      outstanding e (Activate 2 (Activate 1 (Activate 0 (multiState 2)))) = 1 := by
    intro e he
    simp only [List.mem_cons, List.mem_singleton, List.not_mem_nil, or_false] at he
    rcases he with rfl | rfl | rfl <;> decide
  have hn : ∀ x ∈ [((2 : Nat), (⟨[exampleHit 1]⟩ : FTraceDatum)), (0, ⟨[]⟩),
      (1, ⟨[exampleHit 2]⟩)],
      GetWorld (Activate 2 (Activate 1 (Activate 0 (multiState 2)))).WorldLive
        ((Activate 2 (Activate 1 (Activate 0 (multiState 2)))).Objects x.1).WorldContextObject
          = true →
      derefsNull ((Activate 2 (Activate 1 (Activate 0 (multiState 2)))).Objects x.1)
        x.2.OutHits = false := by
    intro x hx _
    simp only [List.mem_cons, List.mem_singleton, List.not_mem_nil, or_false] at hx
    rcases hx with rfl | rfl | rfl <;> decide
  have h := CancelAll_terminates_all [0, 1, 2]
    [(2, ⟨[exampleHit 1]⟩), (0, ⟨[]⟩), (1, ⟨[exampleHit 2]⟩)]
    (Activate 2 (Activate 1 (Activate 0 (multiState 2)))) (by decide) (by decide) hout
    (by decide)
  ⟨h.1, (h.2 (by decide) hn).1, (h.2 (by decide) hn).2.2 hlive (by decide)⟩

/-! ## Registry membership while no scene context is lost -/

/-- An `Exit...` call keeps the invariant when it starts from a state that differs from
an invariant state only in fields of the exiting engine other than its context. -/
theorem RegistryInvariant_exited (x : Nat) (b s : State) (hI : RegistryInvariant s)
    (hWL : b.WorldLive = s.WorldLive) (hHS : b.HasSubsystem = s.HasSubsystem)
    (hReg : b.ActiveAsyncLineTraces = s.ActiveAsyncLineTraces)
    (hOth : ∀ e, e ≠ x → b.Objects e = s.Objects e)
    (hx : (s.Objects x).bTraceInProgress = true →
      (b.Objects x).WorldContextObject = (s.Objects x).WorldContextObject) :
    RegistryInvariant (exited x b) := by
  intro e
  by_cases he : e = x
  · subst he
    have hnot : some e ∉ (exited e b).ActiveAsyncLineTraces := by
      simp only [exited]
      split_ifs with hg
      · simp [List.mem_filter]
      · intro hmem
        rw [hReg] at hmem
        have hp := (hI e).1.mp hmem
        obtain ⟨-, hw, hs⟩ := (hI e).2 hp
        apply hg
        rw [Get_eq, hx hp, hWL, hHS, hw, hs]
        rfl
    constructor
    · constructor
      · intro h; exact absurd h hnot
      · intro h; simp [exited] at h
    · intro h; simp [exited] at h
  · have hobj : (exited x b).Objects e = s.Objects e := by
      simp [exited, he, hOth e he]
    have hmem : some e ∈ (exited x b).ActiveAsyncLineTraces ↔ some e ∈ s.ActiveAsyncLineTraces := by
      simp only [exited]
      split_ifs
      · rw [hReg]; simp [List.mem_filter, he]
      · rw [hReg]
    rw [hobj, hmem]
    have hwl : (exited x b).WorldLive = s.WorldLive := by simp [exited, hWL]
    have hhs : (exited x b).HasSubsystem = s.HasSubsystem := by simp [exited, hHS]
    rw [hwl, hhs]
    exact hI e

/-- A state that agrees with an invariant state on registry, world and, for every
engine, on in-progress flag and context objects, satisfies the invariant. -/
theorem RegistryInvariant_congr (b s : State) (hI : RegistryInvariant s)
    (hWL : b.WorldLive = s.WorldLive) (hHS : b.HasSubsystem = s.HasSubsystem)
    (hReg : b.ActiveAsyncLineTraces = s.ActiveAsyncLineTraces)
    (hP : ∀ e, (b.Objects e).bTraceInProgress = (s.Objects e).bTraceInProgress)
    (hW : ∀ e, (b.Objects e).WorldContextObject = (s.Objects e).WorldContextObject)
    (hD : ∀ e, (b.Objects e).InputData = (s.Objects e).InputData) :
    RegistryInvariant b := by
  intro e
  rw [hReg, hP e, hW e, hD e, hWL, hHS]
  exact hI e

theorem issued_frame (x : Nat) (b : State) :
    (issued x b).WorldLive = b.WorldLive ∧ (issued x b).HasSubsystem = b.HasSubsystem ∧
    (issued x b).ActiveAsyncLineTraces = b.ActiveAsyncLineTraces ∧
    (∀ e, ((issued x b).Objects e).bTraceInProgress = (b.Objects e).bTraceInProgress) ∧
    (∀ e, ((issued x b).Objects e).WorldContextObject = (b.Objects e).WorldContextObject) ∧
    (∀ e, ((issued x b).Objects e).InputData = (b.Objects e).InputData) := by
  refine ⟨rfl, rfl, rfl, ?_, ?_, ?_⟩ <;> intro e <;> by_cases he : e = x
  · subst he; simp [issued]
  · simp [issued, he]
  · subst he; simp [issued]
  · simp [issued, he]
  · subst he; simp [issued]
  · simp [issued, he]

/-- Every operation other than the loss of a scene context keeps the invariant. -/
theorem step_RegistryInvariant (op : Op) (s : State) (hI : RegistryInvariant s)
    (hop : op.isSceneLost = false) : RegistryInvariant (step s op) := by
  by_cases hcr : s.Crashed = true
  · rw [step_dead_process s op hcr]
    exact hI
  rw [step_alive s op (by simpa using hcr)]
  cases op with
  | Activate x =>
    simp only [perform]
    rcases Activate_cases x s with ⟨-, hA⟩ | ⟨ha, hs, hA⟩ | ⟨ha, hs, hA⟩
    · rw [hA]
      refine RegistryInvariant_exited x (rejected x s) s hI rfl rfl rfl ?_ ?_
      · intro e he; simp [rejected, he]
      · intro hp
        simp only [rejected, Function.update_same]
        exact ((hI x).2 hp).1.symm
    · rw [hA]
      refine RegistryInvariant_exited x (accepted x s) s hI rfl rfl rfl ?_ ?_
      · intro e he; simp [accepted, he]
      · intro hp
        simp [activatable, hp] at ha
    · rw [hA]
      simp only [activatable, Bool.and_eq_true, Bool.not_eq_true', decide_eq_true_eq] at ha
      obtain ⟨⟨⟨-, hworld⟩, -⟩, hnp⟩ := ha
      have hnm : some x ∉ s.ActiveAsyncLineTraces := by
        intro hm
        have := (hI x).1.mp hm
        rw [hnp] at this
        cases this
      obtain ⟨f1, f2, f3, f4, f5, f6⟩ :=
        issued_frame x (RegisterAsyncLineTrace (some x) (accepted x s))
      intro e
      rw [f1, f2, f3, f4 e, f5 e, f6 e, RegisterAsyncLineTrace_WorldLive,
        RegisterAsyncLineTrace_HasSubsystem, RegisterAsyncLineTrace_Objects]
      have hreg : (RegisterAsyncLineTrace (some x) (accepted x s)).ActiveAsyncLineTraces =
          s.ActiveAsyncLineTraces ++ [some x] := by
        simp [RegisterAsyncLineTrace, accepted, hnm]
      rw [hreg]
      by_cases he : e = x
      · subst he
        simp [accepted, hworld, hs]
      · have := hI e
        simp only [accepted, Function.update_noteq he]
        simpa [he] using this
  | Cancel x =>
    simp only [perform]
    rw [CancelAsyncLineTrace_eq]
    refine RegistryInvariant_congr _ s hI rfl rfl rfl ?_ ?_ ?_ <;> intro e <;>
      by_cases he : e = x
    · subst he; simp
    · simp [he]
    · subst he; simp
    · simp [he]
    · subst he; simp
    · simp [he]
  | Callback x d =>
    simp only [perform]
    rcases DeliverCallback_cases x d s with ⟨-, hD⟩ | ⟨-, -, -, hD⟩ | ⟨-, -, -, hD⟩
    · rw [hD]; exact hI
    · obtain ⟨hits, evs, -, -, hH⟩ := halted_eq x d (dequeued x s)
      rw [hD, hH]
      refine RegistryInvariant_congr _ s hI rfl rfl rfl ?_ ?_ ?_ <;> intro e <;>
        by_cases he : e = x
      · subst he; simp [dequeued]
      · simp [dequeued, he]
      · subst he; simp [dequeued]
      · simp [dequeued, he]
      · subst he; simp [dequeued]
      · simp [dequeued, he]
    · rw [hD]
      obtain ⟨hits, evs, -, -, -, -, hacc⟩ := accumulated_eq x d (dequeued x s)
      rcases requested_cases x ((accumulated x d (dequeued x s)).emit (Event.Requested x))
        with ⟨-, -, hR⟩ | ⟨-, hw, hR⟩ | hR
      · rw [hR]
        obtain ⟨f1, f2, f3, f4, f5, f6⟩ :=
          issued_frame x (bumped x ((accumulated x d (dequeued x s)).emit (Event.Requested x)))
        refine RegistryInvariant_congr _ s hI ?_ ?_ ?_ ?_ ?_ ?_
        · rw [f1, hacc]; rfl
        · rw [f2, hacc]; rfl
        · rw [f3, hacc]; rfl
        · intro e
          rw [f4 e, hacc]
          by_cases he : e = x
          · subst he; simp [bumped, State.emit, dequeued]
          · simp [bumped, State.emit, dequeued, he]
        · intro e
          rw [f5 e, hacc]
          by_cases he : e = x
          · subst he; simp [bumped, State.emit, dequeued]
          · simp [bumped, State.emit, dequeued, he]
        · intro e
          rw [f6 e, hacc]
          by_cases he : e = x
          · subst he; simp [bumped, State.emit, dequeued]
          · simp [bumped, State.emit, dequeued, he]
      · rw [hR]
        refine RegistryInvariant_exited x _ s hI ?_ ?_ ?_ ?_ ?_
        · rw [hacc]; rfl
        · rw [hacc]; rfl
        · rw [hacc]; rfl
        · intro e he
          rw [hacc]
          simp [diagnosed, bumped, State.emit, dequeued, he]
        · intro _
          rw [hacc]
          simp [diagnosed, bumped, State.emit, dequeued]
      · rw [hR]
        refine RegistryInvariant_exited x _ s hI ?_ ?_ ?_ ?_ ?_
        · rw [hacc]; rfl
        · rw [hacc]; rfl
        · rw [hacc]; rfl
        · intro e he
          rw [hacc]
          simp [bumped, State.emit, dequeued, he]
        · intro _
          rw [hacc]
          simp [bumped, State.emit, dequeued]
  | GetCurrentHitsByID i =>
    exact hI
  | CancelByID i =>
    simp only [perform]
    obtain ⟨h1, h2, -, h4, h5, -, -⟩ := cancelByID_fold i s.ActiveAsyncLineTraces s
    refine RegistryInvariant_congr _ s hI h4 h5 h2 ?_ ?_ ?_ <;> intro e
    · unfold CancelAsyncLineTracesByID; rw [h1 e]
    · unfold CancelAsyncLineTracesByID; rw [h1 e]
    · unfold CancelAsyncLineTracesByID; rw [h1 e]
  | CancelAll =>
    simp only [perform]
    obtain ⟨h1, h2, -, h4, h5, -, -, -⟩ := CancelAll_frame s
    refine RegistryInvariant_congr _ s hI h4 h5 h2 ?_ ?_ ?_ <;> intro e
    · rw [h1 e]
    · rw [h1 e]
    · rw [h1 e]
  | SceneLost c =>
    simp [Op.isSceneLost] at hop

theorem Fresh_not_in_progress (o : UAsyncLineTrace) (h : Fresh o) :
    o.bTraceInProgress = false := by
  obtain ⟨t, d, ⟨ch, rfl⟩ | ⟨pr, rfl⟩ | ⟨ot, rfl⟩⟩ := h <;> rfl

theorem Initial_RegistryInvariant (s : State) (h : Initial s) : RegistryInvariant s := by
  obtain ⟨hF, hR, -⟩ := h
  intro e
  rw [hR, Fresh_not_in_progress _ (hF e)]
  simp

theorem run_RegistryInvariant (ops : List Op) :
    ∀ (s : State), RegistryInvariant s → (∀ op ∈ ops, op.isSceneLost = false) →
      RegistryInvariant (run ops s) := by
  induction ops with
  | nil => intro s hI _; exact hI
  | cons op ops ih =>
    intro s hI hops
    have hrun : run (op :: ops) s = run ops (step s op) := rfl
    rw [hrun]
    exact ih _ (step_RegistryInvariant op s hI (hops op (List.mem_cons_self _ _)))
      (fun o ho => hops o (List.mem_cons_of_mem _ ho))

/-! ## C11 -/

theorem requested_Objects_ne (self e : Nat) (s : State) (hne : e ≠ self) :
    (requested self s).Objects e = s.Objects e := by
  unfold requested
  split_ifs with h
  · unfold processed
    split_ifs with hw
    · simp [issued, bumped, hne]
    · simp [exited, diagnosed, bumped, hne]
  · simp [exited, bumped, hne]

/-- What an `Activate` of another object leaves alone. -/
theorem Activate_Objects_ne (x e : Nat) (s : State) (hne : e ≠ x) :
    (Activate x s).Objects e = s.Objects e := by
  rcases Activate_cases x s with ⟨-, hA⟩ | ⟨-, -, hA⟩ | ⟨-, -, hA⟩ <;> rw [hA]
  · simp [exited, rejected, hne]
  · simp [exited, accepted, hne]
  · simp [issued, RegisterAsyncLineTrace_Objects, accepted, hne]

/-- What a callback of another object leaves alone. -/
theorem DeliverCallback_Objects_ne (x e : Nat) (d : FTraceDatum) (s : State) (hne : e ≠ x) :
    (DeliverCallback x d s).Objects e = s.Objects e := by
  rcases DeliverCallback_cases x d s with ⟨-, hD⟩ | ⟨-, -, -, hD⟩ | ⟨-, -, -, hD⟩ <;> rw [hD]
  · simp [halted, dequeued, hne]
  · rw [requested_Objects_ne x e _ hne]
    obtain ⟨hits, evs, -, -, -, -, hacc⟩ := accumulated_eq x d (dequeued x s)
    rw [hacc]
    simp [State.emit, dequeued, hne]

/-- A callback appends to the accumulated hits of its engine. -/
theorem DeliverCallback_OutHits (x : Nat) (d : FTraceDatum) (s : State) :
    (s.Objects x).OutHits <+: ((DeliverCallback x d s).Objects x).OutHits := by
  rcases DeliverCallback_cases x d s with ⟨-, hD⟩ | ⟨-, -, -, hD⟩ | ⟨-, -, -, hD⟩
  · rw [hD]
  · rw [hD]
    simp [halted, dequeued]
  · rw [hD, requested_OutHits]
    obtain ⟨hits, evs, -, -, -, -, hacc⟩ := accumulated_eq x d (dequeued x s)
    rw [hacc]
    simp [State.emit, dequeued]

/-- Every operation other than an accepted `Activate` of the engine keeps the accumulated
hits of the engine as a prefix of the new list. -/
theorem step_OutHits_grow (op : Op) (s : State) (e : Nat)
    (h : op = Op.Activate e → activatable e s = false) :
    (s.Objects e).OutHits <+: ((step s op).Objects e).OutHits := by
  by_cases hcr : s.Crashed = true
  · rw [step_dead_process s op hcr]
  rw [step_alive s op (by simpa using hcr)]
  cases op with
  | Activate x =>
    simp only [perform]
    by_cases hx : e = x
    · subst hx
      have hna := h rfl
      rcases Activate_cases e s with ⟨-, hA⟩ | ⟨ha, -, -⟩ | ⟨ha, -, -⟩
      · rw [hA]
        simp [exited, rejected]
      · rw [hna] at ha; cases ha
      · rw [hna] at ha; cases ha
    · rw [Activate_Objects_ne x e s hx]
  | Cancel x =>
    simp only [perform]
    rw [CancelAsyncLineTrace_eq]
    by_cases hx : e = x
    · subst hx; simp
    · simp [hx]
  | Callback x d =>
    simp only [perform]
    by_cases hx : e = x
    · subst hx; exact DeliverCallback_OutHits e d s
    · rw [DeliverCallback_Objects_ne x e d s hx]
  | GetCurrentHitsByID i => exact List.prefix_refl _
  | CancelByID i =>
    simp only [perform]
    obtain ⟨h1, -⟩ := cancelByID_fold i s.ActiveAsyncLineTraces s
    unfold CancelAsyncLineTracesByID
    rw [h1 e]
  | CancelAll =>
    simp only [perform]
    obtain ⟨h1, -⟩ := CancelAll_frame s
    rw [h1 e]
  | SceneLost c => exact List.prefix_refl _

theorem activatable_in_progress (e : Nat) (s : State)
    (h : (s.Objects e).bTraceInProgress = true) : activatable e s = false := by
  simp [activatable, h]

/-- C11: while a trace is alive (its engine is in progress), every operation (a
completion callback with any result, which also advances to the next segment or
terminates the trace; `Cancel`; an `Activate`, which is then rejected; any registry
operation; the loss of a scene context; on this or on any other engine) leaves the
accumulated hit list of the engine as a prefix of the new accumulated hit list; the
registry's own `Register` and `Unregister` leave it as it is. -/
theorem hits_only_appended (op : Op) (s : State) (e : Nat)
    (h : (s.Objects e).bTraceInProgress = true) :
    (s.Objects e).OutHits <+: ((step s op).Objects e).OutHits ∧
    ∀ p, ((RegisterAsyncLineTrace p s).Objects e).OutHits = (s.Objects e).OutHits ∧
      ((UnregisterAsyncLineTrace p s).Objects e).OutHits = (s.Objects e).OutHits := by
  refine ⟨step_OutHits_grow op s e (fun _ => activatable_in_progress e s h), fun p => ⟨?_, ?_⟩⟩
  · rw [RegisterAsyncLineTrace_Objects]
  · unfold UnregisterAsyncLineTrace
    split <;> rfl

/-- C11 (witness): the callback of a running all-hits engine that held one hit. -/
theorem hits_only_appended_witness :
    ((DeliverCallback 0 ⟨[exampleHit 1]⟩ (Activate 0 (multiState 3))).Objects 0).OutHits <+:
      ((step (DeliverCallback 0 ⟨[exampleHit 1]⟩ (Activate 0 (multiState 3)))
        (Op.Callback 0 ⟨[exampleHit 2, exampleHit 3]⟩)).Objects 0).OutHits :=
  (hits_only_appended (Op.Callback 0 ⟨[exampleHit 2, exampleHit 3]⟩)
    (DeliverCallback 0 ⟨[exampleHit 1]⟩ (Activate 0 (multiState 3))) 0 (by decide)).1

/-! ## C12 -/

theorem segmentAt_eq (xs : List FTraceStartStopVectors) (i : Nat) (seg : FTraceStartStopVectors)
    (h : xs[i]? = some seg) : segmentAt xs (i : Int) = seg := by
  unfold segmentAt
  simp [List.getD, h]

theorem SetCurrentTraceStartEnd_frame (self : Nat) (s : State) :
    ((SetCurrentTraceStartEnd self s).Objects self).CurrentTraceIndex =
      (s.Objects self).CurrentTraceIndex ∧
    (SetCurrentTraceStartEnd self s).Events = s.Events := by
  unfold SetCurrentTraceStartEnd
  simp only []
  split <;> simp [State.setObject]

theorem ProcessLineTraceChannel_live_Events (self : Nat) (s : State)
    (hw : GetWorld s.WorldLive (s.Objects self).WorldContextObject = true) :
    (ProcessLineTraceChannel self s).Events = s.Events ++
      [Event.Query ⟨self, (SetCurrentTraceStartEnd self s).NextHandle,
        (s.Objects self).CurrentTraceIndex,
        ((SetCurrentTraceStartEnd self s).Objects self).TraceType,
        ((SetCurrentTraceStartEnd self s).Objects self).CurrentTraceStart,
        ((SetCurrentTraceStartEnd self s).Objects self).CurrentTraceEnd,
        FTraceSelector.ByChannel ((SetCurrentTraceStartEnd self s).Objects self).CollisionChannel,
        ((SetCurrentTraceStartEnd self s).Objects self).InputData.bTraceComplex,
        ((SetCurrentTraceStartEnd self s).Objects self).InputData.ActorsToIgnore⟩] := by
  have hsome : (s.Objects self).WorldContextObject.isNone = false := by
    cases h : (s.Objects self).WorldContextObject with
    | none => rw [h] at hw; cases hw
    | some c => rfl
  obtain ⟨hidx, hev⟩ := SetCurrentTraceStartEnd_frame self s
  simp [ProcessLineTraceChannel, hsome, hw, AsyncLineTraceByChannel, issueQuery,
    State.setObject, hidx, hev]

theorem ProcessLineTraceProfile_live_Events (self : Nat) (s : State)
    (hw : GetWorld s.WorldLive (s.Objects self).WorldContextObject = true) :
    (ProcessLineTraceProfile self s).Events = s.Events ++
      [Event.Query ⟨self, (SetCurrentTraceStartEnd self s).NextHandle,
        (s.Objects self).CurrentTraceIndex,
        ((SetCurrentTraceStartEnd self s).Objects self).TraceType,
        ((SetCurrentTraceStartEnd self s).Objects self).CurrentTraceStart,
        ((SetCurrentTraceStartEnd self s).Objects self).CurrentTraceEnd,
        FTraceSelector.ByProfile ((SetCurrentTraceStartEnd self s).Objects self).CollisionProfile,
        ((SetCurrentTraceStartEnd self s).Objects self).InputData.bTraceComplex,
        ((SetCurrentTraceStartEnd self s).Objects self).InputData.ActorsToIgnore⟩] := by
  have hsome : (s.Objects self).WorldContextObject.isNone = false := by
    cases h : (s.Objects self).WorldContextObject with
    | none => rw [h] at hw; cases hw
    | some c => rfl
  obtain ⟨hidx, hev⟩ := SetCurrentTraceStartEnd_frame self s
  simp [ProcessLineTraceProfile, hsome, hw, AsyncLineTraceByProfile, issueQuery,
    State.setObject, hidx, hev]

theorem ProcessLineTraceObjects_live_Events (self : Nat) (s : State)
    (hw : GetWorld s.WorldLive (s.Objects self).WorldContextObject = true) :
    (ProcessLineTraceObjects self s).Events = s.Events ++
      [Event.Query ⟨self, (SetCurrentTraceStartEnd self s).NextHandle,
        (s.Objects self).CurrentTraceIndex,
        ((SetCurrentTraceStartEnd self s).Objects self).TraceType,
        ((SetCurrentTraceStartEnd self s).Objects self).CurrentTraceStart,
        ((SetCurrentTraceStartEnd self s).Objects self).CurrentTraceEnd,
        FTraceSelector.ByObjectType
          ((s.Objects self).ObjectTypes.map s.ConvertToCollisionChannel),
        ((SetCurrentTraceStartEnd self s).Objects self).InputData.bTraceComplex,
        ((SetCurrentTraceStartEnd self s).Objects self).InputData.ActorsToIgnore⟩] := by
  have hsome : (s.Objects self).WorldContextObject.isNone = false := by
    cases h : (s.Objects self).WorldContextObject with
    | none => rw [h] at hw; cases hw
    | some c => rfl
  obtain ⟨hidx, hev⟩ := SetCurrentTraceStartEnd_frame self s
  simp [ProcessLineTraceObjects, hsome, hw, AsyncLineTraceByObjectType, issueQuery,
    State.setObject, hidx, hev]

/-- The backend call of a `Process...` function on a live world, whatever the class. -/
theorem Process_live_query (P : Nat → State → State)
    (hP : P = ProcessLineTraceChannel ∨ P = ProcessLineTraceProfile ∨
      P = ProcessLineTraceObjects) (self : Nat) (s : State)
    (hw : GetWorld s.WorldLive (s.Objects self).WorldContextObject = true) :
    (queriesOf (eventsSince s (P self s))).map (fun q => (q.Owner, q.Segment, q.Start, q.End)) =
      [(self, (s.Objects self).CurrentTraceIndex,
        ((SetCurrentTraceStartEnd self s).Objects self).CurrentTraceStart,
        ((SetCurrentTraceStartEnd self s).Objects self).CurrentTraceEnd)] := by
  rcases hP with rfl | rfl | rfl
  · rw [eventsSince_append s _ _ (ProcessLineTraceChannel_live_Events self s hw)]
    simp [queriesOf]
  · rw [eventsSince_append s _ _ (ProcessLineTraceProfile_live_Events self s hw)]
    simp [queriesOf]
  · rw [eventsSince_append s _ _ (ProcessLineTraceObjects_live_Events self s hw)]
    simp [queriesOf]

/-- C12: let `seg` be the stored segment at the current index `i` of the request.  With
an origin anchor `a`, `SetCurrentTraceStartEnd` resolves the start to the current
position of `a` and the end to that start plus the stored end of `seg`, so that two
requests whose segment `i` has the same stored end resolve alike, whatever the stored
starts; without an anchor, start and end are the stored start and end of `seg`.  The
query that a `Process...` function (of any of the three classes) issues on a live world
is for exactly this start and end. -/
theorem SetCurrentTraceStartEnd_resolves (self : Nat) (s : State) (i : Nat)
    (seg : FTraceStartStopVectors)
    (hidx : (s.Objects self).CurrentTraceIndex = (i : Int))
    (hseg : (s.Objects self).InputData.StartAndEndLocations[i]? = some seg) :
    (∀ a, (s.Objects self).InputData.TraceOrginActor = some a →
      ((SetCurrentTraceStartEnd self s).Objects self).CurrentTraceStart = s.ActorLocation a ∧
      ((SetCurrentTraceStartEnd self s).Objects self).CurrentTraceEnd =
        s.ActorLocation a + seg.EndLocation ∧
      ∀ (s2 : State) (seg2 : FTraceStartStopVectors),
        (s2.Objects self).InputData.TraceOrginActor = some a →
        s2.ActorLocation a = s.ActorLocation a →
        (s2.Objects self).CurrentTraceIndex = (i : Int) →
        (s2.Objects self).InputData.StartAndEndLocations[i]? = some seg2 →
        seg2.EndLocation = seg.EndLocation →
        ((SetCurrentTraceStartEnd self s2).Objects self).CurrentTraceStart =
          ((SetCurrentTraceStartEnd self s).Objects self).CurrentTraceStart ∧
        ((SetCurrentTraceStartEnd self s2).Objects self).CurrentTraceEnd =
          ((SetCurrentTraceStartEnd self s).Objects self).CurrentTraceEnd) ∧
    ((s.Objects self).InputData.TraceOrginActor = none →
      ((SetCurrentTraceStartEnd self s).Objects self).CurrentTraceStart = seg.StartLocation ∧
      ((SetCurrentTraceStartEnd self s).Objects self).CurrentTraceEnd = seg.EndLocation) ∧
    ∀ (P : Nat → State → State),
      (P = ProcessLineTraceChannel ∨ P = ProcessLineTraceProfile ∨
        P = ProcessLineTraceObjects) →
      GetWorld s.WorldLive (s.Objects self).WorldContextObject = true →
      (queriesOf (eventsSince s (P self s))).map
          (fun q => (q.Owner, q.Segment, q.Start, q.End)) =
        [(self, (i : Int), ((SetCurrentTraceStartEnd self s).Objects self).CurrentTraceStart,
          ((SetCurrentTraceStartEnd self s).Objects self).CurrentTraceEnd)] := by
  refine ⟨?_, ?_, ?_⟩
  · intro a ha
    have h1 : ((SetCurrentTraceStartEnd self s).Objects self).CurrentTraceStart =
        s.ActorLocation a := by
      simp [SetCurrentTraceStartEnd, ha, State.setObject]
    have h2 : ((SetCurrentTraceStartEnd self s).Objects self).CurrentTraceEnd =
        s.ActorLocation a + seg.EndLocation := by
      simp [SetCurrentTraceStartEnd, ha, State.setObject, hidx, segmentAt_eq _ _ _ hseg]
    refine ⟨h1, h2, ?_⟩
    intro s2 seg2 ha2 hloc hidx2 hseg2 hend
    rw [h1, h2]
    constructor
    · simp [SetCurrentTraceStartEnd, ha2, State.setObject, hloc]
    · simp [SetCurrentTraceStartEnd, ha2, State.setObject, hidx2, segmentAt_eq _ _ _ hseg2,
        hloc, hend]
  · intro ha
    constructor
    · simp [SetCurrentTraceStartEnd, ha, State.setObject, hidx, segmentAt_eq _ _ _ hseg]
    · simp [SetCurrentTraceStartEnd, ha, State.setObject, hidx, segmentAt_eq _ _ _ hseg]
  · intro P hP hw
    rw [Process_live_query P hP self s hw, hidx]

/-- C12 (witness): without an anchor the stored start and end are used as they are;
with an anchor at the origin the start is the origin, not the stored start, and the end
is the stored end added to the start. -/
theorem SetCurrentTraceStartEnd_resolves_witness :
    (((SetCurrentTraceStartEnd 0 (multiState 2)).Objects 0).CurrentTraceStart =
        exampleSegment.StartLocation ∧
      ((SetCurrentTraceStartEnd 0 (multiState 2)).Objects 0).CurrentTraceEnd =
        exampleSegment.EndLocation) ∧
    (((SetCurrentTraceStartEnd 0 anchoredState).Objects 0).CurrentTraceStart =
        anchoredState.ActorLocation 5 ∧
      ((SetCurrentTraceStartEnd 0 anchoredState).Objects 0).CurrentTraceEnd =
        anchoredState.ActorLocation 5 + offsetSegment.EndLocation) :=
  ⟨(SetCurrentTraceStartEnd_resolves 0 (multiState 2) 0 exampleSegment rfl rfl).2.1 rfl,
    ((SetCurrentTraceStartEnd_resolves 0 anchoredState 0 offsetSegment rfl rfl).1 5 rfl).1,
    ((SetCurrentTraceStartEnd_resolves 0 anchoredState 0 offsetSegment rfl rfl).1 5 rfl).2.1⟩

/-! ## Effects of the operations on the world and on the backend -/

/-- The two outcomes of a `Request...` function: the query of the next segment, which
is in range, or an exit without a query. -/
theorem requested_outcome (self : Nat) (s : State) :
    ((s.Objects self).bCalledCancel = false ∧
      GetWorld s.WorldLive (s.Objects self).WorldContextObject = true ∧
      (s.Objects self).CurrentTraceIndex + 1 <
        (s.Objects self).InputData.StartAndEndLocations.length ∧
      requested self s = issued self (bumped self s)) ∨
    (((s.Objects self).bCalledCancel = true ∨
        GetWorld s.WorldLive (s.Objects self).WorldContextObject = false ∨
        ¬ (s.Objects self).CurrentTraceIndex + 1 <
          (s.Objects self).InputData.StartAndEndLocations.length) ∧
      ∃ evs, queriesOf evs = [] ∧ completedOf evs = [] ∧
        requested self s =
          exited self { bumped self s with Events := (bumped self s).Events ++ evs }) := by
  unfold requested
  split_ifs with h
  · unfold processed
    by_cases hw : GetWorld s.WorldLive (s.Objects self).WorldContextObject = true
    · left
      refine ⟨h.2, hw, h.1, ?_⟩
      rw [if_pos]
      simpa [bumped] using hw
    · right
      refine ⟨Or.inr (Or.inl (by simpa using hw)), diagnosis ((bumped self s).Objects self),
        queriesOf_diagnosis _, completedOf_diagnosis _, ?_⟩
      rw [if_neg]
      · rfl
      · simpa [bumped] using hw
  · right
    refine ⟨?_, [], rfl, rfl, ?_⟩
    · by_cases hc : (s.Objects self).bCalledCancel = true
      · exact Or.inl hc
      · refine Or.inr (Or.inr ?_)
        intro hlt
        exact h ⟨hlt, by simpa using hc⟩
    · simp

/-- The world is not touched by `Activate`; every query it issues is the query of
segment 0 of the activated engine, whose request then has a segment. -/
theorem Activate_effect (x : Nat) (s : State) :
    (Activate x s).WorldLive = s.WorldLive ∧ (Activate x s).HasSubsystem = s.HasSubsystem ∧
    ∃ new, (Activate x s).Events = s.Events ++ new ∧
      ∀ q ∈ queriesOf new, q.Owner = x ∧ q.Segment = 0 ∧
        0 < (s.Objects x).InputData.StartAndEndLocations.length := by
  rcases Activate_cases x s with ⟨-, hA⟩ | ⟨-, -, hA⟩ | ⟨ha, -, hA⟩ <;> rw [hA]
  · obtain ⟨v, m, hr⟩ := rejection_is_log x s
    refine ⟨rfl, rfl, [rejection x s, Event.Log ELogVerbosity.Error EDiagnostic.CantStart,
      Event.Exited x, Event.Completed x (s.Objects x).OutHits], by simp [exited, rejected], ?_⟩
    rw [hr]; simp [queriesOf]
  · refine ⟨rfl, rfl, [Event.Activated x, Event.Completed x []], by simp [exited, accepted], ?_⟩
    simp [queriesOf]
  · simp only [activatable, Bool.and_eq_true, Bool.not_eq_true', decide_eq_true_eq] at ha
    refine ⟨?_, ?_, [Event.Activated x, Event.Query (queryOf x
      (RegisterAsyncLineTrace (some x) (accepted x s))
      ((RegisterAsyncLineTrace (some x) (accepted x s)).Objects x))], ?_, ?_⟩
    · simp only [issued, RegisterAsyncLineTrace_WorldLive]; rfl
    · simp only [issued, RegisterAsyncLineTrace_HasSubsystem]; rfl
    · simp only [issued, RegisterAsyncLineTrace_Events]
      simp [accepted]
    · simp [queriesOf, queryOf, RegisterAsyncLineTrace_Objects, accepted, ha.1.2]

/-- The world is not touched by a callback; every query it issues is the query of the
next segment of the engine, in range, on a live world and without cancellation. -/
theorem DeliverCallback_effect (x : Nat) (d : FTraceDatum) (s : State) :
    (DeliverCallback x d s).WorldLive = s.WorldLive ∧
    (DeliverCallback x d s).HasSubsystem = s.HasSubsystem ∧
    ∃ new, (DeliverCallback x d s).Events = s.Events ++ new ∧
      ∀ q ∈ queriesOf new, q.Owner = x ∧ q.Segment = (s.Objects x).CurrentTraceIndex + 1 ∧
        (s.Objects x).CurrentTraceIndex + 1 <
          (s.Objects x).InputData.StartAndEndLocations.length ∧
        (s.Objects x).bCalledCancel = false ∧
        GetWorld s.WorldLive (s.Objects x).WorldContextObject = true := by
  rcases DeliverCallback_cases x d s with ⟨-, hD⟩ | ⟨-, -, -, hD⟩ | ⟨-, -, -, hD⟩ <;> rw [hD]
  · exact ⟨rfl, rfl, [], by simp, by simp [queriesOf]⟩
  · obtain ⟨hits, evs, hq, -, hH⟩ := halted_eq x d (dequeued x s)
    rw [hH]
    exact ⟨rfl, rfl, evs, by simp [dequeued], by simp [hq]⟩
  · obtain ⟨hits, evs, hq, -, -, -, hacc⟩ := accumulated_eq x d (dequeued x s)
    rcases requested_outcome x ((accumulated x d (dequeued x s)).emit (Event.Requested x))
      with ⟨hnc, hw, hlt, hR⟩ | ⟨-, evs2, hq2, -, hR⟩ <;> rw [hR]
    · rw [hacc] at hnc hw hlt ⊢
      simp only [State.emit, dequeued, Function.update_same] at hnc hw hlt
      refine ⟨rfl, rfl, evs ++ [Event.Requested x, Event.Query (queryOf x
        (bumped x ((accumulated x d (dequeued x s)).emit (Event.Requested x)))
        ((bumped x ((accumulated x d (dequeued x s)).emit (Event.Requested x))).Objects x))],
        ?_, ?_⟩
      · rw [hacc]
        simp [issued, bumped, dequeued, State.emit]
      · rw [queriesOf_append, hq, hacc]
        intro q hq1
        simp only [queriesOf, List.nil_append, List.filterMap_cons, List.filterMap_nil,
          List.mem_singleton] at hq1
        subst hq1
        refine ⟨rfl, ?_, hlt, hnc, hw⟩
        simp [queryOf, bumped, dequeued, State.emit]
    · rw [hacc]
      refine ⟨rfl, rfl, evs ++ [Event.Requested x] ++ evs2 ++
        [Event.Completed x ((s.Objects x).OutHits ++ hits)], ?_, ?_⟩
      · simp [exited, bumped, dequeued, State.emit]
      · intro q hq1
        rw [queriesOf_append, queriesOf_append, queriesOf_append, hq, hq2] at hq1
        simp [queriesOf] at hq1

/-! ## C13 -/

/-- A `Process...` function of any class that finds no live world calls `Exit...`; only
diagnostics may be logged before. -/
theorem Process_dead (P : Nat → State → State)
    (hP : P = ProcessLineTraceChannel ∨ P = ProcessLineTraceProfile ∨
      P = ProcessLineTraceObjects) (self : Nat) (s : State)
    (hw : GetWorld s.WorldLive (s.Objects self).WorldContextObject = false) :
    ∃ evs, queriesOf evs = [] ∧ completedOf evs = [] ∧
      P self s = exited self { s with Events := s.Events ++ evs } := by
  rcases hP with rfl | rfl | rfl
  · by_cases hn : (s.Objects self).WorldContextObject.isNone = true
    · exact ⟨[Event.Log ELogVerbosity.Error EDiagnostic.InvalidWorldContextObject], rfl, rfl,
        by simp [ProcessLineTraceChannel, hn, ExitLineTraceChannel_eq, State.emit]⟩
    · exact ⟨[Event.Log ELogVerbosity.Error EDiagnostic.InvalidWorld], rfl, rfl,
        by simp [ProcessLineTraceChannel, hn, hw, ExitLineTraceChannel_eq, State.emit]⟩
  · refine ⟨[], rfl, rfl, ?_⟩
    by_cases hn : (s.Objects self).WorldContextObject.isNone = true
    · simp [ProcessLineTraceProfile, hn, ExitLineTraceProfile_eq]
    · simp [ProcessLineTraceProfile, hn, hw, ExitLineTraceProfile_eq]
  · refine ⟨[], rfl, rfl, ?_⟩
    by_cases hn : (s.Objects self).WorldContextObject.isNone = true
    · simp [ProcessLineTraceObjects, hn, ExitLineTraceObjects_eq]
    · simp [ProcessLineTraceObjects, hn, hw, ExitLineTraceObjects_eq]

theorem GetWorld_update_false (w : Nat → Bool) (c : Nat) (ctx : Option Nat)
    (h : GetWorld w ctx = false) : GetWorld (Function.update w c false) ctx = false := by
  cases ctx with
  | none => rfl
  | some a =>
    simp only [GetWorld] at h ⊢
    by_cases ha : a = c
    · subst ha; simp
    · simp [ha, h]

theorem CancelAsyncLineTrace_WorldContextObject (x e : Nat) (s : State) :
    ((CancelAsyncLineTrace x s).Objects e).WorldContextObject =
      (s.Objects e).WorldContextObject := by
  rw [CancelAsyncLineTrace_eq]
  by_cases he : e = x
  · subst he; simp
  · simp [he]

/-- While the context of `e` does not resolve, no operation other than a new `Activate`
of `e` makes `e` issue a query, and the context stays unresolved. -/
theorem step_dead (e : Nat) (op : Op) (s : State)
    (hw : GetWorld s.WorldLive (s.Objects e).WorldContextObject = false)
    (hop : op.isActivateOf e = false) :
    GetWorld (step s op).WorldLive ((step s op).Objects e).WorldContextObject = false ∧
    ∃ new, (step s op).Events = s.Events ++ new ∧ ∀ q ∈ queriesOf new, q.Owner ≠ e := by
  by_cases hcr : s.Crashed = true
  · rw [step_dead_process s op hcr]
    exact ⟨hw, [], by simp, by simp [queriesOf]⟩
  rw [step_alive s op (by simpa using hcr)]
  cases op with
  | Activate x =>
    have hx : e ≠ x := by
      intro h
      simp [Op.isActivateOf, h] at hop
    simp only [perform]
    obtain ⟨hwl, -, new, hE, hQ⟩ := Activate_effect x s
    rw [hwl, Activate_Objects_ne x e s hx]
    refine ⟨hw, new, hE, ?_⟩
    intro q hq ho
    exact hx ((hQ q hq).1.symm.trans ho).symm
  | Cancel x =>
    simp only [perform]
    rw [CancelAsyncLineTrace_WorldContextObject]
    rw [CancelAsyncLineTrace_eq]
    exact ⟨hw, [Event.Log ELogVerbosity.Warning EDiagnostic.Cancelled], rfl, by simp [queriesOf]⟩
  | Callback x d =>
    simp only [perform]
    obtain ⟨hwl, -, new, hE, hQ⟩ := DeliverCallback_effect x d s
    rw [hwl]
    by_cases hx : e = x
    · subst hx
      constructor
      · rcases DeliverCallback_cases e d s with ⟨-, hD⟩ | ⟨-, -, -, hD⟩ | ⟨-, -, -, hD⟩ <;>
          rw [hD]
        · exact hw
        · simpa [halted, dequeued] using hw
        · obtain ⟨hits, evs, -, -, -, -, hacc⟩ := accumulated_eq e d (dequeued e s)
          rcases requested_outcome e ((accumulated e d (dequeued e s)).emit (Event.Requested e))
            with ⟨-, -, -, hR⟩ | ⟨-, evs2, -, -, hR⟩ <;> rw [hR, hacc]
          · simpa [issued, bumped, dequeued, State.emit] using hw
          · simpa [exited, bumped, dequeued, State.emit] using hw
      · refine ⟨new, hE, ?_⟩
        intro q hq
        have := (hQ q hq).2.2.2.2
        rw [hw] at this
        cases this
    · rw [DeliverCallback_Objects_ne x e d s hx]
      refine ⟨hw, new, hE, ?_⟩
      intro q hq ho
      exact hx ((hQ q hq).1.symm.trans ho).symm
  | GetCurrentHitsByID i =>
    exact ⟨hw, [], by simp [perform, GetCurrentHitsByID], by simp [queriesOf]⟩
  | CancelByID i =>
    simp only [perform]
    obtain ⟨h1, -, -, h4, -, -, n, h7⟩ := cancelByID_fold i s.ActiveAsyncLineTraces s
    refine ⟨?_, _, h7, by simp [queriesOf_replicate_log]⟩
    unfold CancelAsyncLineTracesByID
    rw [h4, h1 e]
    exact hw
  | CancelAll =>
    simp only [perform]
    obtain ⟨h1, -, -, h4, -, -, -, n, h7⟩ := CancelAll_frame s
    refine ⟨?_, _, h7, by simp [queriesOf_replicate_log]⟩
    rw [h4, h1 e]
    exact hw
  | SceneLost c =>
    refine ⟨?_, [], by simp [perform, SceneLost], by simp [queriesOf]⟩
    simp only [perform, SceneLost]
    exact GetWorld_update_false _ _ _ hw

theorem run_dead (e : Nat) (ops : List Op) :
    ∀ (s : State), GetWorld s.WorldLive (s.Objects e).WorldContextObject = false →
      (∀ op ∈ ops, op.isActivateOf e = false) →
      ∃ new, (run ops s).Events = s.Events ++ new ∧ ∀ q ∈ queriesOf new, q.Owner ≠ e := by
  induction ops with
  | nil =>
    intro s _ _
    exact ⟨[], by simp [run], by simp [queriesOf]⟩
  | cons op ops ih =>
    intro s hw hops
    obtain ⟨hw1, new1, hE1, hQ1⟩ := step_dead e op s hw (hops op (List.mem_cons_self _ _))
    obtain ⟨new2, hE2, hQ2⟩ := ih (step s op) hw1 (fun o ho => hops o (List.mem_cons_of_mem _ ho))
    have hrun : run (op :: ops) s = run ops (step s op) := rfl
    rw [hrun]
    refine ⟨new1 ++ new2, by rw [hE2, hE1, List.append_assoc], ?_⟩
    intro q hq
    rw [queriesOf_append, List.mem_append] at hq
    rcases hq with hq | hq
    · exact hQ1 q hq
    · exact hQ2 q hq

/-- C13: in every state, when a `Process...` function (of any of the three classes)
cannot resolve the scene context of the engine to a live scene, it issues no backend
query (the backend queue is unchanged) and the trace exits at once: the completion event
fires, the in-progress flag is cleared, the stored query handle is unchanged; and
whatever operations follow (callbacks, cancellations, registry operations, scene losses,
activations of other engines), the engine issues no query until it is activated anew. -/
theorem Process_without_world_exits (P : Nat → State → State)
    (hP : P = ProcessLineTraceChannel ∨ P = ProcessLineTraceProfile ∨
      P = ProcessLineTraceObjects) (self : Nat) (s : State)
    (hw : GetWorld s.WorldLive (s.Objects self).WorldContextObject = false) :
    queriesOf (eventsSince s (P self s)) = [] ∧
    (P self s).InFlight = s.InFlight ∧
    completedOf (eventsSince s (P self s)) = [(self, (s.Objects self).OutHits)] ∧
    ((P self s).Objects self).bTraceInProgress = false ∧
    ((P self s).Objects self).CurrentTraceHandle = (s.Objects self).CurrentTraceHandle ∧
    ∀ (ops : List Op), (∀ op ∈ ops, op.isActivateOf self = false) →
      ∀ q ∈ queriesOf (eventsSince s (run ops (P self s))), q.Owner ≠ self := by
  obtain ⟨evs, hq, hc, hPe⟩ := Process_dead P hP self s hw
  have hE : (P self s).Events = s.Events ++ (evs ++ [Event.Completed self (s.Objects self).OutHits]) := by
    rw [hPe]; simp [exited]
  refine ⟨?_, ?_, ?_, ?_, ?_, ?_⟩
  · rw [eventsSince_append s _ _ hE, queriesOf_append, hq]; rfl
  · rw [hPe]; rfl
  · rw [eventsSince_append s _ _ hE, completedOf_append, hc]; rfl
  · rw [hPe]; simp [exited]
  · rw [hPe]; simp [exited]
  · intro ops hops q hqm
    have hw1 : GetWorld (P self s).WorldLive ((P self s).Objects self).WorldContextObject
        = false := by
      rw [hPe]; simpa [exited] using hw
    obtain ⟨new2, hE2, hQ2⟩ := run_dead self ops (P self s) hw1 hops
    rw [eventsSince_append s _ (evs ++ [Event.Completed self (s.Objects self).OutHits] ++ new2)
      (by rw [hE2, hE]; simp [List.append_assoc])] at hqm
    rw [queriesOf_append, queriesOf_append, hq] at hqm
    simp only [queriesOf, List.filterMap_cons, List.filterMap_nil, List.nil_append] at hqm
    exact hQ2 q hqm

/-- C13 (witness): a running engine of the channel class has lost its scene context. -/
theorem Process_without_world_exits_witness :
    queriesOf (eventsSince (SceneLost 0 (Activate 0 (multiState 2)))
      (ProcessLineTraceChannel 0 (SceneLost 0 (Activate 0 (multiState 2))))) = [] ∧
    ((ProcessLineTraceChannel 0 (SceneLost 0 (Activate 0 (multiState 2)))).Objects 0).bTraceInProgress
      = false :=
  have h := Process_without_world_exits ProcessLineTraceChannel (Or.inl rfl) 0
    (SceneLost 0 (Activate 0 (multiState 2))) (by decide)
  ⟨h.1, h.2.2.2.1⟩

/-! ## C14 -/

theorem RegisterAsyncLineTrace_registry (p : Option Nat) (s : State) :
    (RegisterAsyncLineTrace p s).ActiveAsyncLineTraces =
      if p.isSome = true ∧ p ∉ s.ActiveAsyncLineTraces then s.ActiveAsyncLineTraces ++ [p]
      else s.ActiveAsyncLineTraces := by
  unfold RegisterAsyncLineTrace
  by_cases h1 : p.isSome = true
  · by_cases h2 : p ∈ s.ActiveAsyncLineTraces
    · simp [h1, h2]
    · simp [h1, h2]
  · simp [h1]

theorem RegisterAsyncLineTrace_Nodup (p : Option Nat) (s : State)
    (h : s.ActiveAsyncLineTraces.Nodup) :
    (RegisterAsyncLineTrace p s).ActiveAsyncLineTraces.Nodup := by
  rw [RegisterAsyncLineTrace_registry]
  split_ifs with hc
  · rw [List.nodup_append]
    refine ⟨h, List.nodup_singleton _, ?_⟩
    intro a ha hb
    rw [List.mem_singleton] at hb
    subst hb
    exact hc.2 ha
  · exact h

theorem UnregisterAsyncLineTrace_eq (p : Option Nat) (s : State) :
    UnregisterAsyncLineTrace p s =
      if p.isSome = true ∧ p ∈ s.ActiveAsyncLineTraces then
        { s with ActiveAsyncLineTraces :=
            s.ActiveAsyncLineTraces.filter (fun x => !decide (x = p)) }
      else s := by
  unfold UnregisterAsyncLineTrace
  split_ifs <;> simp

theorem UnregisterAsyncLineTrace_Nodup (p : Option Nat) (s : State)
    (h : s.ActiveAsyncLineTraces.Nodup) :
    (UnregisterAsyncLineTrace p s).ActiveAsyncLineTraces.Nodup := by
  rw [UnregisterAsyncLineTrace_eq]
  split_ifs
  · exact h.filter _
  · exact h

theorem applyCalls_Nodup (cs : List RegistryCall) :
    ∀ (s : State), s.ActiveAsyncLineTraces.Nodup →
      (applyCalls cs s).ActiveAsyncLineTraces.Nodup := by
  induction cs with
  | nil => intro s h; exact h
  | cons c cs ih =>
    intro s h
    have hrun : applyCalls (c :: cs) s = applyCalls cs (applyCall s c) := rfl
    rw [hrun]
    apply ih
    cases c with
    | Register p => exact RegisterAsyncLineTrace_Nodup p s h
    | Unregister p => exact UnregisterAsyncLineTrace_Nodup p s h

theorem filter_eq_length_of_not_mem (a : Option Nat) (l : List (Option Nat)) (h : a ∉ l) :
    (l.filter (fun x => decide (x = a))).length = 0 := by
  rw [List.length_eq_zero, List.filter_eq_nil_iff]
  intro x hx
  simp only [decide_eq_true_eq]
  rintro rfl
  exact h hx

theorem filter_eq_length_of_mem (a : Option Nat) (l : List (Option Nat)) (hnd : l.Nodup)
    (h : a ∈ l) : (l.filter (fun x => decide (x = a))).length = 1 := by
  induction l with
  | nil => cases h
  | cons b l ih =>
    rw [List.nodup_cons] at hnd
    by_cases hb : b = a
    · subst hb
      simp [List.filter_cons, filter_eq_length_of_not_mem b l hnd.1]
    · have hm : a ∈ l := by
        rcases List.mem_cons.mp h with h1 | h1
        · exact absurd h1.symm hb
        · exact h1
      simp [List.filter_cons, hb, ih hnd.2 hm]

/-- C14: on a duplicate-free registry, `RegisterAsyncLineTrace` of an engine yields a
registry that contains the engine exactly once, keeps the former entries in place (the
old registry is a prefix of the new one) and has the same other members; registering
twice gives the same state as registering once (for every registry and also for a null
pointer); and no sequence of register and unregister calls that starts from the empty
registry produces a registry with an entry twice. -/
theorem Register_idempotent_duplicate_free (s : State) (e : Nat) :
    (s.ActiveAsyncLineTraces.Nodup →
      ((RegisterAsyncLineTrace (some e) s).ActiveAsyncLineTraces.filter
        (fun x => decide (x = some e))).length = 1 ∧
      s.ActiveAsyncLineTraces <+: (RegisterAsyncLineTrace (some e) s).ActiveAsyncLineTraces ∧
      ∀ p, p ≠ some e →
        (p ∈ (RegisterAsyncLineTrace (some e) s).ActiveAsyncLineTraces ↔
          p ∈ s.ActiveAsyncLineTraces)) ∧
    (∀ p, RegisterAsyncLineTrace p (RegisterAsyncLineTrace p s) = RegisterAsyncLineTrace p s) ∧
    ∀ (cs : List RegistryCall), s.ActiveAsyncLineTraces = [] →
      (applyCalls cs s).ActiveAsyncLineTraces.Nodup := by
  refine ⟨?_, ?_, ?_⟩
  · intro hnd
    rw [RegisterAsyncLineTrace_registry]
    by_cases hm : some e ∈ s.ActiveAsyncLineTraces
    · rw [if_neg (by simp [hm])]
      refine ⟨filter_eq_length_of_mem _ _ hnd hm, List.prefix_refl _, fun p _ => Iff.rfl⟩
    · rw [if_pos ⟨rfl, hm⟩]
      refine ⟨?_, List.prefix_append _ _, ?_⟩
      · rw [List.filter_append, List.length_append, filter_eq_length_of_not_mem _ _ hm]
        simp
      · intro p hp
        simp [hp]
  · intro p
    unfold RegisterAsyncLineTrace
    by_cases h1 : p.isSome = true
    · by_cases h2 : p ∈ s.ActiveAsyncLineTraces
      · simp [h1, h2]
      · simp [h1, h2]
    · simp [h1]
  · intro cs h0
    exact applyCalls_Nodup cs s (by rw [h0]; exact List.nodup_nil)

/-- C14 (witness): registering the engine 1 twice in a registry that holds engine 0. -/
theorem Register_idempotent_duplicate_free_witness :
    ((RegisterAsyncLineTrace (some 1) (Activate 0 (multiState 2))).ActiveAsyncLineTraces.filter
        (fun x => decide (x = some 1))).length = 1 ∧
    (applyCalls [RegistryCall.Register (some 1), RegistryCall.Register (some 1),
        RegistryCall.Unregister (some 2), RegistryCall.Register (some 2)]
      (multiState 2)).ActiveAsyncLineTraces.Nodup :=
  ⟨((Register_idempotent_duplicate_free (Activate 0 (multiState 2)) 1).1 (by decide)).1,
    (Register_idempotent_duplicate_free (multiState 2) 0).2.2 _ rfl⟩

/-! ## C15 -/

/-- C15: `UnregisterAsyncLineTrace` of an engine yields a state whose registry does not
contain the engine and consists of the other entries in their original order (the
registry filtered of the engine), nothing else being changed; for a null pointer or an
engine that is not a member the state is unchanged. -/
theorem Unregister_removes (s : State) (e : Nat) :
    some e ∉ (UnregisterAsyncLineTrace (some e) s).ActiveAsyncLineTraces ∧
    UnregisterAsyncLineTrace (some e) s =
      { s with ActiveAsyncLineTraces :=
          s.ActiveAsyncLineTraces.filter (fun x => !decide (x = some e)) } ∧
    (UnregisterAsyncLineTrace (some e) s).ActiveAsyncLineTraces.Sublist
      s.ActiveAsyncLineTraces ∧
    ∀ p, (p = none ∨ p ∉ s.ActiveAsyncLineTraces) → UnregisterAsyncLineTrace p s = s := by
  have heq : UnregisterAsyncLineTrace (some e) s =
      { s with ActiveAsyncLineTraces :=
          s.ActiveAsyncLineTraces.filter (fun x => !decide (x = some e)) } := by
    rw [UnregisterAsyncLineTrace_eq]
    by_cases hm : some e ∈ s.ActiveAsyncLineTraces
    · rw [if_pos ⟨rfl, hm⟩]
    · rw [if_neg (by simp [hm]), filter_ne_of_not_mem _ _ hm]
  refine ⟨?_, heq, ?_, ?_⟩
  · rw [heq]
    simp [List.mem_filter]
  · rw [heq]
    exact List.filter_sublist _
  · intro p hp
    rw [UnregisterAsyncLineTrace_eq, if_neg]
    rintro ⟨h1, h2⟩
    rcases hp with rfl | hp
    · simp at h1
    · exact hp h2

/-- C15 (witness): unregistering a null pointer from a registry with one engine. -/
theorem Unregister_removes_witness :
    (UnregisterAsyncLineTrace none (Activate 0 (multiState 2))).ActiveAsyncLineTraces =
      (Activate 0 (multiState 2)).ActiveAsyncLineTraces :=
  congrArg State.ActiveAsyncLineTraces
    ((Unregister_removes (Activate 0 (multiState 2)) 0).2.2.2 none (Or.inl rfl))

/-! ## C16 -/

/-- C16: `CancelAsyncLineTrace` sets the cancellation flag of the engine and changes no
other field of it (segment index, accumulated hits, in-progress flag, query handle and
request are as before), no other object, and nothing else in the system (registry,
backend queue, handle counter, world) except that its diagnostic is logged: no query is
issued or aborted and no notification fires.  A second call changes nothing at all
except that the diagnostic is logged again. -/
theorem Cancel_sets_flag_only (self : Nat) (s : State) :
    CancelAsyncLineTrace self s =
      { s with
        Objects := Function.update s.Objects self { s.Objects self with bCalledCancel := true }
        Events := s.Events ++ [Event.Log ELogVerbosity.Warning EDiagnostic.Cancelled] } ∧
    ((CancelAsyncLineTrace self s).Objects self).bCalledCancel = true ∧
    ((CancelAsyncLineTrace self s).Objects self).CurrentTraceIndex =
      (s.Objects self).CurrentTraceIndex ∧
    ((CancelAsyncLineTrace self s).Objects self).OutHits = (s.Objects self).OutHits ∧
    ((CancelAsyncLineTrace self s).Objects self).bTraceInProgress =
      (s.Objects self).bTraceInProgress ∧
    ((CancelAsyncLineTrace self s).Objects self).CurrentTraceHandle =
      (s.Objects self).CurrentTraceHandle ∧
    ((CancelAsyncLineTrace self s).Objects self).InputData = (s.Objects self).InputData ∧
    (CancelAsyncLineTrace self s).ActiveAsyncLineTraces = s.ActiveAsyncLineTraces ∧
    (CancelAsyncLineTrace self s).InFlight = s.InFlight ∧
    queriesOf (eventsSince s (CancelAsyncLineTrace self s)) = [] ∧
    CancelAsyncLineTrace self (CancelAsyncLineTrace self s) =
      { CancelAsyncLineTrace self s with
        Events := (CancelAsyncLineTrace self s).Events ++
          [Event.Log ELogVerbosity.Warning EDiagnostic.Cancelled] } := by
  have h := CancelAsyncLineTrace_eq self s
  refine ⟨h, ?_, ?_, ?_, ?_, ?_, ?_, ?_, ?_, ?_, ?_⟩
  · rw [h]; simp
  · rw [h]; simp
  · rw [h]; simp
  · rw [h]; simp
  · rw [h]; simp
  · rw [h]; simp
  · rw [h]
  · rw [h]
  · rw [eventsSince_append s _ _ (by rw [h])]
    rfl
  · rw [CancelAsyncLineTrace_eq self (CancelAsyncLineTrace self s), h]
    simp

/-! ## C19 -/

/-- The cancellation flag across an activation, when the callback does not reach a hit
without actor in `DebugPrintHitInfo`: no operation clears the flag.  If the flag is set
on an engine that is not in progress and has no query outstanding, and its request is
valid (context and registry resolve, `N ≥ 1` segments), `Activate` still succeeds: the
flag stays set, the engine is in progress and the query of segment 0 is issued; the
callback of that query then terminates the trace (completion fires once, nothing
outstanding), so that exactly one query has been issued, whatever `N` is. -/
theorem cancel_flag_survives_activation (e c N : Nat) (d : FTraceDatum) (s : State)
    (hctx : (s.Objects e).InputData.WorldContextObject = some c)
    (hlive : s.WorldLive c = true) (hsub : s.HasSubsystem = true)
    (hlen : (s.Objects e).InputData.StartAndEndLocations.length = N) (hpos : 1 ≤ N)
    (hnp : (s.Objects e).bTraceInProgress = false)
    (hc : (s.Objects e).bCalledCancel = true)
    (hidle : outstanding e s = 0) (halive : s.Crashed = false)
    (hn : derefsNull (s.Objects e) d.OutHits = false) :
    (∀ (op : Op) (s1 : State), (s1.Objects e).bCalledCancel = true →
      ((step s1 op).Objects e).bCalledCancel = true) ∧
    ((Activate e s).Objects e).bCalledCancel = true ∧
    ((Activate e s).Objects e).bTraceInProgress = true ∧
    (queriesOf (eventsSince s (Activate e s))).map FTraceQuery.target = [(e, 0)] ∧
    ((DeliverCallback e d (Activate e s)).Objects e).bTraceInProgress = false ∧
    (queriesOf (eventsSince s (DeliverCallback e d (Activate e s)))).map FTraceQuery.target =
      [(e, 0)] ∧
    (completedOf (eventsSince s (DeliverCallback e d (Activate e s)))).map Prod.fst = [e] ∧
    outstanding e (DeliverCallback e d (Activate e s)) = 0 := by
  have hidle' : (List.filter (fun q => decide (q.Owner = e)) s.InFlight).length = 0 := hidle
  have hact : activatable e s = true := by
    simp [activatable, hctx, GetWorld, hlive, hnp]; omega
  have hA : Activate e s = issued e (RegisterAsyncLineTrace (some e) (accepted e s)) := by
    rcases Activate_cases e s with ⟨ha, -⟩ | ⟨-, hs, -⟩ | ⟨-, -, hA⟩
    · rw [hact] at ha; cases ha
    · rw [hsub] at hs; cases hs
    · exact hA
  have hflag : ((Activate e s).Objects e).bCalledCancel = true := by
    rw [hA]; simp [issued, RegisterAsyncLineTrace_Objects, accepted, hc]
  have hwco : ((Activate e s).Objects e).WorldContextObject = some c := by
    rw [hA]; simp [issued, RegisterAsyncLineTrace_Objects, accepted, hctx]
  have hwl : (Activate e s).WorldLive c = true := by
    rw [hA]; simp only [issued, RegisterAsyncLineTrace_WorldLive]; exact hlive
  have hout : outstanding e (Activate e s) = 1 := by
    rw [hA]
    simp [outstanding, issued, RegisterAsyncLineTrace_InFlight, accepted, List.filter_append,
      queryOf, hidle']
  obtain ⟨newA, hE, hQ, hCA⟩ : ∃ newA, (Activate e s).Events = s.Events ++ newA ∧
      (queriesOf newA).map FTraceQuery.target = [(e, 0)] ∧ completedOf newA = [] := by
    refine ⟨[Event.Activated e, Event.Query (queryOf e
      (RegisterAsyncLineTrace (some e) (accepted e s))
      ((RegisterAsyncLineTrace (some e) (accepted e s)).Objects e))], ?_, ?_, ?_⟩
    · rw [hA]
      simp only [issued, RegisterAsyncLineTrace_Events]
      simp [accepted]
    · simp [queriesOf, FTraceQuery.target, queryOf, RegisterAsyncLineTrace_Objects, accepted]
    · simp [completedOf]
  have hcr : (Activate e s).Crashed = false := by
    rw [hA]; simp only [issued, RegisterAsyncLineTrace_Crashed]; exact halive
  obtain ⟨hP, -, -, -, -, hO, -, -, -, -, -, -, -, new, hE2, hQ2, hC2⟩ :=
    callback_cancelled e d (Activate e s) hflag (by rw [hout]; decide) hcr
      (Or.inr (by rw [Activate_derefsNull]; exact hn))
  refine ⟨fun op s1 h1 => (step_cancelled e op s1 h1).1, hflag, ?_, ?_, hP, ?_, ?_, ?_⟩
  · rw [hA]; simp [issued, RegisterAsyncLineTrace_Objects, accepted]
  · rw [eventsSince_append s _ _ hE]; exact hQ
  · rw [eventsSince_append s _ (newA ++ new) (by rw [hE2, hE, List.append_assoc]),
      queriesOf_append, List.map_append, hQ, hQ2]
    rfl
  · rw [eventsSince_append s _ (newA ++ new) (by rw [hE2, hE, List.append_assoc]),
      completedOf_append, hCA, hC2]
    rfl
  · rw [hO, hout]

/-- C19 (the code departs from the claim): `Cancel` is called on a fresh engine that
prints its hits and has a valid request of three segments; `Activate` then succeeds and
issues the query of segment 0, as the claim says.  The callback of that query reports
one hit that has no actor: `DebugPrintHitInfo` dereferences the null actor and the
process ends inside the callback, so the trace does not terminate, where the claim says
it does: the engine is still in progress and registered, and the completion event has
not fired. -/
theorem cancelled_run_never_completes :
    (((CancelAsyncLineTrace 0 (printingState 3)).Objects 0).bCalledCancel = true ∧
      ((Activate 0 (CancelAsyncLineTrace 0 (printingState 3))).Objects 0).bTraceInProgress
        = true ∧
      (queriesOf (eventsSince (CancelAsyncLineTrace 0 (printingState 3))
        (Activate 0 (CancelAsyncLineTrace 0 (printingState 3))))).map FTraceQuery.target =
        [(0, 0)]) ∧
    (DeliverCallback 0 ⟨[strayHit]⟩
      (Activate 0 (CancelAsyncLineTrace 0 (printingState 3)))).Crashed = true ∧
    ((DeliverCallback 0 ⟨[strayHit]⟩
      (Activate 0 (CancelAsyncLineTrace 0 (printingState 3)))).Objects 0).bTraceInProgress
      = true ∧
    (DeliverCallback 0 ⟨[strayHit]⟩
      (Activate 0 (CancelAsyncLineTrace 0 (printingState 3)))).ActiveAsyncLineTraces
      = [some 0] ∧
    completedOf (eventsSince (CancelAsyncLineTrace 0 (printingState 3))
      (DeliverCallback 0 ⟨[strayHit]⟩
        (Activate 0 (CancelAsyncLineTrace 0 (printingState 3))))) = [] := by
  decide

/-! ## C20 -/

/-- C20: when the scene context of the engine does not resolve to a live scene at the
moment a completion callback is delivered, `OnTraceCompleted` leaves the accumulated hit
list unchanged (for every trace kind and every result), still fires the segment-completed
notification, the index is incremented, and the trace exits without a query (the backend
queue is unchanged); the completion event carries the accumulated list as it was, without
the hits of this result. -/
theorem callback_without_world_drops_hits (self InHandle : Nat) (d : FTraceDatum) (s : State)
    (hw : GetWorld s.WorldLive (s.Objects self).WorldContextObject = false) :
    ((OnTraceCompleted self InHandle d s).Objects self).OutHits = (s.Objects self).OutHits ∧
    Event.Requested self ∈ eventsSince s (OnTraceCompleted self InHandle d s) ∧
    ((OnTraceCompleted self InHandle d s).Objects self).CurrentTraceIndex =
      (s.Objects self).CurrentTraceIndex + 1 ∧
    ((OnTraceCompleted self InHandle d s).Objects self).bTraceInProgress = false ∧
    queriesOf (eventsSince s (OnTraceCompleted self InHandle d s)) = [] ∧
    (OnTraceCompleted self InHandle d s).InFlight = s.InFlight ∧
    completedOf (eventsSince s (OnTraceCompleted self InHandle d s)) =
      [(self, (s.Objects self).OutHits)] := by
  have hacc : accumulated self d s = s := by
    unfold accumulated
    rw [if_neg (by rw [hw]; decide)]
  rw [OnTraceCompleted_ok _ _ _ _ (Or.inl hw), hacc]
  rcases requested_outcome self (s.emit (Event.Requested self))
    with ⟨-, hw1, -, -⟩ | ⟨-, evs, hq, hc, hR⟩
  · simp only [State.emit] at hw1
    rw [hw] at hw1; cases hw1
  · rw [hR]
    have hE : (exited self { bumped self (s.emit (Event.Requested self)) with
        Events := (bumped self (s.emit (Event.Requested self))).Events ++ evs }).Events =
        s.Events ++ ([Event.Requested self] ++ evs ++
          [Event.Completed self (s.Objects self).OutHits]) := by
      simp [exited, bumped, State.emit]
    refine ⟨?_, ?_, ?_, ?_, ?_, ?_, ?_⟩
    · simp [exited, bumped, State.emit]
    · rw [eventsSince_append s _ _ hE]
      simp
    · simp [exited, bumped, State.emit]
    · simp [exited, bumped, State.emit]
    · rw [eventsSince_append s _ _ hE, queriesOf_append, queriesOf_append, hq]
      rfl
    · simp [exited, bumped, State.emit]
    · rw [eventsSince_append s _ _ hE, completedOf_append, completedOf_append, hc]
      rfl

/-- C20 (witness): a running all-hits engine loses its scene context; the callback then
reports two hits and none is kept. -/
theorem callback_without_world_drops_hits_witness :
    ((OnTraceCompleted 0 0 ⟨[exampleHit 1, exampleHit 2]⟩
      (SceneLost 0 (Activate 0 (multiState 2)))).Objects 0).OutHits =
      ((SceneLost 0 (Activate 0 (multiState 2))).Objects 0).OutHits ∧
    completedOf (eventsSince (SceneLost 0 (Activate 0 (multiState 2)))
      (OnTraceCompleted 0 0 ⟨[exampleHit 1, exampleHit 2]⟩
        (SceneLost 0 (Activate 0 (multiState 2))))) =
      [(0, ((SceneLost 0 (Activate 0 (multiState 2))).Objects 0).OutHits)] :=
  have h := callback_without_world_drops_hits 0 0 ⟨[exampleHit 1, exampleHit 2]⟩
    (SceneLost 0 (Activate 0 (multiState 2))) (by decide)
  ⟨h.1, h.2.2.2.2.2.2⟩

/-! ## C17 -/

/-- The request of an engine is never changed. -/
theorem step_InputData (op : Op) (s : State) (e : Nat) :
    ((step s op).Objects e).InputData = (s.Objects e).InputData := by
  by_cases hcr : s.Crashed = true
  · rw [step_dead_process s op hcr]
  rw [step_alive s op (by simpa using hcr)]
  cases op with
  | Activate x =>
    simp only [perform]
    by_cases hx : e = x
    · subst hx
      rcases Activate_cases e s with ⟨-, hA⟩ | ⟨-, -, hA⟩ | ⟨-, -, hA⟩ <;> rw [hA]
      · simp [exited, rejected]
      · simp [exited, accepted]
      · simp [issued, RegisterAsyncLineTrace_Objects, accepted]
    · rw [Activate_Objects_ne x e s hx]
  | Cancel x =>
    simp only [perform]
    rw [CancelAsyncLineTrace_eq]
    by_cases hx : e = x
    · subst hx; simp
    · simp [hx]
  | Callback x d =>
    simp only [perform]
    by_cases hx : e = x
    · subst hx
      rcases DeliverCallback_cases e d s with ⟨-, hD⟩ | ⟨-, -, -, hD⟩ | ⟨-, -, -, hD⟩ <;>
        rw [hD]
      · simp [halted, dequeued]
      · obtain ⟨hits, evs, -, -, -, -, hacc⟩ := accumulated_eq e d (dequeued e s)
        rcases requested_outcome e ((accumulated e d (dequeued e s)).emit (Event.Requested e))
          with ⟨-, -, -, hR⟩ | ⟨-, evs2, -, -, hR⟩ <;> rw [hR, hacc]
        · simp [issued, bumped, dequeued, State.emit]
        · simp [exited, bumped, dequeued, State.emit]
    · rw [DeliverCallback_Objects_ne x e d s hx]
  | GetCurrentHitsByID i => rfl
  | CancelByID i =>
    simp only [perform]
    obtain ⟨h1, -⟩ := cancelByID_fold i s.ActiveAsyncLineTraces s
    unfold CancelAsyncLineTracesByID
    rw [h1 e]
  | CancelAll =>
    simp only [perform]
    obtain ⟨h1, -⟩ := CancelAll_frame s
    rw [h1 e]
  | SceneLost c => rfl

/-- Every operation keeps the index invariant. -/
theorem step_IndexInvariant (op : Op) (s : State) (hI : IndexInvariant s) :
    IndexInvariant (step s op) := by
  intro e
  rw [step_InputData]
  by_cases hcr : s.Crashed = true
  · rw [step_dead_process s op hcr]
    exact hI e
  rw [step_alive s op (by simpa using hcr)]
  cases op with
  | Activate x =>
    simp only [perform]
    by_cases hx : e = x
    · subst hx
      rcases Activate_cases e s with ⟨-, hA⟩ | ⟨-, -, hA⟩ | ⟨ha, -, hA⟩ <;> rw [hA]
      · have := (hI e).1
        simpa [exited, rejected] using this
      · simp [exited, accepted]
      · simp only [activatable, Bool.and_eq_true, Bool.not_eq_true', decide_eq_true_eq] at ha
        have hpos := ha.1.2
        simp [issued, RegisterAsyncLineTrace_Objects, accepted, hpos]
    · rw [Activate_Objects_ne x e s hx]
      exact hI e
  | Cancel x =>
    simp only [perform]
    rw [CancelAsyncLineTrace_eq]
    by_cases hx : e = x
    · subst hx
      simpa using hI e
    · simpa [hx] using hI e
  | Callback x d =>
    simp only [perform]
    by_cases hx : e = x
    · subst hx
      rcases DeliverCallback_cases e d s with ⟨-, hD⟩ | ⟨-, -, -, hD⟩ | ⟨-, -, -, hD⟩ <;>
        rw [hD]
      · exact hI e
      · simpa [halted, dequeued] using hI e
      · obtain ⟨hits, evs, -, -, -, -, hacc⟩ := accumulated_eq e d (dequeued e s)
        have h0 := (hI e).1
        rcases requested_outcome e ((accumulated e d (dequeued e s)).emit (Event.Requested e))
          with ⟨-, -, hlt, hR⟩ | ⟨-, evs2, -, -, hR⟩ <;> rw [hR]
        · rw [hacc] at hlt ⊢
          simp only [State.emit, dequeued, Function.update_same] at hlt
          simp only [issued, bumped, dequeued, State.emit, Function.update_same,
            Function.update_idem]
          exact ⟨by omega, fun _ => hlt⟩
        · rw [hacc]
          simp only [exited, bumped, dequeued, State.emit, Function.update_same,
            Function.update_idem]
          exact ⟨by omega, fun h => by cases h⟩
    · rw [DeliverCallback_Objects_ne x e d s hx]
      exact hI e
  | GetCurrentHitsByID i => exact hI e
  | CancelByID i =>
    simp only [perform]
    obtain ⟨h1, -⟩ := cancelByID_fold i s.ActiveAsyncLineTraces s
    unfold CancelAsyncLineTracesByID
    rw [h1 e]
    exact hI e
  | CancelAll =>
    simp only [perform]
    obtain ⟨h1, -⟩ := CancelAll_frame s
    rw [h1 e]
    exact hI e
  | SceneLost c => exact hI e

/-- Every query issued by an operation is for a segment index within the request of its
engine: the lookup of `SetCurrentTraceStartEnd` that precedes it is in range. -/
theorem step_queries_in_bounds (op : Op) (s : State) (hI : IndexInvariant s) :
    ∃ new, (step s op).Events = s.Events ++ new ∧
      ∀ q ∈ queriesOf new, 0 ≤ q.Segment ∧
        q.Segment < (s.Objects q.Owner).InputData.StartAndEndLocations.length := by
  by_cases hcr : s.Crashed = true
  · rw [step_dead_process s op hcr]
    exact ⟨[], by simp, by simp [queriesOf]⟩
  rw [step_alive s op (by simpa using hcr)]
  cases op with
  | Activate x =>
    obtain ⟨-, -, new, hE, hQ⟩ := Activate_effect x s
    refine ⟨new, hE, ?_⟩
    intro q hq
    obtain ⟨ho, hs, hpos⟩ := hQ q hq
    rw [ho, hs]
    exact ⟨le_refl _, by exact_mod_cast hpos⟩
  | Cancel x =>
    simp only [perform]
    rw [CancelAsyncLineTrace_eq]
    exact ⟨[Event.Log ELogVerbosity.Warning EDiagnostic.Cancelled], rfl, by simp [queriesOf]⟩
  | Callback x d =>
    obtain ⟨-, -, new, hE, hQ⟩ := DeliverCallback_effect x d s
    refine ⟨new, hE, ?_⟩
    intro q hq
    obtain ⟨ho, hs, hlt, -, -⟩ := hQ q hq
    have h0 := (hI x).1
    rw [ho, hs]
    exact ⟨by omega, hlt⟩
  | GetCurrentHitsByID i =>
    exact ⟨[], by simp [perform, GetCurrentHitsByID], by simp [queriesOf]⟩
  | CancelByID i =>
    obtain ⟨-, -, -, -, -, -, n, h7⟩ := cancelByID_fold i s.ActiveAsyncLineTraces s
    exact ⟨_, h7, by simp [queriesOf_replicate_log]⟩
  | CancelAll =>
    obtain ⟨-, -, -, -, -, -, -, n, h7⟩ := CancelAll_frame s
    exact ⟨_, h7, by simp [queriesOf_replicate_log]⟩
  | SceneLost c =>
    exact ⟨[], by simp [perform, SceneLost], by simp [queriesOf]⟩

theorem run_IndexInvariant (ops : List Op) :
    ∀ (s : State), IndexInvariant s →
      IndexInvariant (run ops s) ∧
      (∀ e, ((run ops s).Objects e).InputData = (s.Objects e).InputData) ∧
      ∃ new, (run ops s).Events = s.Events ++ new ∧
        ∀ q ∈ queriesOf new, 0 ≤ q.Segment ∧
          q.Segment < (s.Objects q.Owner).InputData.StartAndEndLocations.length := by
  induction ops with
  | nil =>
    intro s hI
    exact ⟨hI, fun _ => rfl, [], by simp [run], by simp [queriesOf]⟩
  | cons op ops ih =>
    intro s hI
    obtain ⟨new1, hE1, hQ1⟩ := step_queries_in_bounds op s hI
    obtain ⟨hI2, hD2, new2, hE2, hQ2⟩ := ih (step s op) (step_IndexInvariant op s hI)
    have hrun : run (op :: ops) s = run ops (step s op) := rfl
    rw [hrun]
    refine ⟨hI2, fun e => by rw [hD2 e, step_InputData], new1 ++ new2,
      by rw [hE2, hE1, List.append_assoc], ?_⟩
    intro q hq
    rw [queriesOf_append, List.mem_append] at hq
    rcases hq with hq | hq
    · exact hQ1 q hq
    · have := hQ2 q hq
      rw [step_InputData] at this
      exact this

theorem Fresh_index (o : UAsyncLineTrace) (h : Fresh o) : o.CurrentTraceIndex = 0 := by
  obtain ⟨t, d, ⟨ch, rfl⟩ | ⟨pr, rfl⟩ | ⟨ot, rfl⟩⟩ := h <;> rfl

theorem Initial_IndexInvariant (s : State) (h : Initial s) : IndexInvariant s := by
  intro e
  rw [Fresh_index _ (h.1 e), Fresh_not_in_progress _ (h.1 e)]
  exact ⟨le_refl _, fun h => by cases h⟩

/-- When the segment-completed notification of an engine in progress fires in a state
that satisfies both invariants, the trace ends exactly when the incremented index
equals the number of segments or cancellation was requested. -/
theorem Requested_terminates_iff (e : Nat) (s : State) (hI : IndexInvariant s)
    (hR : RegistryInvariant s) (hp : (s.Objects e).bTraceInProgress = true) :
    ((OnRequestedAsyncTrace e s).Objects e).bTraceInProgress = false ↔
      ((s.Objects e).CurrentTraceIndex + 1 =
          (s.Objects e).InputData.StartAndEndLocations.length ∨
        (s.Objects e).bCalledCancel = true) := by
  have hlt := (hI e).2 hp
  have hw := ((hR e).2 hp).2.1
  rw [OnRequestedAsyncTrace_eq]
  rcases requested_outcome e (s.emit (Event.Requested e))
    with ⟨hnc, -, hlt1, hQ⟩ | ⟨hcond, evs, -, -, hQ⟩ <;> rw [hQ]
  · simp only [State.emit] at hnc hlt1
    constructor
    · intro h
      simp [issued, bumped, State.emit, hp] at h
    · rintro (h | h)
      · omega
      · rw [hnc] at h; cases h
  · simp only [State.emit] at hcond
    constructor
    · intro _
      rcases hcond with h | h | h
      · exact Or.inr h
      · rw [hw] at h; cases h
      · left; omega
    · intro _
      simp [exited]

/-- C17: in every state reached from freshly constructed engines and an empty registry
by any sequence of operations, an engine in progress has a segment index that is at
least 0 and less than the number of segments of its request; every query ever issued is
for an index within the request of its engine, so every segment lookup of a
`Process...` function is in range; and, when no scene context was lost, the
`Request...` handler of an engine in progress ends the trace exactly when the
incremented index equals the number of segments or cancellation was requested. -/
theorem index_within_request (s0 : State) (ops : List Op) (h0 : Initial s0) (e : Nat) :
    (((run ops s0).Objects e).bTraceInProgress = true →
      0 ≤ ((run ops s0).Objects e).CurrentTraceIndex ∧
      ((run ops s0).Objects e).CurrentTraceIndex <
        ((run ops s0).Objects e).InputData.StartAndEndLocations.length) ∧
    (∀ q ∈ queriesOf (eventsSince s0 (run ops s0)), 0 ≤ q.Segment ∧
      q.Segment < ((run ops s0).Objects q.Owner).InputData.StartAndEndLocations.length) ∧
    ((∀ op ∈ ops, op.isSceneLost = false) →
      ((run ops s0).Objects e).bTraceInProgress = true →
      (((OnRequestedAsyncTrace e (run ops s0)).Objects e).bTraceInProgress = false ↔
        (((run ops s0).Objects e).CurrentTraceIndex + 1 =
            ((run ops s0).Objects e).InputData.StartAndEndLocations.length ∨
          ((run ops s0).Objects e).bCalledCancel = true))) := by
  obtain ⟨hI, hD, new, hE, hQ⟩ := run_IndexInvariant ops s0 (Initial_IndexInvariant s0 h0)
  refine ⟨fun hp => ⟨(hI e).1, (hI e).2 hp⟩, ?_, ?_⟩
  · intro q hq
    rw [eventsSince_append s0 _ _ hE] at hq
    rw [hD]
    exact hQ q hq
  · intro hops hp
    exact Requested_terminates_iff e _ hI
      (run_RegistryInvariant ops s0 (Initial_RegistryInvariant s0 h0) hops) hp

/-- C17 (witness): after the first callback of a three-segment trace the index is 1. -/
theorem index_within_request_witness :
    0 ≤ ((run [Op.Activate 0, Op.Callback 0 ⟨[]⟩] (multiState 3)).Objects 0).CurrentTraceIndex ∧
    ((run [Op.Activate 0, Op.Callback 0 ⟨[]⟩] (multiState 3)).Objects 0).CurrentTraceIndex <
      ((run [Op.Activate 0, Op.Callback 0 ⟨[]⟩]
        (multiState 3)).Objects 0).InputData.StartAndEndLocations.length :=
  (index_within_request (multiState 3) [Op.Activate 0, Op.Callback 0 ⟨[]⟩]
    ⟨fun _ => ⟨ETraceTypeCustom.Multi, exampleRequest 3, Or.inl ⟨0, rfl⟩⟩, rfl, rfl⟩ 0).1
    (by decide)

/-! ## C18 -/

theorem visible_visible (ev : Event) : (Event.visible ev).bind Event.visible = Event.visible ev := by
  cases ev <;> rfl

theorem filterMap_visible_idem (l : List Event) :
    (l.filterMap Event.visible).filterMap Event.visible = l.filterMap Event.visible := by
  rw [List.filterMap_filterMap]
  congr 1
  funext ev
  exact visible_visible ev

theorem query_core_core (q : FTraceQuery) : q.core.core = q.core := rfl

theorem object_core_core (o : UAsyncLineTrace) : o.core.core = o.core := rfl

theorem map_core_idem (l : List FTraceQuery) :
    (l.map FTraceQuery.core).map FTraceQuery.core = l.map FTraceQuery.core := by
  rw [List.map_map]
  rfl

/-- Two states have the same erasure when they agree on every component up to class,
selectors and diagnostics. -/
theorem core_ext (a b : State)
    (h1 : ∀ e, (a.Objects e).core = (b.Objects e).core)
    (h2 : a.ActiveAsyncLineTraces = b.ActiveAsyncLineTraces)
    (h3 : a.WorldLive = b.WorldLive) (h4 : a.HasSubsystem = b.HasSubsystem)
    (h5 : a.ActorLocation = b.ActorLocation)
    (h6 : a.ConvertToCollisionChannel = b.ConvertToCollisionChannel)
    (h7 : a.NextHandle = b.NextHandle) (hc : a.Crashed = b.Crashed)
    (h8 : a.InFlight.map FTraceQuery.core = b.InFlight.map FTraceQuery.core)
    (h9 : a.Events.filterMap Event.visible = b.Events.filterMap Event.visible) :
    a.core = b.core := by
  unfold State.core
  rw [h2, h3, h4, h5, h6, h7, h8, h9, hc]
  congr 1
  funext e
  exact h1 e

theorem core_core (s : State) : s.core.core = s.core :=
  core_ext _ _ (fun _ => rfl) rfl rfl rfl rfl rfl rfl rfl (map_core_idem _)
    (filterMap_visible_idem _)

/-- Functions that commute with the erasure compose. -/
theorem core_comp (f g : State → State) (hf : ∀ s, (f s).core = (f s.core).core)
    (hg : ∀ s, (g s).core = (g s.core).core) (s : State) :
    (f (g s)).core = (f (g s.core)).core := by
  rw [hf (g s), hg s, ← hf]

theorem update_core (f : Nat → UAsyncLineTrace) (x e : Nat) (v w : UAsyncLineTrace)
    (h : v.core = w.core) :
    (Function.update f x v e).core = (Function.update (fun e => (f e).core) x w e).core := by
  by_cases he : e = x
  · subst he; simp [h]
  · simp [he, object_core_core]

theorem core_emit (ev : Event) (s : State) : (s.emit ev).core = (s.core.emit ev).core :=
  core_ext _ _ (fun _ => rfl) rfl rfl rfl rfl rfl rfl rfl (map_core_idem _).symm
    (by simp [State.emit, State.core, List.filterMap_append, filterMap_visible_idem])

theorem core_exited (x : Nat) (s : State) : (exited x s).core = (exited x s.core).core :=
  core_ext _ _ (fun _ => update_core _ _ _ _ _ rfl) rfl rfl rfl rfl rfl rfl rfl
    (map_core_idem _).symm
    (by simp [exited, State.core, List.filterMap_append, filterMap_visible_idem,
      UAsyncLineTrace.core])

theorem core_bumped (x : Nat) (s : State) : (bumped x s).core = (bumped x s.core).core :=
  core_ext _ _ (fun _ => update_core _ _ _ _ _ rfl) rfl rfl rfl rfl rfl rfl rfl
    (map_core_idem _).symm (filterMap_visible_idem _).symm

theorem core_dequeued (x : Nat) (s : State) : (dequeued x s).core = (dequeued x s.core).core := by
  refine core_ext _ _ (fun _ => rfl) rfl rfl rfl rfl rfl rfl rfl ?_ (filterMap_visible_idem _).symm
  have h : ∀ l : List FTraceQuery,
      (removeFirstOwned x l).map FTraceQuery.core =
        removeFirstOwned x (l.map FTraceQuery.core) := by
    intro l
    induction l with
    | nil => rfl
    | cons q l ih =>
      by_cases hq : q.Owner = x
      · simp [removeFirstOwned, hq, FTraceQuery.core]
      · have hq2 : ¬ q.core.Owner = x := hq
        simp only [removeFirstOwned, List.map_cons, if_neg hq, if_neg hq2, ih]
  simp only [dequeued, State.core]
  rw [h, h, map_core_idem]

theorem visible_diagnosis (o : UAsyncLineTrace) : (diagnosis o).filterMap Event.visible = [] := by
  unfold diagnosis
  split
  · split_ifs <;> rfl
  · rfl

theorem core_diagnosed (x : Nat) (s : State) :
    (diagnosed x s).core = (diagnosed x s.core).core :=
  core_ext _ _ (fun _ => rfl) rfl rfl rfl rfl rfl rfl rfl (map_core_idem _).symm
    (by simp [diagnosed, State.core, List.filterMap_append, filterMap_visible_idem,
      visible_diagnosis])

theorem visible_rejection (x : Nat) (s : State) : Event.visible (rejection x s) = none := by
  obtain ⟨v, m, h⟩ := rejection_is_log x s
  rw [h]; rfl

theorem core_rejected (x : Nat) (s : State) : (rejected x s).core = (rejected x s.core).core :=
  core_ext _ _ (fun _ => update_core _ _ _ _ _ rfl) rfl rfl rfl rfl rfl rfl rfl
    (map_core_idem _).symm
    (by
      show (s.Events ++ [rejection x s, Event.Log ELogVerbosity.Error EDiagnostic.CantStart,
          Event.Exited x]).filterMap Event.visible =
        ((s.Events.filterMap Event.visible) ++ [rejection x s.core,
          Event.Log ELogVerbosity.Error EDiagnostic.CantStart,
          Event.Exited x]).filterMap Event.visible
      rw [List.filterMap_append, List.filterMap_append, filterMap_visible_idem,
        List.filterMap_cons_none (visible_rejection x s),
        List.filterMap_cons_none (visible_rejection x s.core)])

theorem core_accepted (x : Nat) (s : State) : (accepted x s).core = (accepted x s.core).core :=
  core_ext _ _ (fun _ => update_core _ _ _ _ _ rfl) rfl rfl rfl rfl rfl rfl rfl
    (map_core_idem _).symm
    (by simp [accepted, State.core, List.filterMap_append, filterMap_visible_idem,
      Event.visible])

theorem RegisterAsyncLineTrace_world (p : Option Nat) (s : State) :
    (RegisterAsyncLineTrace p s).ActorLocation = s.ActorLocation ∧
    (RegisterAsyncLineTrace p s).ConvertToCollisionChannel = s.ConvertToCollisionChannel := by
  unfold RegisterAsyncLineTrace; split_ifs <;> exact ⟨rfl, rfl⟩

theorem core_Register (p : Option Nat) (s : State) :
    (RegisterAsyncLineTrace p s).core = (RegisterAsyncLineTrace p s.core).core := by
  refine core_ext _ _ ?_ ?_ ?_ ?_ ?_ ?_ ?_ ?_ ?_ ?_
  · intro e
    rw [RegisterAsyncLineTrace_Objects, RegisterAsyncLineTrace_Objects]
    rfl
  · rw [RegisterAsyncLineTrace_registry, RegisterAsyncLineTrace_registry]
    rfl
  · rw [RegisterAsyncLineTrace_WorldLive, RegisterAsyncLineTrace_WorldLive]
    rfl
  · rw [RegisterAsyncLineTrace_HasSubsystem, RegisterAsyncLineTrace_HasSubsystem]
    rfl
  · rw [(RegisterAsyncLineTrace_world p s).1, (RegisterAsyncLineTrace_world p s.core).1]
    rfl
  · rw [(RegisterAsyncLineTrace_world p s).2, (RegisterAsyncLineTrace_world p s.core).2]
    rfl
  · rw [RegisterAsyncLineTrace_NextHandle, RegisterAsyncLineTrace_NextHandle]
    rfl
  · rw [RegisterAsyncLineTrace_Crashed, RegisterAsyncLineTrace_Crashed]
    rfl
  · rw [RegisterAsyncLineTrace_InFlight, RegisterAsyncLineTrace_InFlight]
    exact (map_core_idem _).symm
  · rw [RegisterAsyncLineTrace_Events, RegisterAsyncLineTrace_Events]
    exact (filterMap_visible_idem _).symm

theorem keptHits_core (x : Nat) (s : State) (r : List FHitResult) :
    keptHits (s.core.Objects x).TraceType r = keptHits (s.Objects x).TraceType r := rfl

theorem visible_hitEffects (d : FAsyncTraceInputData) (hit : FHitResult) :
    (hitEffects d hit).filterMap Event.visible = hitEffects d hit := by
  unfold hitEffects
  split_ifs <;> rfl

theorem visible_flatMap_hitEffects (d : FAsyncTraceInputData) (hits : List FHitResult) :
    (hits.flatMap (hitEffects d)).filterMap Event.visible = hits.flatMap (hitEffects d) := by
  induction hits with
  | nil => rfl
  | cons h hs ih => simp [List.flatMap_cons, List.filterMap_append, visible_hitEffects, ih]

theorem visible_callbackEffects (o : UAsyncLineTrace) (r : List FHitResult) :
    (callbackEffects o r).filterMap Event.visible = callbackEffects o r := by
  unfold callbackEffects
  rw [List.filterMap_append, visible_flatMap_hitEffects]
  split_ifs <;> rfl

theorem callbackEffects_core (o : UAsyncLineTrace) (r : List FHitResult) :
    callbackEffects o.core r = callbackEffects o r := rfl

theorem core_accumulated (x : Nat) (d : FTraceDatum) (s : State) :
    (accumulated x d s).core = (accumulated x d s.core).core := by
  unfold accumulated
  by_cases hw : GetWorld s.WorldLive (s.Objects x).WorldContextObject = true
  · have hwc : GetWorld s.core.WorldLive (s.core.Objects x).WorldContextObject = true := hw
    rw [if_pos hw, if_pos hwc]
    exact core_ext _ _ (fun _ => update_core _ _ _ _ _ rfl) rfl rfl rfl rfl rfl rfl rfl
      (map_core_idem _).symm
      (by
        show (s.Events ++ callbackEffects (s.Objects x) d.OutHits).filterMap Event.visible =
          ((s.Events.filterMap Event.visible) ++
            callbackEffects (s.Objects x) d.OutHits).filterMap Event.visible
        simp [List.filterMap_append, filterMap_visible_idem])
  · have hwc : ¬ GetWorld s.core.WorldLive (s.core.Objects x).WorldContextObject = true := hw
    rw [if_neg hw, if_neg hwc, core_core]

theorem core_issued (x : Nat) (s : State) : (issued x s).core = (issued x s.core).core :=
  core_ext _ _ (fun _ => update_core _ _ _ _ _ rfl) rfl rfl rfl rfl rfl rfl rfl
    (by
      show (s.InFlight ++ [queryOf x s (s.Objects x)]).map FTraceQuery.core =
        ((s.InFlight.map FTraceQuery.core) ++
          [queryOf x s.core (s.core.Objects x)]).map FTraceQuery.core
      simp only [List.map_append, map_core_idem]
      rfl)
    (by
      show (s.Events ++ [Event.Query (queryOf x s (s.Objects x))]).filterMap Event.visible =
        ((s.Events.filterMap Event.visible) ++
          [Event.Query (queryOf x s.core (s.core.Objects x))]).filterMap Event.visible
      simp only [List.filterMap_append, filterMap_visible_idem]
      rfl)

theorem core_halted (x : Nat) (d : FTraceDatum) (s : State) :
    (halted x d s).core = (halted x d s.core).core :=
  core_ext _ _ (fun _ => update_core _ _ _ _ _ rfl) rfl rfl rfl rfl rfl rfl rfl
    (map_core_idem _).symm
    (by
      show (s.Events ++
          ((if (s.Objects x).InputData.bDebugDraw = true then
            [Event.DrawLine (s.Objects x).CurrentTraceStart (s.Objects x).CurrentTraceEnd
              (s.Objects x).InputData.TraceColor (s.Objects x).InputData.DrawTime]
           else []) ++
          (beforeNull (keptHits (s.Objects x).TraceType d.OutHits)).flatMap
            (hitEffects (s.Objects x).InputData))).filterMap Event.visible =
        ((s.Events.filterMap Event.visible) ++
          ((if (s.Objects x).InputData.bDebugDraw = true then
            [Event.DrawLine (s.Objects x).CurrentTraceStart (s.Objects x).CurrentTraceEnd
              (s.Objects x).InputData.TraceColor (s.Objects x).InputData.DrawTime]
           else []) ++
          (beforeNull (keptHits (s.Objects x).TraceType d.OutHits)).flatMap
            (hitEffects (s.Objects x).InputData))).filterMap Event.visible
      simp only [List.filterMap_append, filterMap_visible_idem])

theorem core_processed (x : Nat) (s : State) :
    (processed x s).core = (processed x s.core).core := by
  unfold processed
  by_cases hw : GetWorld s.WorldLive (s.Objects x).WorldContextObject = true
  · have hwc : GetWorld s.core.WorldLive (s.core.Objects x).WorldContextObject = true := hw
    rw [if_pos hw, if_pos hwc]
    exact core_issued x s
  · have hwc : ¬ GetWorld s.core.WorldLive (s.core.Objects x).WorldContextObject = true := hw
    rw [if_neg hw, if_neg hwc]
    exact core_comp (exited x) (diagnosed x) (core_exited x) (core_diagnosed x) s

theorem core_requested (x : Nat) (s : State) :
    (requested x s).core = (requested x s.core).core := by
  unfold requested
  by_cases h : (s.Objects x).CurrentTraceIndex + 1 <
      (s.Objects x).InputData.StartAndEndLocations.length ∧ (s.Objects x).bCalledCancel = false
  · have hc : (s.core.Objects x).CurrentTraceIndex + 1 <
        (s.core.Objects x).InputData.StartAndEndLocations.length ∧
        (s.core.Objects x).bCalledCancel = false := h
    rw [if_pos h, if_pos hc]
    exact core_comp (processed x) (bumped x) (core_processed x) (core_bumped x) s
  · have hc : ¬ ((s.core.Objects x).CurrentTraceIndex + 1 <
        (s.core.Objects x).InputData.StartAndEndLocations.length ∧
        (s.core.Objects x).bCalledCancel = false) := h
    rw [if_neg h, if_neg hc]
    exact core_comp (exited x) (bumped x) (core_exited x) (core_bumped x) s

theorem core_started (x : Nat) (s : State) :
    (started x s).core = (started x s.core).core := by
  unfold started
  by_cases h : Get s (s.Objects x).WorldContextObject = false
  · have hc : Get s.core (s.core.Objects x).WorldContextObject = false := h
    rw [if_pos h, if_pos hc]
    exact core_exited x s
  · have hc : ¬ Get s.core (s.core.Objects x).WorldContextObject = false := h
    rw [if_neg h, if_neg hc]
    exact core_comp (processed x) (RegisterAsyncLineTrace (some x)) (core_processed x)
      (core_Register (some x)) s

theorem core_Activate (x : Nat) (s : State) :
    (Activate x s).core = (Activate x s.core).core := by
  rw [Activate_eq, Activate_eq]
  have ha : activatable x s.core = activatable x s := rfl
  rw [ha]
  by_cases h : activatable x s = true
  · rw [if_pos h, if_pos h]
    exact core_comp (started x) (accepted x) (core_started x) (core_accepted x) s
  · rw [if_neg h, if_neg h]
    exact core_comp (exited x) (rejected x) (core_exited x) (core_rejected x) s

theorem outstanding_core (x : Nat) (s : State) : outstanding x s.core = outstanding x s := by
  simp only [outstanding, State.core]
  induction s.InFlight with
  | nil => rfl
  | cons q l ih =>
    by_cases hq : q.Owner = x
    · have hq2 : q.core.Owner = x := hq
      simp [List.filter_cons, hq, hq2, ih]
    · have hq2 : ¬ q.core.Owner = x := hq
      simp [List.filter_cons, hq, hq2, ih]

theorem core_DeliverCallback (x : Nat) (d : FTraceDatum) (s : State) :
    (DeliverCallback x d s).core = (DeliverCallback x d s.core).core := by
  by_cases hc : s.Crashed = true
  · rw [DeliverCallback_dead x d s hc, DeliverCallback_dead x d s.core hc, core_core]
  have hc' : s.Crashed = false := by simpa using hc
  by_cases h : outstanding x s = 0
  · rw [DeliverCallback_idle x d s h,
      DeliverCallback_idle x d s.core (by rw [outstanding_core]; exact h), core_core]
  by_cases hx : GetWorld s.WorldLive (s.Objects x).WorldContextObject = true ∧
      derefsNull (s.Objects x) d.OutHits = true
  · rw [DeliverCallback_halt x d s h hc' hx.1 hx.2,
      DeliverCallback_halt x d s.core (by rw [outstanding_core]; exact h) hc' hx.1 hx.2]
    exact core_comp (halted x d) (dequeued x) (core_halted x d) (core_dequeued x) s
  · have hn : GetWorld s.WorldLive (s.Objects x).WorldContextObject = false ∨
        derefsNull (s.Objects x) d.OutHits = false := by
      by_cases hw : GetWorld s.WorldLive (s.Objects x).WorldContextObject = true
      · right
        cases hD : derefsNull (s.Objects x) d.OutHits
        · rfl
        · exact absurd ⟨hw, hD⟩ hx
      · left; simpa using hw
    rw [DeliverCallback_eq x d s h hc' hn,
      DeliverCallback_eq x d s.core (by rw [outstanding_core]; exact h) hc' hn]
    exact core_comp (requested x) (fun t => (accumulated x d (dequeued x t)).emit (Event.Requested x))
      (core_requested x)
      (core_comp (fun t => State.emit t (Event.Requested x)) (fun t => accumulated x d (dequeued x t))
        (core_emit (Event.Requested x))
        (core_comp (accumulated x d) (dequeued x) (core_accumulated x d) (core_dequeued x))) s

theorem core_Cancel (x : Nat) (s : State) :
    (CancelAsyncLineTrace x s).core = (CancelAsyncLineTrace x s.core).core := by
  rw [CancelAsyncLineTrace_eq, CancelAsyncLineTrace_eq]
  exact core_ext _ _ (fun _ => update_core _ _ _ _ _ rfl) rfl rfl rfl rfl rfl rfl rfl
    (map_core_idem _).symm
    (by
      show (s.Events ++ [Event.Log ELogVerbosity.Warning EDiagnostic.Cancelled]).filterMap
          Event.visible =
        ((s.Events.filterMap Event.visible) ++
          [Event.Log ELogVerbosity.Warning EDiagnostic.Cancelled]).filterMap Event.visible
      simp only [List.filterMap_append, filterMap_visible_idem])

theorem core_cancelByID_fold (InID : Nat) (l : List (Option Nat)) :
    ∀ (s : State),
      (l.foldl (fun (st : State) (asyncTrace : Option Nat) =>
        match asyncTrace with
        | some t =>
          if (st.Objects t).CurrentTraceID = InID then CancelAsyncLineTrace t st
          else st
        | none => st) s).core =
      (l.foldl (fun (st : State) (asyncTrace : Option Nat) =>
        match asyncTrace with
        | some t =>
          if (st.Objects t).CurrentTraceID = InID then CancelAsyncLineTrace t st
          else st
        | none => st) s.core).core := by
  induction l with
  | nil => intro s; exact (core_core s).symm
  | cons p l ih =>
    intro s
    simp only [List.foldl_cons]
    cases p with
    | none => exact ih s
    | some t =>
      by_cases ht : (s.Objects t).CurrentTraceID = InID
      · have htc : (s.core.Objects t).CurrentTraceID = InID := ht
        simp only [ht, htc, if_true]
        rw [ih (CancelAsyncLineTrace t s), core_Cancel t s, ← ih]
      · have htc : ¬ (s.core.Objects t).CurrentTraceID = InID := ht
        simp only [ht, htc, if_false]
        exact ih s

theorem core_cancelAll_fold (l : List (Option Nat)) :
    ∀ (s : State),
      (l.foldl (fun (st : State) (asyncTrace : Option Nat) =>
        match asyncTrace with
        | some t => CancelAsyncLineTrace t st
        | none => st) s).core =
      (l.foldl (fun (st : State) (asyncTrace : Option Nat) =>
        match asyncTrace with
        | some t => CancelAsyncLineTrace t st
        | none => st) s.core).core := by
  induction l with
  | nil => intro s; exact (core_core s).symm
  | cons p l ih =>
    intro s
    simp only [List.foldl_cons]
    cases p with
    | none => exact ih s
    | some t => rw [ih (CancelAsyncLineTrace t s), core_Cancel t s, ← ih]

/-- Every operation commutes with the erasure of class, selectors and diagnostics. -/
theorem core_step (op : Op) (s : State) : (step s op).core = (step s.core op).core := by
  by_cases hc : s.Crashed = true
  · rw [step_dead_process s op hc, step_dead_process s.core op hc, core_core]
  have hc' : s.Crashed = false := by simpa using hc
  rw [step_alive s op hc', step_alive s.core op hc']
  cases op with
  | Activate x => exact core_Activate x s
  | Cancel x => exact core_Cancel x s
  | Callback x d => exact core_DeliverCallback x d s
  | GetCurrentHitsByID i => exact (core_core s).symm
  | CancelByID i => exact core_cancelByID_fold i s.ActiveAsyncLineTraces s
  | CancelAll => exact core_cancelAll_fold s.ActiveAsyncLineTraces s
  | SceneLost c =>
    exact core_ext _ _ (fun _ => rfl) rfl rfl rfl rfl rfl rfl rfl (map_core_idem _).symm
      (filterMap_visible_idem _).symm

theorem core_run (ops : List Op) :
    ∀ (s1 s2 : State), s1.core = s2.core → (run ops s1).core = (run ops s2).core := by
  induction ops with
  | nil => intro s1 s2 h; exact h
  | cons op ops ih =>
    intro s1 s2 h
    have h1 : run (op :: ops) s1 = run ops (step s1 op) := rfl
    have h2 : run (op :: ops) s2 = run ops (step s2 op) := rfl
    rw [h1, h2]
    apply ih
    rw [core_step op s1, core_step op s2, h]

theorem AlikeUpToDiagnostics_of_core (a b : State) (h : a.core = b.core) : AlikeUpToDiagnostics a b := by
  have hO : ∀ e, (a.Objects e).core = (b.Objects e).core := fun e =>
    congrFun (congrArg State.Objects h) e
  have hR : a.core.ActiveAsyncLineTraces = b.core.ActiveAsyncLineTraces :=
    congrArg State.ActiveAsyncLineTraces h
  have hE : a.core.Events = b.core.Events := congrArg State.Events h
  have hF : a.core.InFlight = b.core.InFlight := congrArg State.InFlight h
  refine ⟨fun e => ⟨?_, ?_, ?_, ?_⟩, hR, hE, hF⟩
  · have := congrArg UAsyncLineTrace.bTraceInProgress (hO e)
    exact this
  · have := congrArg UAsyncLineTrace.CurrentTraceIndex (hO e)
    exact this
  · have := congrArg UAsyncLineTrace.OutHits (hO e)
    exact this
  · have := congrArg UAsyncLineTrace.bCalledCancel (hO e)
    exact this

theorem core_setObject (w : State) (e : Nat) (o1 o2 : UAsyncLineTrace) (h : o1.core = o2.core) :
    (w.setObject e o1).core = (w.setObject e o2).core := by
  refine core_ext _ _ ?_ rfl rfl rfl rfl rfl rfl rfl rfl rfl
  intro x
  simp only [State.setObject]
  by_cases hx : x = e
  · subst hx; simp [h]
  · simp [hx]

/-- Up to diagnostics the three variants are one state machine: put an engine of the
channel class, of the profile class or of the object-types class, built by its factory
from the same trace type and the same request, at the same address of the same world.
After any sequence of operations (activations, callbacks with any results, `Cancel`
calls, registry operations, scene losses, on this and on other engines) the three
systems agree (`AlikeUpToDiagnostics`) on in-progress flag, segment index, accumulated
hits and cancellation flag of every engine, on the registry, on the notifications,
completion events and debug effects fired and their order, and on the queries issued,
for the same segments with the same resolved start and end. -/
theorem variants_alike_up_to_diagnostics (t : ETraceTypeCustom) (d : FAsyncTraceInputData)
    (ch pr : Nat) (ot : List Nat) (w : State) (e : Nat) (ops : List Op) :
    AlikeUpToDiagnostics (run ops (w.setObject e (AsyncLineTraceChannel t ch d)))
      (run ops (w.setObject e (AsyncLineTraceProfile t pr d))) ∧
    AlikeUpToDiagnostics (run ops (w.setObject e (AsyncLineTraceChannel t ch d)))
      (run ops (w.setObject e (AsyncLineTraceObjects t ot d))) :=
  ⟨AlikeUpToDiagnostics_of_core _ _ (core_run ops _ _ (core_setObject w e _ _ rfl)),
    AlikeUpToDiagnostics_of_core _ _ (core_run ops _ _ (core_setObject w e _ _ rfl))⟩

/-- An `Exit...` call keeps the membership invariant when it starts from a state that
differs from an invariant state only in fields of the exiting engine, whose context is
the one of its request once it is a member. -/
theorem MembershipInvariant_exited (x : Nat) (b s : State) (hI : MembershipInvariant s)
    (hWL : b.WorldLive = s.WorldLive) (hHS : b.HasSubsystem = s.HasSubsystem)
    (hReg : b.ActiveAsyncLineTraces = s.ActiveAsyncLineTraces)
    (hOth : ∀ e, e ≠ x → b.Objects e = s.Objects e)
    (hx : some x ∈ s.ActiveAsyncLineTraces →
      (b.Objects x).WorldContextObject = (b.Objects x).InputData.WorldContextObject) :
    MembershipInvariant (exited x b) := by
  intro e
  by_cases he : e = x
  · subst he
    constructor
    · intro h; simp [exited] at h
    · intro hmem
      have hg : ¬ Get b (b.Objects e).WorldContextObject = true := by
        intro hg
        simp only [exited, if_pos hg, List.mem_filter] at hmem
        simp at hmem
      have hmem0 : some e ∈ s.ActiveAsyncLineTraces := by
        simp only [exited, if_neg hg] at hmem
        rw [hReg] at hmem
        exact hmem
      obtain ⟨hs, -, -⟩ := (hI e).2 hmem0
      refine ⟨by simp [exited, hHS, hs], ?_, Or.inr ?_⟩
      · simpa [exited] using hx hmem0
      · rw [Get_eq, hHS, hs, Bool.and_true] at hg
        simpa [exited] using hg
  · have hobj : (exited x b).Objects e = s.Objects e := by
      simp [exited, he, hOth e he]
    have hmem : some e ∈ (exited x b).ActiveAsyncLineTraces ↔ some e ∈ s.ActiveAsyncLineTraces := by
      simp only [exited]
      split_ifs
      · rw [hReg]; simp [List.mem_filter, he]
      · rw [hReg]
    have hwl : (exited x b).WorldLive = s.WorldLive := by simp [exited, hWL]
    have hhs : (exited x b).HasSubsystem = s.HasSubsystem := by simp [exited, hHS]
    rw [hobj, hmem, hwl, hhs]
    exact hI e

/-- A state that agrees with an invariant state on registry, world and, for every
engine, on in-progress flag, context object and request, satisfies the invariant. -/
theorem MembershipInvariant_congr (b s : State) (hI : MembershipInvariant s)
    (hWL : b.WorldLive = s.WorldLive) (hHS : b.HasSubsystem = s.HasSubsystem)
    (hReg : b.ActiveAsyncLineTraces = s.ActiveAsyncLineTraces)
    (hP : ∀ e, (b.Objects e).bTraceInProgress = (s.Objects e).bTraceInProgress)
    (hW : ∀ e, (b.Objects e).WorldContextObject = (s.Objects e).WorldContextObject)
    (hD : ∀ e, (b.Objects e).InputData = (s.Objects e).InputData) :
    MembershipInvariant b := by
  intro e
  rw [hReg, hP e, hW e, hD e, hWL, hHS]
  exact hI e

/-- Every operation, the loss of a scene context included, keeps the membership
invariant. -/
theorem step_MembershipInvariant (op : Op) (s : State) (hI : MembershipInvariant s) :
    MembershipInvariant (step s op) := by
  by_cases hcr : s.Crashed = true
  · rw [step_dead_process s op hcr]
    exact hI
  rw [step_alive s op (by simpa using hcr)]
  cases op with
  | Activate x =>
    simp only [perform]
    rcases Activate_cases x s with ⟨-, hA⟩ | ⟨ha, hs, hA⟩ | ⟨ha, hs, hA⟩
    · rw [hA]
      refine MembershipInvariant_exited x (rejected x s) s hI rfl rfl rfl ?_ ?_
      · intro e he; simp [rejected, he]
      · intro _
        simp [rejected]
    · rw [hA]
      refine MembershipInvariant_exited x (accepted x s) s hI rfl rfl rfl ?_ ?_
      · intro e he; simp [accepted, he]
      · intro _
        simp [accepted]
    · rw [hA]
      obtain ⟨f1, f2, f3, f4, f5, f6⟩ :=
        issued_frame x (RegisterAsyncLineTrace (some x) (accepted x s))
      intro e
      rw [f1, f2, f3, f4 e, f5 e, f6 e, RegisterAsyncLineTrace_WorldLive,
        RegisterAsyncLineTrace_HasSubsystem, RegisterAsyncLineTrace_Objects]
      have hreg : ∀ p, p ∈ (RegisterAsyncLineTrace (some x) (accepted x s)).ActiveAsyncLineTraces ↔
          p = some x ∨ p ∈ s.ActiveAsyncLineTraces := by
        intro p
        simp only [RegisterAsyncLineTrace, accepted, Option.isSome_some, if_true]
        split_ifs with hm
        · constructor
          · intro h; exact Or.inr h
          · rintro (rfl | h)
            · exact hm
            · exact h
        · simp [or_comm]
      rw [hreg]
      by_cases he : e = x
      · subst he
        simp [accepted, hs]
      · have := hI e
        simp only [accepted, Function.update_noteq he]
        simpa [he] using this
  | Cancel x =>
    simp only [perform]
    rw [CancelAsyncLineTrace_eq]
    refine MembershipInvariant_congr _ s hI rfl rfl rfl ?_ ?_ ?_ <;> intro e <;>
      by_cases he : e = x
    · subst he; simp
    · simp [he]
    · subst he; simp
    · simp [he]
    · subst he; simp
    · simp [he]
  | Callback x d =>
    simp only [perform]
    rcases DeliverCallback_cases x d s with ⟨-, hD⟩ | ⟨-, -, -, hD⟩ | ⟨-, -, -, hD⟩
    · rw [hD]; exact hI
    · obtain ⟨hits, evs, -, -, hH⟩ := halted_eq x d (dequeued x s)
      rw [hD, hH]
      refine MembershipInvariant_congr _ s hI rfl rfl rfl ?_ ?_ ?_ <;> intro e <;>
        by_cases he : e = x
      · subst he; simp [dequeued]
      · simp [dequeued, he]
      · subst he; simp [dequeued]
      · simp [dequeued, he]
      · subst he; simp [dequeued]
      · simp [dequeued, he]
    · rw [hD]
      obtain ⟨hits, evs, -, -, -, -, hacc⟩ := accumulated_eq x d (dequeued x s)
      rcases requested_cases x ((accumulated x d (dequeued x s)).emit (Event.Requested x))
        with ⟨-, -, hR⟩ | ⟨-, hw, hR⟩ | hR
      · rw [hR]
        obtain ⟨f1, f2, f3, f4, f5, f6⟩ :=
          issued_frame x (bumped x ((accumulated x d (dequeued x s)).emit (Event.Requested x)))
        refine MembershipInvariant_congr _ s hI ?_ ?_ ?_ ?_ ?_ ?_
        · rw [f1, hacc]; rfl
        · rw [f2, hacc]; rfl
        · rw [f3, hacc]; rfl
        · intro e
          rw [f4 e, hacc]
          by_cases he : e = x
          · subst he; simp [bumped, State.emit, dequeued]
          · simp [bumped, State.emit, dequeued, he]
        · intro e
          rw [f5 e, hacc]
          by_cases he : e = x
          · subst he; simp [bumped, State.emit, dequeued]
          · simp [bumped, State.emit, dequeued, he]
        · intro e
          rw [f6 e, hacc]
          by_cases he : e = x
          · subst he; simp [bumped, State.emit, dequeued]
          · simp [bumped, State.emit, dequeued, he]
      · rw [hR]
        refine MembershipInvariant_exited x _ s hI ?_ ?_ ?_ ?_ ?_
        · rw [hacc]; rfl
        · rw [hacc]; rfl
        · rw [hacc]; rfl
        · intro e he
          rw [hacc]
          simp [diagnosed, bumped, State.emit, dequeued, he]
        · intro hm
          rw [hacc]
          simpa [diagnosed, bumped, State.emit, dequeued] using ((hI x).2 hm).2.1
      · rw [hR]
        refine MembershipInvariant_exited x _ s hI ?_ ?_ ?_ ?_ ?_
        · rw [hacc]; rfl
        · rw [hacc]; rfl
        · rw [hacc]; rfl
        · intro e he
          rw [hacc]
          simp [bumped, State.emit, dequeued, he]
        · intro hm
          rw [hacc]
          simpa [bumped, State.emit, dequeued] using ((hI x).2 hm).2.1
  | GetCurrentHitsByID i =>
    exact hI
  | CancelByID i =>
    simp only [perform]
    obtain ⟨h1, h2, -, h4, h5, -, -⟩ := cancelByID_fold i s.ActiveAsyncLineTraces s
    refine MembershipInvariant_congr _ s hI h4 h5 h2 ?_ ?_ ?_ <;> intro e
    · unfold CancelAsyncLineTracesByID; rw [h1 e]
    · unfold CancelAsyncLineTracesByID; rw [h1 e]
    · unfold CancelAsyncLineTracesByID; rw [h1 e]
  | CancelAll =>
    simp only [perform]
    obtain ⟨h1, h2, -, h4, h5, -, -, -⟩ := CancelAll_frame s
    refine MembershipInvariant_congr _ s hI h4 h5 h2 ?_ ?_ ?_ <;> intro e
    · rw [h1 e]
    · rw [h1 e]
    · rw [h1 e]
  | SceneLost c =>
    simp only [perform]
    intro e
    obtain ⟨i1, i2⟩ := hI e
    refine ⟨i1, fun hm => ?_⟩
    obtain ⟨j1, j2, j3⟩ := i2 hm
    refine ⟨j1, j2, ?_⟩
    rcases j3 with j3 | j3
    · exact Or.inl j3
    · exact Or.inr (GetWorld_update_false _ _ _ j3)

theorem Initial_MembershipInvariant (s : State) (h : Initial s) : MembershipInvariant s := by
  obtain ⟨hF, hR, -⟩ := h
  intro e
  rw [hR, Fresh_not_in_progress _ (hF e)]
  simp

theorem run_MembershipInvariant (ops : List Op) :
    ∀ (s : State), MembershipInvariant s → MembershipInvariant (run ops s) := by
  induction ops with
  | nil => intro s hI; exact hI
  | cons op ops ih =>
    intro s hI
    have hrun : run (op :: ops) s = run ops (step s op) := rfl
    rw [hrun]
    exact ih _ (step_MembershipInvariant op s hI)

/-- An operation that is not the loss of the context `ctx` leaves the liveness of the
scene of `ctx` as it is. -/
theorem step_GetWorld (op : Op) (s : State) (ctx : Option Nat)
    (hop : op.losesContext ctx = false) :
    GetWorld (step s op).WorldLive ctx = GetWorld s.WorldLive ctx := by
  by_cases hcr : s.Crashed = true
  · rw [step_dead_process s op hcr]
  rw [step_alive s op (by simpa using hcr)]
  cases op with
  | Activate x => simp only [perform]; rw [(Activate_effect x s).1]
  | Cancel x => simp only [perform]; rw [CancelAsyncLineTrace_eq]
  | Callback x d => simp only [perform]; rw [(DeliverCallback_effect x d s).1]
  | GetCurrentHitsByID i => rfl
  | CancelByID i =>
    simp only [perform]
    obtain ⟨-, -, -, h4, -⟩ := cancelByID_fold i s.ActiveAsyncLineTraces s
    unfold CancelAsyncLineTracesByID
    rw [h4]
  | CancelAll =>
    simp only [perform]
    rw [(CancelAll_frame s).2.2.2.1]
  | SceneLost c =>
    simp only [perform, SceneLost]
    cases ctx with
    | none => rfl
    | some a =>
      have hne : a ≠ c := by
        intro h
        simp [Op.losesContext, h] at hop
      simp [GetWorld, hne]

/-- An engine enters the registry only through its own accepted `Activate`. -/
theorem step_registry_gain (op : Op) (s : State) (e : Nat)
    (hm : some e ∈ (step s op).ActiveAsyncLineTraces) :
    some e ∈ s.ActiveAsyncLineTraces ∨ (op = Op.Activate e ∧ activatable e s = true) := by
  by_cases hcr : s.Crashed = true
  · rw [step_dead_process s op hcr] at hm
    exact Or.inl hm
  rw [step_alive s op (by simpa using hcr)] at hm
  cases op with
  | Activate x =>
    simp only [perform] at hm
    rcases Activate_cases x s with ⟨-, hA⟩ | ⟨-, -, hA⟩ | ⟨ha, -, hA⟩
    · rw [hA] at hm
      left
      simp only [exited, rejected] at hm
      split_ifs at hm
      · exact (List.mem_filter.mp hm).1
      · exact hm
    · rw [hA] at hm
      left
      simp only [exited, accepted] at hm
      split_ifs at hm
      · exact (List.mem_filter.mp hm).1
      · exact hm
    · rw [hA] at hm
      simp only [issued, RegisterAsyncLineTrace, accepted, Option.isSome_some, if_true] at hm
      split_ifs at hm with hx
      · exact Or.inl hm
      · rw [List.mem_append, List.mem_singleton] at hm
        rcases hm with hm | hm
        · exact Or.inl hm
        · right
          have hex : e = x := Option.some.inj hm
          subst hex
          exact ⟨rfl, ha⟩
  | Cancel x =>
    simp only [perform] at hm
    rw [CancelAsyncLineTrace_eq] at hm
    exact Or.inl hm
  | Callback x d =>
    simp only [perform] at hm
    left
    rcases DeliverCallback_cases x d s with ⟨-, hD⟩ | ⟨-, -, -, hD⟩ | ⟨-, -, -, hD⟩
    · rw [hD] at hm; exact hm
    · rw [hD] at hm; exact hm
    · rw [hD] at hm
      obtain ⟨hits, evs, -, -, -, -, hacc⟩ := accumulated_eq x d (dequeued x s)
      rcases requested_cases x ((accumulated x d (dequeued x s)).emit (Event.Requested x))
        with ⟨-, -, hR⟩ | ⟨-, -, hR⟩ | hR <;> rw [hR, hacc] at hm
      · exact hm
      · simp only [exited, diagnosed, bumped, State.emit, dequeued] at hm
        split_ifs at hm
        · exact (List.mem_filter.mp hm).1
        · exact hm
      · simp only [exited, bumped, State.emit, dequeued] at hm
        split_ifs at hm
        · exact (List.mem_filter.mp hm).1
        · exact hm
  | GetCurrentHitsByID i => exact Or.inl hm
  | CancelByID i =>
    simp only [perform] at hm
    obtain ⟨-, h2, -⟩ := cancelByID_fold i s.ActiveAsyncLineTraces s
    unfold CancelAsyncLineTracesByID at hm
    rw [h2] at hm
    exact Or.inl hm
  | CancelAll =>
    simp only [perform] at hm
    rw [(CancelAll_frame s).2.1] at hm
    exact Or.inl hm
  | SceneLost c => exact Or.inl hm

/-- The scene an engine was registered in stays live as long as the context of its
request is not lost. -/
theorem run_member_live (e : Nat) (ops : List Op) :
    ∀ (s : State),
      (some e ∈ s.ActiveAsyncLineTraces →
        GetWorld s.WorldLive (s.Objects e).InputData.WorldContextObject = true) →
      (∀ op ∈ ops, op.losesContext (s.Objects e).InputData.WorldContextObject = false) →
      some e ∈ (run ops s).ActiveAsyncLineTraces →
        GetWorld (run ops s).WorldLive ((run ops s).Objects e).InputData.WorldContextObject
          = true := by
  induction ops with
  | nil => intro s hL _ hm; exact hL hm
  | cons op ops ih =>
    intro s hL hops
    have hrun : run (op :: ops) s = run ops (step s op) := rfl
    rw [hrun]
    have hop := hops op (List.mem_cons_self _ _)
    apply ih (step s op)
    · intro hm
      rw [step_InputData, step_GetWorld op s _ hop]
      rcases step_registry_gain op s e hm with h | ⟨-, ha⟩
      · exact hL h
      · simp only [activatable, Bool.and_eq_true, Bool.not_eq_true', decide_eq_true_eq] at ha
        exact ha.1.1.2
    · intro o ho
      rw [step_InputData]
      exact hops o (List.mem_cons_of_mem _ ho)

/-- C10 (counterexample): from freshly constructed engines and an empty registry, an
engine is activated, its scene context stops resolving, and the callback of its query is
delivered: the engine exits without being unregistered, so it is a member of the
registry although its in-progress flag is false. -/
theorem registry_member_not_in_progress :
    Initial (multiState 1) ∧
    ¬ (some 0 ∈ (run [Op.Activate 0, Op.SceneLost 0, Op.Callback 0 ⟨[]⟩]
          (multiState 1)).ActiveAsyncLineTraces ↔
        ((run [Op.Activate 0, Op.SceneLost 0, Op.Callback 0 ⟨[]⟩]
          (multiState 1)).Objects 0).bTraceInProgress = true) :=
  ⟨⟨fun _ => ⟨ETraceTypeCustom.Multi, exampleRequest 1, Or.inl ⟨0, rfl⟩⟩, rfl, rfl⟩, by decide⟩

/-- C10 (amended): in every state reached from freshly constructed engines and an empty
registry by any sequence of the public operations and backend events, the loss of scene
contexts included, an engine whose in-progress flag is true is a member of the registry;
a member of the registry whose own scene context still resolves to a live scene has its
in-progress flag true; and for every engine whose own scene context has not become
unresolvable during the run, membership and in-progress flag coincide. -/
theorem registry_iff_in_progress (s0 : State) (ops : List Op) (h0 : Initial s0) (e : Nat) :
    (((run ops s0).Objects e).bTraceInProgress = true →
      some e ∈ (run ops s0).ActiveAsyncLineTraces) ∧
    (some e ∈ (run ops s0).ActiveAsyncLineTraces →
      GetWorld (run ops s0).WorldLive ((run ops s0).Objects e).InputData.WorldContextObject
        = true →
      ((run ops s0).Objects e).bTraceInProgress = true) ∧
    ((∀ op ∈ ops, op.losesContext (s0.Objects e).InputData.WorldContextObject = false) →
      (some e ∈ (run ops s0).ActiveAsyncLineTraces ↔
        ((run ops s0).Objects e).bTraceInProgress = true)) := by
  have hJ := run_MembershipInvariant ops s0 (Initial_MembershipInvariant s0 h0) e
  have key : some e ∈ (run ops s0).ActiveAsyncLineTraces →
      GetWorld (run ops s0).WorldLive ((run ops s0).Objects e).InputData.WorldContextObject
        = true →
      ((run ops s0).Objects e).bTraceInProgress = true := by
    intro hm hw
    obtain ⟨-, hwc, hj⟩ := hJ.2 hm
    rcases hj with hp | hdead
    · exact hp
    · rw [hwc, hw] at hdead
      cases hdead
  refine ⟨hJ.1, key, fun hops => ⟨fun hm => key hm ?_, hJ.1⟩⟩
  refine run_member_live e ops s0 ?_ hops hm
  intro hm0
  rw [h0.2.1] at hm0
  cases hm0

/-- C10 (witness): an engine on scene context 0 is activated, the unrelated scene
context 5 is lost, and the callback of the engine is delivered: membership and
in-progress flag coincide, the engine being still a member and in progress. -/
theorem registry_iff_in_progress_witness :
    (some 0 ∈ (run [Op.Activate 0, Op.SceneLost 5, Op.Callback 0 ⟨[]⟩]
        (multiState 2)).ActiveAsyncLineTraces ↔
      ((run [Op.Activate 0, Op.SceneLost 5, Op.Callback 0 ⟨[]⟩]
        (multiState 2)).Objects 0).bTraceInProgress = true) ∧
    ((run [Op.Activate 0, Op.SceneLost 5, Op.Callback 0 ⟨[]⟩]
        (multiState 2)).Objects 0).bTraceInProgress = true :=
  have h := registry_iff_in_progress (multiState 2)
    [Op.Activate 0, Op.SceneLost 5, Op.Callback 0 ⟨[]⟩]
    ⟨fun _ => ⟨ETraceTypeCustom.Multi, exampleRequest 2, Or.inl ⟨0, rfl⟩⟩, rfl, rfl⟩ 0
  ⟨h.2.2 (by decide), by decide⟩

end AsyncTrace
